import Mathlib

/-!
Verification of the boundary-scoped filesystem access layer
(`src/infra/boundary-path.ts`, the verified opener / root-scoped
read-write helpers, and `src/infra/boundary-file-read.ts`).

The embedding is a shallow model over POSIX-style paths:

* an absolute path is its list of segments (`FsPath`), so `/work/a.txt`
  is `["work", "a.txt"]` and the filesystem root `/` is `[]`;
* a filesystem is a finite association list from canonical absolute
  paths to nodes (`Fs`); symlinks are nodes carrying an absolute target
  path, and path lookups resolve intermediate symlinks with explicit
  fuel (standing in for the kernel's `ELOOP` detection);
* the blocking (`*Sync`) and the suspension-capable functions of the
  source are embedded separately, mirroring their respective control
  flow, against the same pure filesystem primitives (one call observes
  one filesystem state, which is what "identical filesystem state"
  means in the contract);
* the verified opener and the root-scoped helpers are embedded in a
  small state monad that threads a logical clock through a trace of
  filesystem snapshots (`Nat → Fs`), so that time-of-check-to-time-of-use
  races between the individual filesystem observations of one call are
  expressible, and records an event log of the destructive operations
  (open / read / truncate / create / remove / write).
-/

namespace OpenClaw

deriving instance DecidableEq for Except

/-! ## Path model -/

/-- An absolute POSIX path, as its list of segments (`/` is `[]`). -/
abbrev FsPath := List String

/-- Lexical normalization of a segment list: drops empty and `.` segments
and lets `..` pop the previous segment (at the root, `/..` stays `/`),
as `path.resolve` / `path.normalize` do for absolute POSIX paths.
The accumulator holds the already-processed segments in reverse. -/
def normalizeGo : List String → List String → List String
  | acc, [] => acc.reverse
  | acc, s :: rest =>
    if s = "" ∨ s = "." then normalizeGo acc rest
    else if s = ".." then normalizeGo acc.tail rest
    else normalizeGo (s :: acc) rest

/-- `path.resolve` applied to one absolute path: lexical normalization. -/
def pathResolve (p : FsPath) : FsPath := normalizeGo [] p

/-- Core of `path.relative` for two normalized absolute paths: strip the
common prefix, then one `..` per remaining segment of the source. -/
def pathRelativeGo : FsPath → FsPath → List String
  | [], t => t
  | f, [] => f.map (fun _ => "..")
  | a :: as, b :: bs =>
    if a = b then pathRelativeGo as bs
    else (a :: as).map (fun _ => "..") ++ (b :: bs)

/-- `path.relative(from, to)` for absolute paths (as segment lists). -/
def pathRelative (f t : FsPath) : List String :=
  pathRelativeGo (pathResolve f) (pathResolve t)

/-- Modelled from the spec: `path-guards.ts` is not among the sources;
the spec describes the guard as the primitive predicate "is path A
lexically inside path B", and P1 spells out descendant-of-or-equal-to.
So: the normalized parent is a (not necessarily proper) segment-prefix
of the normalized child. -/
def isPathInside (parent child : FsPath) : Bool :=
  (pathResolve parent).isPrefixOf (pathResolve child)

/-! ## Filesystem model -/

/-- Error codes produced by the modelled filesystem primitives. -/
inductive FsError
  | enoent
  | eloop
  | eisdir
  | eexist
  | einval
  deriving DecidableEq, Repr, BEq

/-- Modelled from the spec: `path-guards.ts` is not among the sources;
the spec describes the guard "is this error a not-found error".
`ENOENT` is the not-found code the modelled primitives produce. -/
def isNotFoundPathError (e : FsError) : Bool := e = .enoent

/-- Modelled from the spec: `path-guards.ts` is not among the sources;
the spec describes the guard "is this error specifically a symlink-open
rejection". Opening a symlink with `O_NOFOLLOW` fails with `ELOOP`. -/
def isSymlinkOpenError (e : FsError) : Bool := e = .eloop

/-- `hasNodeErrorCode(err, code)` from `path-guards.ts` (not among the
sources): comparison of an error's code. -/
def hasNodeErrorCode (e c : FsError) : Bool := e = c

/-- A filesystem node. Every node carries its inode number; symlink
targets are stored as absolute paths. -/
inductive FsNode
  | file (ino nlink size : Nat)
  | dir (ino : Nat)
  | symlink (ino : Nat) (target : FsPath)
  | other (ino : Nat)
  deriving DecidableEq, Repr, BEq

/-- A filesystem: a finite map from canonical absolute paths to nodes.
The root `/` (`[]`) is always an implicit directory. -/
abbrev Fs := List (FsPath × FsNode)

def lookupFs (fs : Fs) (p : FsPath) : Option FsNode :=
  (fs.find? (fun e => e.1 == p)).map (·.2)

inductive FileKind
  | file
  | directory
  | symlink
  | other
  deriving DecidableEq, Repr, BEq

/-- The metadata record observed by `stat`-family calls. -/
structure Stats where
  kind : FileKind
  ino : Nat
  nlink : Nat
  size : Nat
  deriving DecidableEq, Repr, BEq

def statsOf : FsNode → Stats
  | .file i n sz => ⟨.file, i, n, sz⟩
  | .dir i => ⟨.directory, i, 1, 0⟩
  | .symlink i _ => ⟨.symlink, i, 1, 0⟩
  | .other i => ⟨.other, i, 1, 0⟩

def rootDirStats : Stats := ⟨.directory, 0, 1, 0⟩

/-- Modelled from the spec: `file-identity.ts` (`sameFileIdentity`) is
not among the sources; the spec defines identity verification as "both
observations report the same underlying file identity (device + inode)".
The model has a single device, so identity is the inode number. -/
def sameFileIdentity (a b : Stats) : Bool := a.ino = b.ino

/-- Fuel used by the symlink-resolving walks; stands in for the
kernel's `ELOOP` limit on nested symlinks. -/
def FUEL : Nat := 64

/-- Resolve the components of `rest` on top of the already-canonical
`done`, following symlinks (spending fuel at each hop). This is how the
kernel interprets a path; `none` lookups give `ENOENT`, running out of
fuel gives `ELOOP`. -/
def resolveComponents (fs : Fs) : Nat → FsPath → List String → Except FsError FsPath
  | _, done, [] => .ok done
  | 0, _, _ :: _ => .error .eloop
  | fuel + 1, done, s :: rest' =>
    match lookupFs fs (done ++ [s]) with
    | none => .error .enoent
    | some (.symlink _ target) =>
      match resolveComponents fs fuel [] (pathResolve target) with
      | .error e => .error e
      | .ok resolved => resolveComponents fs fuel resolved rest'
    | some _ => resolveComponents fs fuel (done ++ [s]) rest'

/-- `fs.realpath`: fully resolve a path, every component (the final one
included) freed of symlinks; fails with `ENOENT` when the target does
not exist. -/
def fsRealpath (fs : Fs) (p : FsPath) : Except FsError FsPath :=
  resolveComponents fs FUEL [] (pathResolve p)

/-- Look a canonical path up directly (the root `[]` is always a
directory). -/
def lstatDirect (fs : Fs) (p : FsPath) : Except FsError Stats :=
  if p = [] then .ok rootDirStats
  else
    match lookupFs fs p with
    | some n => .ok (statsOf n)
    | none => .error .enoent

/-- `fs.lstat`: resolve the parent directories (following their
symlinks), then report the final component without following it. -/
def fsLstat (fs : Fs) (p : FsPath) : Except FsError Stats :=
  match (pathResolve p).reverse with
  | [] => .ok rootDirStats
  | lastSeg :: revParent =>
    match resolveComponents fs FUEL [] revParent.reverse with
    | .error e => .error e
    | .ok parent => lstatDirect fs (parent ++ [lastSeg])

/-- `fs.stat`: fully resolve the path and report the target. -/
def fsStat (fs : Fs) (p : FsPath) : Except FsError Stats :=
  match fsRealpath fs p with
  | .error e => .error e
  | .ok q => lstatDirect fs q

/-- `fs.readlink`: the stored target of a symlink (targets are stored
as absolute paths in this model). -/
def fsReadlink (fs : Fs) (p : FsPath) : Except FsError FsPath :=
  match (pathResolve p).reverse with
  | [] => .error .einval
  | lastSeg :: revParent =>
    match resolveComponents fs FUEL [] revParent.reverse with
    | .error e => .error e
    | .ok parent =>
      match lookupFs fs (parent ++ [lastSeg]) with
      | some (.symlink _ target) => .ok target
      | some _ => .error .einval
      | none => .error .enoent

/-- `fs.open` with `O_RDONLY | O_NOFOLLOW` (the `SUPPORTS_NOFOLLOW`
platform case of the source): resolve the parent, refuse to follow a
final symlink (`ELOOP`), refuse a directory (`EISDIR`), otherwise yield
the opened node's stats together with its canonical path. -/
def fsOpenReadNoFollow (fs : Fs) (p : FsPath) : Except FsError (Stats × FsPath) :=
  match (pathResolve p).reverse with
  | [] => .error .eisdir
  | lastSeg :: revParent =>
    match resolveComponents fs FUEL [] revParent.reverse with
    | .error e => .error e
    | .ok parent =>
      match lookupFs fs (parent ++ [lastSeg]) with
      | none => .error .enoent
      | some (.symlink _ _) => .error .eloop
      | some (.dir _) => .error .eisdir
      | some n => .ok (statsOf n, parent ++ [lastSeg])

/-! ## Boundary path resolver (`src/infra/boundary-path.ts`) -/

inductive BoundaryPathIntent
  | read
  | write
  | create
  | delete
  | stat
  deriving DecidableEq, Repr

structure BoundaryPathAliasPolicy where
  allowFinalSymlinkForUnlink : Bool := false
  allowFinalHardlinkForUnlink : Bool := false
  deriving DecidableEq, Repr

def BOUNDARY_PATH_ALIAS_POLICIES_strict : BoundaryPathAliasPolicy :=
  { allowFinalSymlinkForUnlink := false, allowFinalHardlinkForUnlink := false }

def BOUNDARY_PATH_ALIAS_POLICIES_unlinkTarget : BoundaryPathAliasPolicy :=
  { allowFinalSymlinkForUnlink := true, allowFinalHardlinkForUnlink := true }

structure ResolveBoundaryPathParams where
  absolutePath : FsPath
  rootPath : FsPath
  boundaryLabel : String
  intent : Option BoundaryPathIntent := none
  policy : Option BoundaryPathAliasPolicy := none
  skipLexicalRootCheck : Bool := false
  rootCanonicalPath : Option FsPath := none
  deriving Repr

inductive ResolvedBoundaryPathKind
  | missing
  | file
  | directory
  | symlink
  | other
  deriving DecidableEq, Repr, BEq

structure ResolvedBoundaryPath where
  absolutePath : FsPath
  canonicalPath : FsPath
  rootPath : FsPath
  rootCanonicalPath : FsPath
  relativePath : List String
  «exists» : Bool
  kind : ResolvedBoundaryPathKind
  deriving DecidableEq, Repr

/-- The failures of the resolver, by the distinct error sites of the
source (`assertInsideBoundary`, `pathEscapeError`, `symlinkEscapeError`),
plus propagation of other filesystem errors. The source's message-only
`shortPath` shortening is cosmetic and not modelled. -/
inductive BoundaryError
  | insideBoundary (boundaryLabel : String) (rootCanonicalPath absolutePath : FsPath)
  | pathEscape (boundaryLabel : String) (rootPath absolutePath : FsPath)
  | symlinkEscape (boundaryLabel : String) (rootCanonicalPath symlinkPath : FsPath)
  | fsError (e : FsError)
  deriving DecidableEq, Repr

/-- `path.parse(candidate).root === candidate`: only the filesystem
root satisfies this. -/
def isFilesystemRoot (candidate : FsPath) : Bool := pathResolve candidate = []

/-- `pathExists` of the source: an `lstat` probe; `ENOENT` means false,
other failures propagate. -/
def pathExists (fs : Fs) (targetPath : FsPath) : Except FsError Bool :=
  match fsLstat fs targetPath with
  | .ok _ => .ok true
  | .error e => if isNotFoundPathError e then .ok false else .error e

def toResolvedKind (stat : Stats) : ResolvedBoundaryPathKind :=
  if stat.kind = .file then .file
  else if stat.kind = .directory then .directory
  else if stat.kind = .symlink then .symlink
  else .other

def relativeInsideRoot (rootPath targetPath : FsPath) : List String :=
  let relative := pathRelative rootPath targetPath
  if relative = [] then []
  else if relative.head? = some ".." then []
  else relative

def assertInsideBoundary (boundaryLabel : String)
    (rootCanonicalPath candidatePath absolutePath : FsPath) :
    Except BoundaryError Unit :=
  if isPathInside rootCanonicalPath candidatePath then .ok ()
  else .error (.insideBoundary boundaryLabel rootCanonicalPath absolutePath)

/-- The ancestor walk of `resolvePathViaExistingAncestor`: step to the
parent while the cursor is neither the filesystem root nor an existing
path, collecting the missing suffix. The fuel is the initial cursor
length plus one, which the walk can never exhaust. -/
def resolvePathViaExistingAncestorGo (fs : Fs) :
    Nat → FsPath → List String → Except FsError (FsPath × List String)
  | 0, cursor, missingSuffix => .ok (cursor, missingSuffix)
  | n + 1, cursor, missingSuffix =>
    if isFilesystemRoot cursor then .ok (cursor, missingSuffix)
    else
      match pathExists fs cursor with
      | .error e => .error e
      | .ok true => .ok (cursor, missingSuffix)
      | .ok false =>
        match cursor.reverse with
        | [] => .ok (cursor, missingSuffix)
        | lastSeg :: revParent =>
          resolvePathViaExistingAncestorGo fs n revParent.reverse (lastSeg :: missingSuffix)

/-- `resolvePathViaExistingAncestor` (suspension-capable variant):
canonicalize the deepest existing ancestor via `realpath` and append
the missing suffix lexically; when even that fails, fall back to the
lexically normalized input. -/
def resolvePathViaExistingAncestor (fs : Fs) (targetPath : FsPath) : Except FsError FsPath :=
  let normalized := pathResolve targetPath
  match resolvePathViaExistingAncestorGo fs (normalized.length + 1) normalized [] with
  | .error e => .error e
  | .ok (cursor, missingSuffix) =>
    match pathExists fs cursor with
    | .error e => .error e
    | .ok false => .ok normalized
    | .ok true =>
      match fsRealpath fs cursor with
      | .error _ => .ok normalized
      | .ok resolvedAncestor => .ok (pathResolve (resolvedAncestor ++ missingSuffix))

/-- `fs.existsSync` of the source sync walker: Node's existence probe
is `stat`-based — it follows symlinks — and swallows every error, so a
dangling symlink (or any other failing path) counts as missing. This is
the probe that makes the blocking walker genuinely differ from the
suspension-capable one. -/
def existsSyncB (fs : Fs) (targetPath : FsPath) : Bool :=
  match fsStat fs targetPath with
  | .ok _ => true
  | .error _ => false

/-- The ancestor walk of `resolvePathViaExistingAncestorSync`: the same
loop as the suspension-capable walk, but probing with `fs.existsSync`,
which never throws. -/
def resolvePathViaExistingAncestorSyncGo (fs : Fs) :
    Nat → FsPath → List String → FsPath × List String
  | 0, cursor, missingSuffix => (cursor, missingSuffix)
  | n + 1, cursor, missingSuffix =>
    if isFilesystemRoot cursor then (cursor, missingSuffix)
    else if existsSyncB fs cursor then (cursor, missingSuffix)
    else
      match cursor.reverse with
      | [] => (cursor, missingSuffix)
      | lastSeg :: revParent =>
        resolvePathViaExistingAncestorSyncGo fs n revParent.reverse (lastSeg :: missingSuffix)

/-- `resolvePathViaExistingAncestorSync`: the blocking variant. Unlike
the suspension-capable walker it probes with `fs.existsSync` (symlink-
following, error-swallowing), so it walks past a dangling symlink where
the `lstat`-probing walker stops on it, and it can never fail (the
`Except` wrapper only matches the call sites; every result is `.ok`). -/
def resolvePathViaExistingAncestorSync (fs : Fs) (targetPath : FsPath) : Except FsError FsPath :=
  let normalized := pathResolve targetPath
  match resolvePathViaExistingAncestorSyncGo fs (normalized.length + 1) normalized [] with
  | (cursor, missingSuffix) =>
    if existsSyncB fs cursor then
      match fsRealpath fs cursor with
      | .error _ => .ok normalized
      | .ok resolvedAncestor => .ok (pathResolve (resolvedAncestor ++ missingSuffix))
    else .ok normalized

/-- `getPathKind`: `lstat` when a final alias is intentionally
preserved, `stat` otherwise; `ENOENT` means `{exists := false, kind :=
missing}`; other failures propagate. Returns `(exists, kind)`. -/
def getPathKind (fs : Fs) (absolutePath : FsPath) (preserveFinalSymlink : Bool) :
    Except BoundaryError (Bool × ResolvedBoundaryPathKind) :=
  match (if preserveFinalSymlink then fsLstat fs absolutePath else fsStat fs absolutePath) with
  | .ok stat => .ok (true, toResolvedKind stat)
  | .error e => if isNotFoundPathError e then .ok (false, .missing) else .error (.fsError e)

/-- `getPathKindSync`: blocking variant of `getPathKind`. -/
def getPathKindSync (fs : Fs) (absolutePath : FsPath) (preserveFinalSymlink : Bool) :
    Except BoundaryError (Bool × ResolvedBoundaryPathKind) :=
  match (if preserveFinalSymlink then fsLstat fs absolutePath else fsStat fs absolutePath) with
  | .ok stat => .ok (true, toResolvedKind stat)
  | .error e => if isNotFoundPathError e then .ok (false, .missing) else .error (.fsError e)

structure LexicalTraversalState where
  segments : List String
  allowFinalSymlink : Bool
  canonicalCursor : FsPath
  lexicalCursor : FsPath
  preserveFinalSymlink : Bool
  deriving Repr

def createLexicalTraversalState (params : ResolveBoundaryPathParams)
    (rootPath rootCanonicalPath absolutePath : FsPath) : LexicalTraversalState :=
  { segments := (pathRelative rootPath absolutePath).filter (fun s => !(s == ""))
    allowFinalSymlink := (params.policy.map (·.allowFinalSymlinkForUnlink)).getD false
    canonicalCursor := rootCanonicalPath
    lexicalCursor := rootPath
    preserveFinalSymlink := false }

def buildResolvedBoundaryPath (absolutePath canonicalPath rootPath rootCanonicalPath : FsPath)
    (kind : Bool × ResolvedBoundaryPathKind) : ResolvedBoundaryPath :=
  { absolutePath := absolutePath
    canonicalPath := canonicalPath
    rootPath := rootPath
    rootCanonicalPath := rootCanonicalPath
    relativePath := relativeInsideRoot rootCanonicalPath canonicalPath
    «exists» := kind.1
    kind := kind.2 }

/-- `applyMissingSuffixToCanonicalCursor`: extend the canonical cursor
by all remaining (missing) segments at once and re-verify containment
(via `assertLexicalCursorInsideBoundary`/`assertInsideBoundary`). -/
def applyMissingSuffixToCanonicalCursor (params : ResolveBoundaryPathParams)
    (state : LexicalTraversalState) (missingFromIndex : Nat)
    (rootCanonicalPath absolutePath : FsPath) : Except BoundaryError LexicalTraversalState := do
  let missingSuffix := state.segments.drop missingFromIndex
  let state' := { state with canonicalCursor := pathResolve (state.canonicalCursor ++ missingSuffix) }
  let _ ← assertInsideBoundary params.boundaryLabel rootCanonicalPath state'.canonicalCursor absolutePath
  .ok state'

/-- `advanceCanonicalCursorForSegment`: extend the canonical cursor by
one segment and re-verify containment on this hop. -/
def advanceCanonicalCursorForSegment (params : ResolveBoundaryPathParams)
    (state : LexicalTraversalState) (segment : String)
    (rootCanonicalPath absolutePath : FsPath) : Except BoundaryError LexicalTraversalState := do
  let state' := { state with canonicalCursor := pathResolve (state.canonicalCursor ++ [segment]) }
  let _ ← assertInsideBoundary params.boundaryLabel rootCanonicalPath state'.canonicalCursor absolutePath
  .ok state'

inductive LexicalStatDisposition
  | cont
  | brk
  | resolveLink
  deriving DecidableEq, Repr

/-- `handleLexicalStatDisposition`: a non-symlink segment advances the
canonical cursor; a final symlink under a permitting policy is
preserved (both cursors advance, traversal stops); any other symlink is
handed to symlink resolution. -/
def handleLexicalStatDisposition (params : ResolveBoundaryPathParams)
    (state : LexicalTraversalState) (isSymbolicLink : Bool) (segment : String) (isLast : Bool)
    (rootCanonicalPath absolutePath : FsPath) :
    Except BoundaryError (LexicalStatDisposition × LexicalTraversalState) := do
  if !isSymbolicLink then
    let state' ← advanceCanonicalCursorForSegment params state segment rootCanonicalPath absolutePath
    return (.cont, state')
  if state.allowFinalSymlink && isLast then
    let state' ← advanceCanonicalCursorForSegment params
      { state with preserveFinalSymlink := true } segment rootCanonicalPath absolutePath
    return (.brk, state')
  return (.resolveLink, state)

/-- `resolveSymlinkHopPath` (suspension-capable variant): `realpath`
the symlink; when its target does not yet exist, fall back to
`readlink` plus the existing-ancestor resolution so dangling symlinks
still yield a deterministic canonical path. -/
def resolveSymlinkHopPath (fs : Fs) (symlinkPath : FsPath) : Except FsError FsPath :=
  match fsRealpath fs symlinkPath with
  | .ok r => .ok (pathResolve r)
  | .error e =>
    if !isNotFoundPathError e then .error e
    else
      match fsReadlink fs symlinkPath with
      | .error e2 => .error e2
      | .ok linkTarget =>
        -- `path.resolve(path.dirname(symlinkPath), linkTarget)`: targets
        -- are stored absolute in this model, so this is normalization.
        resolvePathViaExistingAncestor fs (pathResolve linkTarget)

/-- `resolveSymlinkHopPathSync`: blocking variant. -/
def resolveSymlinkHopPathSync (fs : Fs) (symlinkPath : FsPath) : Except FsError FsPath :=
  match fsRealpath fs symlinkPath with
  | .ok r => .ok (pathResolve r)
  | .error e =>
    if !isNotFoundPathError e then .error e
    else
      match fsReadlink fs symlinkPath with
      | .error e2 => .error e2
      | .ok linkTarget =>
        resolvePathViaExistingAncestorSync fs (pathResolve linkTarget)

/-- `applyResolvedSymlinkHop`: a resolved symlink target outside the
root's canonical form is a symlink-escape failure; otherwise both
cursors jump to the resolved form. -/
def applyResolvedSymlinkHop (boundaryLabel : String) (state : LexicalTraversalState)
    (linkCanonical rootCanonicalPath : FsPath) : Except BoundaryError LexicalTraversalState :=
  if !isPathInside rootCanonicalPath linkCanonical then
    .error (.symlinkEscape boundaryLabel rootCanonicalPath state.lexicalCursor)
  else
    .ok { state with canonicalCursor := linkCanonical, lexicalCursor := linkCanonical }

/-- `resolveAndApplySymlinkHop` (suspension-capable variant). -/
def resolveAndApplySymlinkHop (fs : Fs) (boundaryLabel : String)
    (state : LexicalTraversalState) (rootCanonicalPath : FsPath) :
    Except BoundaryError LexicalTraversalState :=
  match resolveSymlinkHopPath fs state.lexicalCursor with
  | .error e => .error (.fsError e)
  | .ok linkCanonical => applyResolvedSymlinkHop boundaryLabel state linkCanonical rootCanonicalPath

/-- `resolveAndApplySymlinkHopSync`: blocking variant. -/
def resolveAndApplySymlinkHopSync (fs : Fs) (boundaryLabel : String)
    (state : LexicalTraversalState) (rootCanonicalPath : FsPath) :
    Except BoundaryError LexicalTraversalState :=
  match resolveSymlinkHopPathSync fs state.lexicalCursor with
  | .error e => .error (.fsError e)
  | .ok linkCanonical => applyResolvedSymlinkHop boundaryLabel state linkCanonical rootCanonicalPath

/-- The per-segment loop of `resolveBoundaryPathLexicalAsync` (the
`iterateLexicalTraversal` generator plus the loop body): extend the
lexical cursor, `lstat` it; `ENOENT` appends the whole missing suffix
and stops (`readLexicalStat` / `handleLexicalLstatFailure`); other
`lstat` failures propagate; otherwise dispatch on the disposition. -/
def lexicalTraversalLoopAsync (fs : Fs) (params : ResolveBoundaryPathParams)
    (rootCanonicalPath absolutePath : FsPath) :
    LexicalTraversalState → Nat → List String → Except BoundaryError LexicalTraversalState
  | state, _, [] => .ok state
  | state, idx, segment :: rest => do
    let isLast := rest.isEmpty
    let state := { state with lexicalCursor := pathResolve (state.lexicalCursor ++ [segment]) }
    match fsLstat fs state.lexicalCursor with
    | .error e =>
      if isNotFoundPathError e then
        applyMissingSuffixToCanonicalCursor params state idx rootCanonicalPath absolutePath
      else .error (.fsError e)
    | .ok stat =>
      let (disposition, state') ← handleLexicalStatDisposition params state
        (stat.kind == .symlink) segment isLast rootCanonicalPath absolutePath
      match disposition with
      | .cont => lexicalTraversalLoopAsync fs params rootCanonicalPath absolutePath state' (idx + 1) rest
      | .brk => .ok state'
      | .resolveLink => do
        let state'' ← resolveAndApplySymlinkHop fs params.boundaryLabel state' rootCanonicalPath
        lexicalTraversalLoopAsync fs params rootCanonicalPath absolutePath state'' (idx + 1) rest

/-- The per-segment loop of `resolveBoundaryPathLexicalSync` (the
blocking for-loop of the source). -/
def lexicalTraversalLoopSync (fs : Fs) (params : ResolveBoundaryPathParams)
    (rootCanonicalPath absolutePath : FsPath) :
    LexicalTraversalState → Nat → List String → Except BoundaryError LexicalTraversalState
  | state, _, [] => .ok state
  | state, idx, segment :: rest => do
    let isLast := rest.isEmpty
    let state := { state with lexicalCursor := pathResolve (state.lexicalCursor ++ [segment]) }
    match fsLstat fs state.lexicalCursor with
    | .error e =>
      if isNotFoundPathError e then
        applyMissingSuffixToCanonicalCursor params state idx rootCanonicalPath absolutePath
      else .error (.fsError e)
    | .ok stat =>
      let (disposition, state') ← handleLexicalStatDisposition params state
        (stat.kind == .symlink) segment isLast rootCanonicalPath absolutePath
      match disposition with
      | .cont => lexicalTraversalLoopSync fs params rootCanonicalPath absolutePath state' (idx + 1) rest
      | .brk => .ok state'
      | .resolveLink => do
        let state'' ← resolveAndApplySymlinkHopSync fs params.boundaryLabel state' rootCanonicalPath
        lexicalTraversalLoopSync fs params rootCanonicalPath absolutePath state'' (idx + 1) rest

/-- `finalizeLexicalResolution`: a last containment assertion on the
canonical cursor, then the result record is built. -/
def finalizeLexicalResolution (params : ResolveBoundaryPathParams)
    (rootPath rootCanonicalPath absolutePath : FsPath)
    (state : LexicalTraversalState) (kind : Bool × ResolvedBoundaryPathKind) :
    Except BoundaryError ResolvedBoundaryPath := do
  let _ ← assertInsideBoundary params.boundaryLabel rootCanonicalPath state.canonicalCursor absolutePath
  .ok (buildResolvedBoundaryPath absolutePath state.canonicalCursor rootPath rootCanonicalPath kind)

/-- `resolveBoundaryPathLexicalAsync`. -/
def resolveBoundaryPathLexicalAsync (fs : Fs) (params : ResolveBoundaryPathParams)
    (absolutePath rootPath rootCanonicalPath : FsPath) :
    Except BoundaryError ResolvedBoundaryPath := do
  let state := createLexicalTraversalState params rootPath rootCanonicalPath absolutePath
  let state' ← lexicalTraversalLoopAsync fs params rootCanonicalPath absolutePath state 0 state.segments
  let kind ← getPathKind fs absolutePath state'.preserveFinalSymlink
  finalizeLexicalResolution params rootPath rootCanonicalPath absolutePath state' kind

/-- `resolveBoundaryPathLexicalSync`. -/
def resolveBoundaryPathLexicalSync (fs : Fs) (params : ResolveBoundaryPathParams)
    (absolutePath rootPath rootCanonicalPath : FsPath) :
    Except BoundaryError ResolvedBoundaryPath := do
  let state := createLexicalTraversalState params rootPath rootCanonicalPath absolutePath
  let state' ← lexicalTraversalLoopSync fs params rootCanonicalPath absolutePath state 0 state.segments
  let kind ← getPathKindSync fs absolutePath state'.preserveFinalSymlink
  finalizeLexicalResolution params rootPath rootCanonicalPath absolutePath state' kind

structure BoundaryResolutionContext where
  rootPath : FsPath
  absolutePath : FsPath
  rootCanonicalPath : FsPath
  lexicalInside : Bool
  canonicalOutsideLexicalPath : FsPath
  deriving Repr

def resolveCanonicalOutsideLexicalPath (absolutePath : FsPath)
    (outsideLexicalCanonicalPath : Option FsPath) : FsPath :=
  outsideLexicalCanonicalPath.getD absolutePath

def assertLexicalBoundaryOrCanonicalAlias (skipLexicalRootCheck lexicalInside : Bool)
    (canonicalOutsideLexicalPath rootCanonicalPath : FsPath) (boundaryLabel : String)
    (rootPath absolutePath : FsPath) : Except BoundaryError Unit :=
  if skipLexicalRootCheck || lexicalInside then .ok ()
  else if isPathInside rootCanonicalPath canonicalOutsideLexicalPath then .ok ()
  else .error (.pathEscape boundaryLabel rootPath absolutePath)

def createBoundaryResolutionContext (resolveParams : ResolveBoundaryPathParams)
    (rootPath absolutePath rootCanonicalPath : FsPath)
    (outsideLexicalCanonicalPath : Option FsPath) :
    Except BoundaryError BoundaryResolutionContext := do
  let lexicalInside := isPathInside rootPath absolutePath
  let canonicalOutsideLexicalPath :=
    resolveCanonicalOutsideLexicalPath absolutePath outsideLexicalCanonicalPath
  let _ ← assertLexicalBoundaryOrCanonicalAlias resolveParams.skipLexicalRootCheck lexicalInside
    canonicalOutsideLexicalPath rootCanonicalPath resolveParams.boundaryLabel rootPath absolutePath
  .ok { rootPath := rootPath, absolutePath := absolutePath,
        rootCanonicalPath := rootCanonicalPath, lexicalInside := lexicalInside,
        canonicalOutsideLexicalPath := canonicalOutsideLexicalPath }

def buildOutsideLexicalBoundaryPath (boundaryLabel : String)
    (rootCanonicalPath absolutePath canonicalOutsideLexicalPath rootPath : FsPath)
    (kind : Bool × ResolvedBoundaryPathKind) : Except BoundaryError ResolvedBoundaryPath := do
  let _ ← assertInsideBoundary boundaryLabel rootCanonicalPath canonicalOutsideLexicalPath
    absolutePath
  .ok (buildResolvedBoundaryPath absolutePath canonicalOutsideLexicalPath rootPath
    rootCanonicalPath kind)

def resolveOutsideBoundaryPathAsync (fs : Fs) (boundaryLabel : String)
    (context : BoundaryResolutionContext) :
    Except BoundaryError (Option ResolvedBoundaryPath) := do
  if context.lexicalInside then
    .ok none
  else do
    let kind ← getPathKind fs context.absolutePath false
    let r ← buildOutsideLexicalBoundaryPath boundaryLabel context.rootCanonicalPath
      context.absolutePath context.canonicalOutsideLexicalPath context.rootPath kind
    .ok (some r)

def resolveOutsideBoundaryPathSync (fs : Fs) (boundaryLabel : String)
    (context : BoundaryResolutionContext) :
    Except BoundaryError (Option ResolvedBoundaryPath) := do
  if context.lexicalInside then
    .ok none
  else do
    let kind ← getPathKindSync fs context.absolutePath false
    let r ← buildOutsideLexicalBoundaryPath boundaryLabel context.rootCanonicalPath
      context.absolutePath context.canonicalOutsideLexicalPath context.rootPath kind
    .ok (some r)

def resolveOutsideLexicalCanonicalPathAsync (fs : Fs) (rootPath absolutePath : FsPath) :
    Except FsError (Option FsPath) :=
  if isPathInside rootPath absolutePath then .ok none
  else (resolvePathViaExistingAncestor fs absolutePath).map some

def resolveOutsideLexicalCanonicalPathSync (fs : Fs) (rootPath absolutePath : FsPath) :
    Except FsError (Option FsPath) :=
  if isPathInside rootPath absolutePath then .ok none
  else (resolvePathViaExistingAncestorSync fs absolutePath).map some

/-- `resolveBoundaryPath`: the suspension-capable resolver. -/
def resolveBoundaryPath (fs : Fs) (params : ResolveBoundaryPathParams) :
    Except BoundaryError ResolvedBoundaryPath := do
  let rootPath := pathResolve params.rootPath
  let absolutePath := pathResolve params.absolutePath
  let rootCanonicalPath ← match params.rootCanonicalPath with
    | some p => Except.ok (pathResolve p)
    | none => (resolvePathViaExistingAncestor fs rootPath).mapError .fsError
  let outsideLexical ←
    (resolveOutsideLexicalCanonicalPathAsync fs rootPath absolutePath).mapError .fsError
  let context ← createBoundaryResolutionContext params rootPath absolutePath rootCanonicalPath
    outsideLexical
  match ← resolveOutsideBoundaryPathAsync fs params.boundaryLabel context with
  | some outsideResult => .ok outsideResult
  | none =>
    resolveBoundaryPathLexicalAsync fs params context.absolutePath context.rootPath
      context.rootCanonicalPath

/-- `resolveBoundaryPathSync`: the blocking resolver. -/
def resolveBoundaryPathSync (fs : Fs) (params : ResolveBoundaryPathParams) :
    Except BoundaryError ResolvedBoundaryPath := do
  let rootPath := pathResolve params.rootPath
  let absolutePath := pathResolve params.absolutePath
  let rootCanonicalPath ← match params.rootCanonicalPath with
    | some p => Except.ok (pathResolve p)
    | none => (resolvePathViaExistingAncestorSync fs rootPath).mapError .fsError
  let outsideLexical ←
    (resolveOutsideLexicalCanonicalPathSync fs rootPath absolutePath).mapError .fsError
  let context ← createBoundaryResolutionContext params rootPath absolutePath rootCanonicalPath
    outsideLexical
  match ← resolveOutsideBoundaryPathSync fs params.boundaryLabel context with
  | some outsideResult => .ok outsideResult
  | none =>
    resolveBoundaryPathLexicalSync fs params context.absolutePath context.rootPath
      context.rootCanonicalPath

/-! ## Supporting lemmas -/

theorem except_bind_ok {ε α β : Type _} {e : Except ε α} {f : α → Except ε β} {b : β}
    (h : (e >>= f) = .ok b) : ∃ a, e = .ok a ∧ f a = .ok b := by
  cases e with
  | error err => exact absurd h (by simp [Bind.bind, Except.bind])
  | ok a => exact ⟨a, rfl, by simpa [Bind.bind, Except.bind] using h⟩

/-- Every success of `buildOutsideLexicalBoundaryPath` passed the
containment assertion, and the result's own fields record the asserted
pair. -/
theorem buildOutsideLexicalBoundaryPath_inside {boundaryLabel : String}
    {R abs c root : FsPath} {kind : Bool × ResolvedBoundaryPathKind} {res : ResolvedBoundaryPath}
    (h : buildOutsideLexicalBoundaryPath boundaryLabel R abs c root kind = .ok res) :
    isPathInside res.rootCanonicalPath res.canonicalPath = true := by
  unfold buildOutsideLexicalBoundaryPath assertInsideBoundary at h
  split at h
  · simp only [bind, Except.bind, Except.ok.injEq] at h
    subst h
    simpa [buildResolvedBoundaryPath] using ‹isPathInside R c = true›
  · simp [bind, Except.bind] at h

/-- Every success of `finalizeLexicalResolution` passed the final
containment assertion on the canonical cursor. -/
theorem finalizeLexicalResolution_inside {params : ResolveBoundaryPathParams}
    {root R abs : FsPath} {state : LexicalTraversalState}
    {kind : Bool × ResolvedBoundaryPathKind} {res : ResolvedBoundaryPath}
    (h : finalizeLexicalResolution params root R abs state kind = .ok res) :
    isPathInside res.rootCanonicalPath res.canonicalPath = true := by
  unfold finalizeLexicalResolution assertInsideBoundary at h
  split at h
  · simp only [bind, Except.bind, Except.ok.injEq] at h
    subst h
    simpa [buildResolvedBoundaryPath] using ‹isPathInside R state.canonicalCursor = true›
  · simp [bind, Except.bind] at h

theorem resolveBoundaryPathLexicalAsync_inside {fs : Fs} {params : ResolveBoundaryPathParams}
    {abs root R : FsPath} {res : ResolvedBoundaryPath}
    (h : resolveBoundaryPathLexicalAsync fs params abs root R = .ok res) :
    isPathInside res.rootCanonicalPath res.canonicalPath = true := by
  unfold resolveBoundaryPathLexicalAsync at h
  simp only [bind, Except.bind] at h
  repeat' split at h
  all_goals try exact Except.noConfusion h
  exact finalizeLexicalResolution_inside h

theorem resolveOutsideBoundaryPathAsync_inside {fs : Fs} {boundaryLabel : String}
    {context : BoundaryResolutionContext} {res : ResolvedBoundaryPath}
    (h : resolveOutsideBoundaryPathAsync fs boundaryLabel context = .ok (some res)) :
    isPathInside res.rootCanonicalPath res.canonicalPath = true := by
  unfold resolveOutsideBoundaryPathAsync at h
  simp only [bind, Except.bind] at h
  repeat' split at h
  all_goals try exact Except.noConfusion h
  · simp at h
  · rename_i hbuild
    simp only [Except.ok.injEq, Option.some.injEq] at h
    subst h
    exact buildOutsideLexicalBoundaryPath_inside hbuild

/-- Containment for the suspension-capable resolver: every successful
resolution's `canonicalPath` is a descendant of (or equal to) its
`rootCanonicalPath`. Both success exits of the resolver are guarded by
`assertInsideBoundary` — the assertion runs even when the alias policy
preserved a final symlink, because in that case the canonical cursor
is the (in-root) lexical location of the alias itself. -/
theorem resolveBoundaryPath_inside {fs : Fs} {params : ResolveBoundaryPathParams}
    {res : ResolvedBoundaryPath}
    (h : resolveBoundaryPath fs params = .ok res) :
    isPathInside res.rootCanonicalPath res.canonicalPath = true := by
  unfold resolveBoundaryPath at h
  simp only [bind, Except.bind] at h
  repeat' split at h
  all_goals try exact Except.noConfusion h
  all_goals
    first
    | (injection h with h; subst h; exact resolveOutsideBoundaryPathAsync_inside (by assumption))
    | (exact resolveBoundaryPathLexicalAsync_inside h)

/-- Containment lemmas for the blocking pipeline (same structure as the
suspension-capable one; the probe difference does not touch the success
guards). -/
theorem resolveBoundaryPathLexicalSync_inside {fs : Fs} {params : ResolveBoundaryPathParams}
    {abs root R : FsPath} {res : ResolvedBoundaryPath}
    (h : resolveBoundaryPathLexicalSync fs params abs root R = .ok res) :
    isPathInside res.rootCanonicalPath res.canonicalPath = true := by
  unfold resolveBoundaryPathLexicalSync at h
  simp only [bind, Except.bind] at h
  repeat' split at h
  all_goals try exact Except.noConfusion h
  exact finalizeLexicalResolution_inside h

theorem resolveOutsideBoundaryPathSync_inside {fs : Fs} {boundaryLabel : String}
    {context : BoundaryResolutionContext} {res : ResolvedBoundaryPath}
    (h : resolveOutsideBoundaryPathSync fs boundaryLabel context = .ok (some res)) :
    isPathInside res.rootCanonicalPath res.canonicalPath = true := by
  unfold resolveOutsideBoundaryPathSync at h
  simp only [bind, Except.bind] at h
  repeat' split at h
  all_goals try exact Except.noConfusion h
  · simp at h
  · rename_i hbuild
    simp only [Except.ok.injEq, Option.some.injEq] at h
    subst h
    exact buildOutsideLexicalBoundaryPath_inside hbuild

/-- Containment for the blocking resolver, proved directly (not through
any equivalence with the suspension-capable variant): both of its
success exits are guarded by `assertInsideBoundary` as well. -/
theorem resolveBoundaryPathSync_inside {fs : Fs} {params : ResolveBoundaryPathParams}
    {res : ResolvedBoundaryPath}
    (h : resolveBoundaryPathSync fs params = .ok res) :
    isPathInside res.rootCanonicalPath res.canonicalPath = true := by
  unfold resolveBoundaryPathSync at h
  simp only [bind, Except.bind] at h
  repeat' split at h
  all_goals try exact Except.noConfusion h
  all_goals
    first
    | (injection h with h; subst h; exact resolveOutsideBoundaryPathSync_inside (by assumption))
    | (exact resolveBoundaryPathLexicalSync_inside h)

/-! ### Conditional blocking/suspension agreement

The two pipelines differ in exactly one primitive: the existing-ancestor
walk's existence probe (`lstat`-based `pathExists` in the
suspension-capable walker, symlink-following error-swallowing
`fs.existsSync` in the blocking walker). Whenever the two probes agree
on every path, the pipelines coincide. -/

/-- The two existence probes are indistinguishable on this filesystem:
the `lstat` probe never fails, and it reports exactly what
`fs.existsSync` reports. Filesystems with a dangling symlink (or a
symlink loop) violate this. -/
def ProbesAgree (fs : Fs) : Prop :=
  ∀ q, pathExists fs q = .ok (existsSyncB fs q)

theorem ancestorGo_eq_of (fs : Fs) (hpa : ProbesAgree fs) :
    ∀ (n : Nat) (cursor : FsPath) (suffix : List String),
      resolvePathViaExistingAncestorGo fs n cursor suffix =
        .ok (resolvePathViaExistingAncestorSyncGo fs n cursor suffix) := by
  intro n
  induction n with
  | zero => intro cursor suffix; rfl
  | succ k ih =>
    intro cursor suffix
    unfold resolvePathViaExistingAncestorGo resolvePathViaExistingAncestorSyncGo
    by_cases hroot : isFilesystemRoot cursor = true
    · simp only [hroot, if_true]
    · rw [Bool.not_eq_true] at hroot
      simp only [hroot, Bool.false_eq_true, if_false]
      rw [hpa cursor]
      cases hex : existsSyncB fs cursor with
      | true => simp only [if_true]
      | false =>
        simp only [Bool.false_eq_true, if_false]
        cases hc : cursor.reverse with
        | nil => rfl
        | cons lastSeg revParent => exact ih revParent.reverse (lastSeg :: suffix)

theorem resolvePathViaExistingAncestorSync_eq_of (fs : Fs) (hpa : ProbesAgree fs)
    (p : FsPath) :
    resolvePathViaExistingAncestorSync fs p = resolvePathViaExistingAncestor fs p := by
  unfold resolvePathViaExistingAncestorSync resolvePathViaExistingAncestor
  cases hgo : resolvePathViaExistingAncestorSyncGo fs
      ((pathResolve p).length + 1) (pathResolve p) [] with
  | mk cursor suffix =>
    simp only [ancestorGo_eq_of fs hpa, hgo]
    rw [hpa cursor]
    cases hex : existsSyncB fs cursor with
    | true => simp only [if_true]
    | false => simp only [Bool.false_eq_true, if_false]

theorem resolveSymlinkHopPathSync_eq_of (fs : Fs) (hpa : ProbesAgree fs) (p : FsPath) :
    resolveSymlinkHopPathSync fs p = resolveSymlinkHopPath fs p := by
  unfold resolveSymlinkHopPathSync resolveSymlinkHopPath
  simp only [resolvePathViaExistingAncestorSync_eq_of fs hpa]

theorem resolveAndApplySymlinkHopSync_eq_of (fs : Fs) (hpa : ProbesAgree fs)
    (label : String) (state : LexicalTraversalState) (R : FsPath) :
    resolveAndApplySymlinkHopSync fs label state R =
      resolveAndApplySymlinkHop fs label state R := by
  unfold resolveAndApplySymlinkHopSync resolveAndApplySymlinkHop
  rw [resolveSymlinkHopPathSync_eq_of fs hpa]

theorem getPathKindSync_eq : @getPathKindSync = @getPathKind := rfl

theorem lexicalTraversalLoopSync_eq_of (fs : Fs) (hpa : ProbesAgree fs)
    (params : ResolveBoundaryPathParams) (R abs : FsPath) (rest : List String) :
    ∀ state idx, lexicalTraversalLoopSync fs params R abs state idx rest =
      lexicalTraversalLoopAsync fs params R abs state idx rest := by
  induction rest with
  | nil => intro state idx; rfl
  | cons s rest ih =>
    intro state idx
    unfold lexicalTraversalLoopSync lexicalTraversalLoopAsync
    simp only [resolveAndApplySymlinkHopSync_eq_of fs hpa, ih]

theorem resolveBoundaryPathLexicalSync_eq_of (fs : Fs) (hpa : ProbesAgree fs)
    (params : ResolveBoundaryPathParams) (abs root R : FsPath) :
    resolveBoundaryPathLexicalSync fs params abs root R =
      resolveBoundaryPathLexicalAsync fs params abs root R := by
  unfold resolveBoundaryPathLexicalSync resolveBoundaryPathLexicalAsync
  rw [getPathKindSync_eq]
  simp only [lexicalTraversalLoopSync_eq_of fs hpa]

theorem resolveOutsideBoundaryPathSync_eq :
    @resolveOutsideBoundaryPathSync = @resolveOutsideBoundaryPathAsync := by
  funext fs label context
  unfold resolveOutsideBoundaryPathSync resolveOutsideBoundaryPathAsync
  rw [getPathKindSync_eq]

theorem resolveOutsideLexicalCanonicalPathSync_eq_of (fs : Fs) (hpa : ProbesAgree fs)
    (rootPath absolutePath : FsPath) :
    resolveOutsideLexicalCanonicalPathSync fs rootPath absolutePath =
      resolveOutsideLexicalCanonicalPathAsync fs rootPath absolutePath := by
  unfold resolveOutsideLexicalCanonicalPathSync resolveOutsideLexicalCanonicalPathAsync
  rw [resolvePathViaExistingAncestorSync_eq_of fs hpa]

theorem resolveBoundaryPathSync_eq_of (fs : Fs) (hpa : ProbesAgree fs)
    (params : ResolveBoundaryPathParams) :
    resolveBoundaryPathSync fs params = resolveBoundaryPath fs params := by
  unfold resolveBoundaryPathSync resolveBoundaryPath
  simp only [resolvePathViaExistingAncestorSync_eq_of fs hpa,
    resolveOutsideLexicalCanonicalPathSync_eq_of fs hpa,
    resolveOutsideBoundaryPathSync_eq, resolveBoundaryPathLexicalSync_eq_of fs hpa]

/-! ## Claim theorems for the resolver -/

/-- **C1** (containment postcondition): for every filesystem, every root
path and every input path, whenever the boundary path resolver
(`resolveBoundaryPath` or `resolveBoundaryPathSync`) returns
successfully, the returned `canonicalPath` is a descendant of (or equal
to) the returned `rootCanonicalPath` — including the missing-trailing-
segments case, and in fact even when the alias policy permitted a final
symlink on the last segment (in that case the canonical path is the
in-root location of the alias itself), which subsumes the claim's
"except for a policy-permitted final alias" allowance. -/
theorem claim1_resolver_containment (fs : Fs) (params : ResolveBoundaryPathParams)
    (res : ResolvedBoundaryPath) :
    (resolveBoundaryPath fs params = .ok res →
      isPathInside res.rootCanonicalPath res.canonicalPath = true) ∧
    (resolveBoundaryPathSync fs params = .ok res →
      isPathInside res.rootCanonicalPath res.canonicalPath = true) := by
  exact ⟨fun h => resolveBoundaryPath_inside h, fun h => resolveBoundaryPathSync_inside h⟩

def fsClaim1 : Fs := [
  (["work"], .dir 1),
  (["work", "link"], .symlink 4 ["etc"]),
  (["etc"], .dir 5)
]

def paramsClaim1 : ResolveBoundaryPathParams :=
  { absolutePath := ["work", "link"], rootPath := ["work"], boundaryLabel := "workspace",
    policy := some BOUNDARY_PATH_ALIAS_POLICIES_unlinkTarget }

def resClaim1 : ResolvedBoundaryPath :=
  { absolutePath := ["work", "link"], canonicalPath := ["work", "link"],
    rootPath := ["work"], rootCanonicalPath := ["work"], relativePath := ["link"],
    «exists» := true, kind := .symlink }

/-- Witness for **C1** at a concrete input (a policy-preserved final
symlink, the most delicate success case): resolution succeeds and the
canonical path is inside the canonical root. -/
theorem claim1_resolver_containment_witness :
    resolveBoundaryPath fsClaim1 paramsClaim1 = .ok resClaim1 ∧
    resolveBoundaryPathSync fsClaim1 paramsClaim1 = .ok resClaim1 ∧
    isPathInside resClaim1.rootCanonicalPath resClaim1.canonicalPath = true :=
  ⟨by decide, by decide,
    (claim1_resolver_containment fsClaim1 paramsClaim1 resClaim1).1 (by decide)⟩

def fsC2cex : Fs := [([], .dir 0), (["real"], .dir 1), (["a"], .symlink 2 ["real"]),
  (["real", "d"], .symlink 3 ["nope"])]

def paramsC2cex : ResolveBoundaryPathParams :=
  { absolutePath := ["a", "d", "x"], rootPath := ["real"], boundaryLabel := "workspace" }

/-- Counterexample to **C2** as stated: the two resolver variants are
*not* extensionally equal, because their existing-ancestor walkers
probe existence differently. With `/real` a directory, `/a` a symlink
to `/real` and `/real/d` a dangling symlink: the `lstat` probe of the
suspension-capable walker sees `/a/d` as existing while `fs.existsSync`
does not. Resolving `/a/d/x` against root `/real`, the
suspension-capable resolver stops its walk at the dangling `/a/d`,
fails `realpath`, falls back to the lexical `/a/d/x` and rejects it as
a path-escape; the blocking resolver walks past the dangling link to
`/a`, canonicalizes it to `/real` and succeeds with the in-root
`/real/d/x` (kind `missing`). Same input, same filesystem state,
different outcomes. -/
theorem claim2_counterexample :
    pathExists fsC2cex ["a", "d"] = .ok true ∧
    existsSyncB fsC2cex ["a", "d"] = false ∧
    resolveBoundaryPath fsC2cex paramsC2cex =
      .error (.pathEscape "workspace" ["real"] ["a", "d", "x"]) ∧
    resolveBoundaryPathSync fsC2cex paramsC2cex =
      .ok { absolutePath := ["a", "d", "x"], canonicalPath := ["real", "d", "x"],
            rootPath := ["real"], rootCanonicalPath := ["real"],
            relativePath := ["d", "x"], «exists» := false, kind := .missing } ∧
    resolveBoundaryPathSync fsC2cex paramsC2cex ≠ resolveBoundaryPath fsC2cex paramsC2cex :=
  ⟨by decide, by decide, by decide, by decide, by decide⟩

/-- **C2** (blocking/suspension equivalence, amended): the two variants
produce the same outcome for identical inputs and identical filesystem
state *provided the two existence probes agree on that state* — the
`lstat`-based probe of the suspension-capable walker reports exactly
what the symlink-following, error-swallowing `fs.existsSync` of the
blocking walker reports. A dangling (or looping) symlink breaks this
proviso, and with it the equivalence. -/
theorem claim2_resolver_sync_async_equivalence (fs : Fs) (hpa : ProbesAgree fs)
    (params : ResolveBoundaryPathParams) :
    resolveBoundaryPathSync fs params = resolveBoundaryPath fs params :=
  resolveBoundaryPathSync_eq_of fs hpa params

theorem resolveComponents_rest_nil (fs : Fs) (fuel : Nat) (done : FsPath) :
    resolveComponents fs fuel done [] = .ok done := by
  cases fuel <;> rfl

theorem resolveComponents_nilFs_cons (fuel : Nat) (done : FsPath) (c : String)
    (cs : List String) :
    resolveComponents [] (fuel + 1) done (c :: cs) = .error .enoent := by
  simp [resolveComponents, lookupFs]

/-- On the empty filesystem the two existence probes agree everywhere
(the root exists for both; everything else is missing for both). -/
theorem probesAgree_nil : ProbesAgree [] := by
  intro q
  unfold pathExists existsSyncB fsLstat fsStat fsRealpath
  cases hq : (pathResolve q).reverse with
  | nil =>
    have hq0 : pathResolve q = [] := List.reverse_eq_nil_iff.mp hq
    rw [hq0, resolveComponents_rest_nil]
    simp [lstatDirect]
  | cons lastSeg revParent =>
    have hq0 : pathResolve q = revParent.reverse ++ [lastSeg] := by
      have h2 := congrArg List.reverse hq
      simpa using h2
    rw [hq0]
    cases hrev : revParent.reverse with
    | nil =>
      simp [hrev, resolveComponents_rest_nil, lstatDirect, lookupFs, isNotFoundPathError,
        show FUEL = 63 + 1 from rfl, resolveComponents_nilFs_cons]
    | cons c cs =>
      simp [hrev, lstatDirect, lookupFs, isNotFoundPathError,
        show FUEL = 63 + 1 from rfl, resolveComponents_nilFs_cons]

/-- Witness for the amended **C2** at a concrete input: on the empty
filesystem (probes agree) both variants resolve `/work/f.txt` under
`/work` to the same successful missing-path record. -/
theorem claim2_resolver_sync_async_equivalence_witness :
    resolveBoundaryPathSync ([] : Fs)
        { absolutePath := ["work", "f.txt"], rootPath := ["work"],
          boundaryLabel := "workspace" } =
      resolveBoundaryPath ([] : Fs)
        { absolutePath := ["work", "f.txt"], rootPath := ["work"],
          boundaryLabel := "workspace" } ∧
    resolveBoundaryPath ([] : Fs)
        { absolutePath := ["work", "f.txt"], rootPath := ["work"],
          boundaryLabel := "workspace" } =
      .ok { absolutePath := ["work", "f.txt"], canonicalPath := ["work", "f.txt"],
            rootPath := ["work"], rootCanonicalPath := ["work"],
            relativePath := ["f.txt"], «exists» := false, kind := .missing } :=
  ⟨claim2_resolver_sync_async_equivalence [] probesAgree_nil
      { absolutePath := ["work", "f.txt"], rootPath := ["work"],
        boundaryLabel := "workspace" },
    by decide⟩


/-! ## Missing-path determinism (claim C3) -/

/-- A plain path segment: not empty, not `.`, not `..`. -/
def plainSeg (s : String) : Bool := !(s == "" || s == "." || s == "..")

theorem normalizeGo_append (acc : List String) (xs ys : List String) :
    normalizeGo acc (xs ++ ys) = normalizeGo ((normalizeGo acc xs).reverse) ys := by
  induction xs generalizing acc with
  | nil => simp [normalizeGo]
  | cons x xs ih =>
    simp only [List.cons_append, normalizeGo]
    by_cases h1 : x = "" ∨ x = "."
    · simp only [h1, if_true]
      exact ih acc
    · simp only [h1, if_false]
      by_cases h2 : x = ".."
      · simp only [h2, if_true, if_pos rfl]
        exact ih acc.tail
      · simp only [h2, if_false]
        exact ih (x :: acc)

theorem normalizeGo_plain (acc : List String) (segs : List String)
    (h : ∀ s ∈ segs, plainSeg s = true) : normalizeGo acc segs = acc.reverse ++ segs := by
  induction segs generalizing acc with
  | nil => simp [normalizeGo]
  | cons s rest ih =>
    have hs := h s (by simp)
    simp only [plainSeg, Bool.not_eq_true', Bool.or_eq_false_iff, beq_eq_false_iff_ne,
      ne_eq] at hs
    simp only [normalizeGo, hs.1.1, hs.1.2, hs.2, or_self, if_false]
    rw [ih (s :: acc) (fun t ht => h t (by simp [ht]))]
    simp

theorem pathResolve_append_plain {p : FsPath} (hp : pathResolve p = p)
    {segs : List String} (h : ∀ s ∈ segs, plainSeg s = true) :
    pathResolve (p ++ segs) = p ++ segs := by
  unfold pathResolve at *
  rw [normalizeGo_append, hp, normalizeGo_plain _ _ h, List.reverse_reverse]

theorem pathRelativeGo_self_append (R t : List String) :
    pathRelativeGo R (R ++ t) = t := by
  induction R with
  | nil => simp [pathRelativeGo]
  | cons a as ih => simpa [pathRelativeGo] using ih

theorem pathRelative_self_append {R : FsPath} (hR : pathResolve R = R)
    {segs : List String} (h : ∀ s ∈ segs, plainSeg s = true) :
    pathRelative R (R ++ segs) = segs := by
  unfold pathRelative
  rw [hR, pathResolve_append_plain hR h, pathRelativeGo_self_append]

theorem isPathInside_append {R p : FsPath}
    (hp : pathResolve p = p) (hin : isPathInside R p = true)
    {segs : List String} (h : ∀ s ∈ segs, plainSeg s = true) :
    isPathInside R (p ++ segs) = true := by
  unfold isPathInside at *
  rw [pathResolve_append_plain hp h]
  rw [hp] at hin
  rw [List.isPrefixOf_iff_prefix] at hin ⊢
  exact hin.trans (List.prefix_append p segs)

theorem isPathInside_self {R : FsPath} : isPathInside R R = true := by
  unfold isPathInside
  rw [List.isPrefixOf_iff_prefix]


/-- The node stored at `p` is a directory. -/
def isDirAt (fs : Fs) (p : FsPath) : Bool :=
  match lookupFs fs p with
  | some (.dir _) => true
  | _ => false

theorem resolveComponents_dirChain (fs : Fs) :
    ∀ (rest : List String) (fuel : Nat) (done : FsPath),
      (∀ j < rest.length, isDirAt fs (done ++ rest.take (j + 1)) = true) →
      rest.length ≤ fuel →
      resolveComponents fs fuel done rest = .ok (done ++ rest) := by
  intro rest
  induction rest with
  | nil => intro fuel done _ _; cases fuel <;> simp [resolveComponents]
  | cons s rest ih =>
    intro fuel done hdirs hlen
    match fuel with
    | 0 => simp at hlen
    | fuel + 1 =>
      have h0 := hdirs 0 (by simp)
      simp only [List.take, List.take_zero] at h0
      unfold isDirAt at h0
      unfold resolveComponents
      cases hl : lookupFs fs (done ++ [s]) with
      | none => rw [hl] at h0; simp at h0
      | some n =>
        cases n with
        | dir i =>
          have := ih fuel (done ++ [s]) (fun j hj => by
            have := hdirs (j + 1) (by simpa using Nat.succ_lt_succ hj)
            simpa [List.take, List.append_assoc] using this)
            (by simp only [List.length_cons] at hlen; omega)
          simpa [hl, List.append_assoc] using this
        | file i n sz => rw [hl] at h0; simp at h0
        | symlink i t => rw [hl] at h0; simp at h0
        | other i => rw [hl] at h0; simp at h0

theorem resolveComponents_missing (fs : Fs) :
    ∀ (ex : List String) (m : String) (rest2 : List String) (fuel : Nat) (done : FsPath),
      (∀ j < ex.length, isDirAt fs (done ++ ex.take (j + 1)) = true) →
      lookupFs fs (done ++ ex ++ [m]) = none →
      ex.length < fuel →
      resolveComponents fs fuel done (ex ++ m :: rest2) = .error .enoent := by
  intro ex
  induction ex with
  | nil =>
    intro m rest2 fuel done _ hmiss hlen
    match fuel with
    | 0 => simp at hlen
    | fuel + 1 =>
      unfold resolveComponents
      simp only [List.append_nil] at hmiss
      simp [hmiss]
  | cons s ex ih =>
    intro m rest2 fuel done hdirs hmiss hlen
    match fuel with
    | 0 => simp at hlen
    | fuel + 1 =>
      have h0 := hdirs 0 (by simp)
      simp only [List.take, List.take_zero] at h0
      unfold isDirAt at h0
      unfold resolveComponents
      cases hl : lookupFs fs (done ++ [s]) with
      | none => rw [hl] at h0; simp at h0
      | some n =>
        cases n with
        | dir i =>
          have := ih m rest2 fuel (done ++ [s]) (fun j hj => by
            have := hdirs (j + 1) (by simpa using Nat.succ_lt_succ hj)
            simpa [List.take, List.append_assoc] using this)
            (by simpa [List.append_assoc] using hmiss)
            (by simp only [List.length_cons] at hlen; omega)
          simpa [hl, List.append_assoc] using this
        | file i n sz => rw [hl] at h0; simp at h0
        | symlink i t => rw [hl] at h0; simp at h0
        | other i => rw [hl] at h0; simp at h0

theorem fsLstat_dirChainParent {fs : Fs} {C : FsPath} {s : String}
    (hC : pathResolve C = C) (hplain : plainSeg s = true)
    (hCdirs : ∀ j < C.length, isDirAt fs (C.take (j + 1)) = true)
    (hlen : C.length ≤ FUEL) :
    fsLstat fs (C ++ [s]) = lstatDirect fs (C ++ [s]) := by
  unfold fsLstat
  rw [pathResolve_append_plain hC (by simpa using hplain)]
  rw [List.reverse_append]
  simp only [List.reverse_cons, List.reverse_nil, List.nil_append, List.singleton_append,
    List.reverse_reverse]
  rw [resolveComponents_dirChain fs C FUEL [] (by simpa using hCdirs) hlen]
  simp


theorem isDirAt_exists {fs : Fs} {p : FsPath} (h : isDirAt fs p = true) :
    ∃ i, lookupFs fs p = some (.dir i) := by
  unfold isDirAt at h
  cases hl : lookupFs fs p with
  | none => rw [hl] at h; simp at h
  | some n =>
    cases n with
    | dir i => exact ⟨i, rfl⟩
    | file i n sz => rw [hl] at h; simp at h
    | symlink i t => rw [hl] at h; simp at h
    | other i => rw [hl] at h; simp at h

theorem append_singleton_ne_nil (C : FsPath) (s : String) : C ++ [s] ≠ [] := by
  simp

/-- Running the lexical traversal loop from a canonical directory-chain
cursor `C`, over `ex` existing directory segments followed by a missing
segment `m`: the loop stops at `m`, appends the whole missing suffix
lexically to the canonical cursor, and preserves no final symlink. -/
theorem lexicalTraversalLoopAsync_missing (fs : Fs) (params : ResolveBoundaryPathParams)
    (R abs : FsPath) (segsAll : List String) (af : Bool) :
    ∀ (ex : List String) (m : String) (rest : List String) (idx : Nat) (C : FsPath),
      segsAll.drop idx = ex ++ m :: rest →
      pathResolve C = C →
      (∀ s ∈ ex, plainSeg s = true) → plainSeg m = true → (∀ s ∈ rest, plainSeg s = true) →
      isPathInside R C = true →
      (∀ j < C.length, isDirAt fs (C.take (j + 1)) = true) →
      (∀ j < ex.length, isDirAt fs (C ++ ex.take (j + 1)) = true) →
      lookupFs fs (C ++ ex ++ [m]) = none →
      C.length + ex.length < FUEL →
      lexicalTraversalLoopAsync fs params R abs
        ⟨segsAll, af, C, C, false⟩ idx (ex ++ m :: rest) =
      .ok ⟨segsAll, af, C ++ ex ++ m :: rest, C ++ ex ++ [m], false⟩ := by
  intro ex
  induction ex with
  | nil =>
    intro m rest idx C hdrop hC _ hm hrest hin hCdirs _ hmiss hlen
    simp only [List.nil_append, List.append_nil] at hmiss ⊢
    unfold lexicalTraversalLoopAsync
    dsimp only
    have hres : pathResolve (C ++ [m]) = C ++ [m] :=
      pathResolve_append_plain hC (by simpa using hm)
    rw [hres]
    rw [fsLstat_dirChainParent hC hm hCdirs (by omega)]
    unfold lstatDirect
    rw [if_neg (append_singleton_ne_nil C m), hmiss]
    have hplainsuffix : ∀ s ∈ m :: rest, plainSeg s = true := by
      intro s hs
      rcases List.mem_cons.mp hs with h | h
      · subst h; exact hm
      · exact hrest s h
    have hres2 : pathResolve (C ++ m :: rest) = C ++ m :: rest :=
      pathResolve_append_plain hC hplainsuffix
    have hin2 : isPathInside R (C ++ m :: rest) = true :=
      isPathInside_append hC hin hplainsuffix
    simp [isNotFoundPathError, applyMissingSuffixToCanonicalCursor, hdrop, hres2,
      assertInsideBoundary, hin2, bind, Except.bind]
  | cons s ex ih =>
    intro m rest idx C hdrop hC hex hm hrest hin hCdirs hexdirs hmiss hlen
    have hs : plainSeg s = true := hex s (by simp)
    have hex' : ∀ t ∈ ex, plainSeg t = true := fun t ht => hex t (by simp [ht])
    rw [show s :: ex ++ m :: rest = s :: (ex ++ m :: rest) from rfl]
    simp only [lexicalTraversalLoopAsync]
    have hres : pathResolve (C ++ [s]) = C ++ [s] :=
      pathResolve_append_plain hC (by simpa using hs)
    rw [hres]
    rw [fsLstat_dirChainParent hC hs hCdirs (by omega)]
    have hdir0 : isDirAt fs (C ++ [s]) = true := by
      have := hexdirs 0 (by simp)
      simpa [List.take] using this
    obtain ⟨i, hl⟩ := isDirAt_exists hdir0
    unfold lstatDirect
    rw [if_neg (append_singleton_ne_nil C s), hl]
    have hin1 : isPathInside R (C ++ [s]) = true :=
      isPathInside_append hC hin (by simpa using hs)
    -- reduce the disposition handling to the `cont` recursive step
    have step := ih m rest (idx + 1) (C ++ [s])
      (by rw [← List.tail_drop, hdrop]; simp)
      hres hex' hm hrest hin1
      (by
        intro j hj
        simp only [List.length_append, List.length_cons] at hj
        by_cases hjc : j < C.length
        · rw [List.take_append_of_le_length (by omega)]
          exact hCdirs j hjc
        · have hje : j = C.length := by simp at hj; omega
          subst hje
          have : (C ++ [s]).take (C.length + 1) = C ++ [s] := by
            have hlength : (C ++ [s]).length = C.length + 1 := by simp
            rw [← hlength, List.take_length]
          rw [this]
          exact hdir0)
      (by
        intro j hj
        have := hexdirs (j + 1) (by simpa using Nat.succ_lt_succ hj)
        simpa [List.take, List.append_assoc] using this)
      (by simpa [List.append_assoc] using hmiss)
      (by simp only [List.length_append, List.length_cons, List.length_nil] at hlen ⊢; omega)
    simp only [statsOf, handleLexicalStatDisposition, advanceCanonicalCursorForSegment,
      assertInsideBoundary, hres, hin1, bind, Except.bind, beq_iff_eq, reduceCtorEq,
      Bool.not_false, if_true, if_neg]
    simp only [List.append_assoc] at step ⊢
    simpa using step


/-- The blocking loop on the same no-symlink missing-suffix domain
(the loops differ only in the symlink-hop resolution, which this domain
never reaches). -/
theorem lexicalTraversalLoopSync_missing (fs : Fs) (params : ResolveBoundaryPathParams)
    (R abs : FsPath) (segsAll : List String) (af : Bool) :
    ∀ (ex : List String) (m : String) (rest : List String) (idx : Nat) (C : FsPath),
      segsAll.drop idx = ex ++ m :: rest →
      pathResolve C = C →
      (∀ s ∈ ex, plainSeg s = true) → plainSeg m = true → (∀ s ∈ rest, plainSeg s = true) →
      isPathInside R C = true →
      (∀ j < C.length, isDirAt fs (C.take (j + 1)) = true) →
      (∀ j < ex.length, isDirAt fs (C ++ ex.take (j + 1)) = true) →
      lookupFs fs (C ++ ex ++ [m]) = none →
      C.length + ex.length < FUEL →
      lexicalTraversalLoopSync fs params R abs
        ⟨segsAll, af, C, C, false⟩ idx (ex ++ m :: rest) =
      .ok ⟨segsAll, af, C ++ ex ++ m :: rest, C ++ ex ++ [m], false⟩ := by
  intro ex
  induction ex with
  | nil =>
    intro m rest idx C hdrop hC _ hm hrest hin hCdirs _ hmiss hlen
    simp only [List.nil_append, List.append_nil] at hmiss ⊢
    unfold lexicalTraversalLoopSync
    dsimp only
    have hres : pathResolve (C ++ [m]) = C ++ [m] :=
      pathResolve_append_plain hC (by simpa using hm)
    rw [hres]
    rw [fsLstat_dirChainParent hC hm hCdirs (by omega)]
    unfold lstatDirect
    rw [if_neg (append_singleton_ne_nil C m), hmiss]
    have hplainsuffix : ∀ s ∈ m :: rest, plainSeg s = true := by
      intro s hs
      rcases List.mem_cons.mp hs with h | h
      · subst h; exact hm
      · exact hrest s h
    have hres2 : pathResolve (C ++ m :: rest) = C ++ m :: rest :=
      pathResolve_append_plain hC hplainsuffix
    have hin2 : isPathInside R (C ++ m :: rest) = true :=
      isPathInside_append hC hin hplainsuffix
    simp [isNotFoundPathError, applyMissingSuffixToCanonicalCursor, hdrop, hres2,
      assertInsideBoundary, hin2, bind, Except.bind]
  | cons s ex ih =>
    intro m rest idx C hdrop hC hex hm hrest hin hCdirs hexdirs hmiss hlen
    have hs : plainSeg s = true := hex s (by simp)
    have hex' : ∀ t ∈ ex, plainSeg t = true := fun t ht => hex t (by simp [ht])
    rw [show s :: ex ++ m :: rest = s :: (ex ++ m :: rest) from rfl]
    simp only [lexicalTraversalLoopSync]
    have hres : pathResolve (C ++ [s]) = C ++ [s] :=
      pathResolve_append_plain hC (by simpa using hs)
    rw [hres]
    rw [fsLstat_dirChainParent hC hs hCdirs (by omega)]
    have hdir0 : isDirAt fs (C ++ [s]) = true := by
      have := hexdirs 0 (by simp)
      simpa [List.take] using this
    obtain ⟨i, hl⟩ := isDirAt_exists hdir0
    unfold lstatDirect
    rw [if_neg (append_singleton_ne_nil C s), hl]
    have hin1 : isPathInside R (C ++ [s]) = true :=
      isPathInside_append hC hin (by simpa using hs)
    -- reduce the disposition handling to the `cont` recursive step
    have step := ih m rest (idx + 1) (C ++ [s])
      (by rw [← List.tail_drop, hdrop]; simp)
      hres hex' hm hrest hin1
      (by
        intro j hj
        simp only [List.length_append, List.length_cons] at hj
        by_cases hjc : j < C.length
        · rw [List.take_append_of_le_length (by omega)]
          exact hCdirs j hjc
        · have hje : j = C.length := by simp at hj; omega
          subst hje
          have : (C ++ [s]).take (C.length + 1) = C ++ [s] := by
            have hlength : (C ++ [s]).length = C.length + 1 := by simp
            rw [← hlength, List.take_length]
          rw [this]
          exact hdir0)
      (by
        intro j hj
        have := hexdirs (j + 1) (by simpa using Nat.succ_lt_succ hj)
        simpa [List.take, List.append_assoc] using this)
      (by simpa [List.append_assoc] using hmiss)
      (by simp only [List.length_append, List.length_cons, List.length_nil] at hlen ⊢; omega)
    simp only [statsOf, handleLexicalStatDisposition, advanceCanonicalCursorForSegment,
      assertInsideBoundary, hres, hin1, bind, Except.bind, beq_iff_eq, reduceCtorEq,
      Bool.not_false, if_true, if_neg]
    simp only [List.append_assoc] at step ⊢
    simpa using step


theorem plainSeg_not_empty {s : String} (h : plainSeg s = true) : (!(s == "")) = true := by
  unfold plainSeg at h
  simp only [Bool.not_eq_true', Bool.or_eq_false_iff] at h
  simp [h.1.1]

theorem plainSeg_ne_dotdot {s : String} (h : plainSeg s = true) : s ≠ ".." := by
  unfold plainSeg at h
  simp only [Bool.not_eq_true', Bool.or_eq_false_iff, beq_eq_false_iff_ne, ne_eq] at h
  exact h.2

theorem relativeInsideRoot_plain {R : FsPath} (hR : pathResolve R = R) {segs : List String}
    (hplain : ∀ s ∈ segs, plainSeg s = true) (hne : segs ≠ []) :
    relativeInsideRoot R (R ++ segs) = segs := by
  unfold relativeInsideRoot
  rw [pathRelative_self_append hR hplain]
  rw [if_neg hne]
  cases segs with
  | nil => exact absurd rfl hne
  | cons a t =>
    have ha := plainSeg_ne_dotdot (hplain a (by simp))
    simp [ha]

/-- Amended **C3** core: under an existing root `R` (given in canonical
form, its ancestors all directories), with `ex` existing directory
segments followed by missing segments `m :: rest`, the resolver
succeeds and reports `exists := false`, `kind := missing`, and
`canonicalPath` equal to the canonical form of the deepest existing
ancestor (`R ++ ex`, canonical because every segment of it is a plain
directory) extended with the literal missing suffix. -/
theorem resolveBoundaryPath_missing_deterministic (fs : Fs) (label : String) (R : FsPath)
    (ex rest : List String) (m : String)
    (hR : pathResolve R = R)
    (hex : ∀ s ∈ ex, plainSeg s = true) (hm : plainSeg m = true)
    (hrest : ∀ s ∈ rest, plainSeg s = true)
    (hRdirs : ∀ j < R.length, isDirAt fs (R.take (j + 1)) = true)
    (hexdirs : ∀ j < ex.length, isDirAt fs (R ++ ex.take (j + 1)) = true)
    (hmiss : lookupFs fs (R ++ ex ++ [m]) = none)
    (hlen : R.length + ex.length < FUEL) :
    resolveBoundaryPath fs
      { absolutePath := R ++ (ex ++ m :: rest), rootPath := R, boundaryLabel := label,
        rootCanonicalPath := some R } =
      .ok { absolutePath := R ++ (ex ++ m :: rest), canonicalPath := R ++ (ex ++ m :: rest),
            rootPath := R, rootCanonicalPath := R, relativePath := ex ++ m :: rest,
            «exists» := false, kind := .missing } ∧
    resolveBoundaryPathSync fs
      { absolutePath := R ++ (ex ++ m :: rest), rootPath := R, boundaryLabel := label,
        rootCanonicalPath := some R } =
      .ok { absolutePath := R ++ (ex ++ m :: rest), canonicalPath := R ++ (ex ++ m :: rest),
            rootPath := R, rootCanonicalPath := R, relativePath := ex ++ m :: rest,
            «exists» := false, kind := .missing } := by
  have hplainAll : ∀ s ∈ ex ++ m :: rest, plainSeg s = true := by
    intro s hs
    rcases List.mem_append.mp hs with h | h
    · exact hex s h
    · rcases List.mem_cons.mp h with h | h
      · subst h; exact hm
      · exact hrest s h
  have habs : pathResolve (R ++ (ex ++ m :: rest)) = R ++ (ex ++ m :: rest) :=
    pathResolve_append_plain hR hplainAll
  have hinAbs : isPathInside R (R ++ (ex ++ m :: rest)) = true :=
    isPathInside_append hR isPathInside_self hplainAll
  have hrel : pathRelative R (R ++ (ex ++ m :: rest)) = ex ++ m :: rest :=
    pathRelative_self_append hR hplainAll
  have hfilter : (ex ++ m :: rest).filter (fun s => !(s == "")) = ex ++ m :: rest :=
    List.filter_eq_self.mpr (fun a ha => plainSeg_not_empty (hplainAll a ha))
  have hchain : ∀ j < (R ++ ex).length, isDirAt fs ((R ++ ex).take (j + 1)) = true := by
    intro j hj
    rw [List.take_append_eq_append_take]
    by_cases hjR : j + 1 ≤ R.length
    · have : ex.take (j + 1 - R.length) = [] := by
        have : j + 1 - R.length = 0 := by omega
        rw [this, List.take_zero]
      rw [this, List.append_nil]
      exact hRdirs j (by omega)
    · have hR1 : R.take (j + 1) = R := List.take_of_length_le (by omega)
      rw [hR1]
      have hjex : j - R.length < ex.length := by
        simp only [List.length_append] at hj
        omega
      have := hexdirs (j - R.length) hjex
      have harith : j + 1 - R.length = j - R.length + 1 := by omega
      rw [harith]
      exact this
  have hstat : fsStat fs (R ++ (ex ++ m :: rest)) = .error .enoent := by
    unfold fsStat fsRealpath
    rw [habs]
    rw [show R ++ (ex ++ m :: rest) = (R ++ ex) ++ m :: rest by simp [List.append_assoc]]
    rw [resolveComponents_missing fs (R ++ ex) m rest FUEL []
      (by simpa using hchain) (by simpa using hmiss)
      (by simp only [List.length_append] at *; omega)]
  have hkind : getPathKind fs (R ++ (ex ++ m :: rest)) false = .ok (false, .missing) := by
    unfold getPathKind
    rw [if_neg (by simp)]
    rw [hstat]
    simp [isNotFoundPathError]
  have hloop := lexicalTraversalLoopAsync_missing fs
    { absolutePath := R ++ (ex ++ m :: rest), rootPath := R, boundaryLabel := label,
      rootCanonicalPath := some R }
    R (R ++ (ex ++ m :: rest)) (ex ++ m :: rest) false ex m rest 0 R
    (List.drop_zero _) hR hex hm hrest isPathInside_self hRdirs hexdirs hmiss hlen
  have hstate : createLexicalTraversalState
      { absolutePath := R ++ (ex ++ m :: rest), rootPath := R, boundaryLabel := label,
        rootCanonicalPath := some R } R R (R ++ (ex ++ m :: rest)) =
      ⟨ex ++ m :: rest, false, R, R, false⟩ := by
    unfold createLexicalTraversalState
    rw [hrel, hfilter]
    rfl
  have hlex : resolveBoundaryPathLexicalAsync fs
      { absolutePath := R ++ (ex ++ m :: rest), rootPath := R, boundaryLabel := label,
        rootCanonicalPath := some R } (R ++ (ex ++ m :: rest)) R R =
      .ok { absolutePath := R ++ (ex ++ m :: rest), canonicalPath := R ++ (ex ++ m :: rest),
            rootPath := R, rootCanonicalPath := R, relativePath := ex ++ m :: rest,
            «exists» := false, kind := .missing } := by
    unfold resolveBoundaryPathLexicalAsync
    rw [hstate]
    dsimp only
    rw [hloop]
    simp only [bind, Except.bind]
    rw [hkind]
    unfold finalizeLexicalResolution assertInsideBoundary
    rw [if_pos (by simpa [List.append_assoc] using hinAbs)]
    simp only [bind, Except.bind]
    unfold buildResolvedBoundaryPath
    rw [show (R ++ ex ++ m :: rest) = R ++ (ex ++ m :: rest) by simp [List.append_assoc]]
    rw [relativeInsideRoot_plain hR hplainAll (by simp)]
  have hloopS := lexicalTraversalLoopSync_missing fs
    { absolutePath := R ++ (ex ++ m :: rest), rootPath := R, boundaryLabel := label,
      rootCanonicalPath := some R }
    R (R ++ (ex ++ m :: rest)) (ex ++ m :: rest) false ex m rest 0 R
    (List.drop_zero _) hR hex hm hrest isPathInside_self hRdirs hexdirs hmiss hlen
  have hlexS : resolveBoundaryPathLexicalSync fs
      { absolutePath := R ++ (ex ++ m :: rest), rootPath := R, boundaryLabel := label,
        rootCanonicalPath := some R } (R ++ (ex ++ m :: rest)) R R =
      .ok { absolutePath := R ++ (ex ++ m :: rest), canonicalPath := R ++ (ex ++ m :: rest),
            rootPath := R, rootCanonicalPath := R, relativePath := ex ++ m :: rest,
            «exists» := false, kind := .missing } := by
    unfold resolveBoundaryPathLexicalSync
    rw [hstate]
    dsimp only
    rw [hloopS]
    simp only [bind, Except.bind]
    rw [getPathKindSync_eq, hkind]
    unfold finalizeLexicalResolution assertInsideBoundary
    rw [if_pos (by simpa [List.append_assoc] using hinAbs)]
    simp only [bind, Except.bind]
    unfold buildResolvedBoundaryPath
    rw [show (R ++ ex ++ m :: rest) = R ++ (ex ++ m :: rest) by simp [List.append_assoc]]
    rw [relativeInsideRoot_plain hR hplainAll (by simp)]
  have h1 : resolveOutsideLexicalCanonicalPathAsync fs R (R ++ (ex ++ m :: rest)) = .ok none := by
    unfold resolveOutsideLexicalCanonicalPathAsync
    rw [if_pos hinAbs]
  have h1S : resolveOutsideLexicalCanonicalPathSync fs R (R ++ (ex ++ m :: rest)) = .ok none := by
    unfold resolveOutsideLexicalCanonicalPathSync
    rw [if_pos hinAbs]
  have h2 : createBoundaryResolutionContext
      { absolutePath := R ++ (ex ++ m :: rest), rootPath := R, boundaryLabel := label,
        rootCanonicalPath := some R } R (R ++ (ex ++ m :: rest)) R none =
      .ok { rootPath := R, absolutePath := R ++ (ex ++ m :: rest), rootCanonicalPath := R,
            lexicalInside := true, canonicalOutsideLexicalPath := R ++ (ex ++ m :: rest) } := by
    unfold createBoundaryResolutionContext resolveCanonicalOutsideLexicalPath
      assertLexicalBoundaryOrCanonicalAlias
    rw [hinAbs]
    simp [bind, Except.bind]
  have h3 : resolveOutsideBoundaryPathAsync fs label
      { rootPath := R, absolutePath := R ++ (ex ++ m :: rest), rootCanonicalPath := R,
        lexicalInside := true, canonicalOutsideLexicalPath := R ++ (ex ++ m :: rest) } =
      .ok none := by
    unfold resolveOutsideBoundaryPathAsync
    simp
  have h3S : resolveOutsideBoundaryPathSync fs label
      { rootPath := R, absolutePath := R ++ (ex ++ m :: rest), rootCanonicalPath := R,
        lexicalInside := true, canonicalOutsideLexicalPath := R ++ (ex ++ m :: rest) } =
      .ok none := by
    unfold resolveOutsideBoundaryPathSync
    simp
  constructor
  · unfold resolveBoundaryPath
    dsimp only
    rw [hR, habs]
    simp only [bind, Except.bind]
    rw [h1]
    simp only [Except.mapError]
    rw [h2]
    dsimp only
    rw [h3]
    dsimp only
    exact hlex
  · unfold resolveBoundaryPathSync
    dsimp only
    rw [hR, habs]
    simp only [bind, Except.bind]
    rw [h1S]
    simp only [Except.mapError]
    rw [h2]
    dsimp only
    rw [h3S]
    dsimp only
    exact hlexS


/-- **C3** (missing-path determinism, amended): *provided resolution
succeeds* — which it need not when an existing segment of the path is a
symlink whose target escapes the root — resolving a path whose trailing
segments do not exist under an existing root yields `exists := false`,
`kind := missing`, and a `canonicalPath` equal to the canonical form of
the deepest existing ancestor with the literal missing suffix appended
lexically. Stated for a canonical root `R`, existing plain directory
segments `ex` (so the deepest existing ancestor `R ++ ex` is its own
canonical form) and literal missing suffix `m :: rest`; both resolver
variants agree. -/
theorem claim3_missing_path_determinism (fs : Fs) (label : String) (R : FsPath)
    (ex rest : List String) (m : String)
    (hR : pathResolve R = R)
    (hex : ∀ s ∈ ex, plainSeg s = true) (hm : plainSeg m = true)
    (hrest : ∀ s ∈ rest, plainSeg s = true)
    (hRdirs : ∀ j < R.length, isDirAt fs (R.take (j + 1)) = true)
    (hexdirs : ∀ j < ex.length, isDirAt fs (R ++ ex.take (j + 1)) = true)
    (hmiss : lookupFs fs (R ++ ex ++ [m]) = none)
    (hlen : R.length + ex.length < FUEL) :
    resolveBoundaryPath fs
      { absolutePath := R ++ (ex ++ m :: rest), rootPath := R, boundaryLabel := label,
        rootCanonicalPath := some R } =
      .ok { absolutePath := R ++ (ex ++ m :: rest), canonicalPath := (R ++ ex) ++ m :: rest,
            rootPath := R, rootCanonicalPath := R, relativePath := ex ++ m :: rest,
            «exists» := false, kind := .missing } ∧
    resolveBoundaryPathSync fs
      { absolutePath := R ++ (ex ++ m :: rest), rootPath := R, boundaryLabel := label,
        rootCanonicalPath := some R } =
      .ok { absolutePath := R ++ (ex ++ m :: rest), canonicalPath := (R ++ ex) ++ m :: rest,
            rootPath := R, rootCanonicalPath := R, relativePath := ex ++ m :: rest,
            «exists» := false, kind := .missing } := by
  have core := resolveBoundaryPath_missing_deterministic fs label R ex rest m
    hR hex hm hrest hRdirs hexdirs hmiss hlen
  have hassoc : (R ++ ex) ++ m :: rest = R ++ (ex ++ m :: rest) := by
    simp [List.append_assoc]
  rw [hassoc]
  exact core

def fsClaim3cex : Fs := [
  (["work"], .dir 1),
  (["work", "link"], .symlink 2 ["etc"]),
  (["etc"], .dir 3)
]

/-- Counterexample to **C3** as stated: under the existing root `/work`,
the trailing segment `ghost` of `/work/link/ghost` does not exist
(`lstat` and `stat` both report `ENOENT`), yet resolution does **not**
succeed with `kind = missing`: the existing segment `link` is a symlink
to `/etc`, outside the root, so both resolver variants fail with a
symlink-escape error. -/
theorem claim3_counterexample :
    fsLstat fsClaim3cex ["work", "link", "ghost"] = .error .enoent ∧
    fsStat fsClaim3cex ["work", "link", "ghost"] = .error .enoent ∧
    pathExists fsClaim3cex ["work"] = .ok true ∧
    resolveBoundaryPath fsClaim3cex
      { absolutePath := ["work", "link", "ghost"], rootPath := ["work"],
        boundaryLabel := "workspace" } =
      .error (.symlinkEscape "workspace" ["work"] ["work", "link"]) ∧
    resolveBoundaryPathSync fsClaim3cex
      { absolutePath := ["work", "link", "ghost"], rootPath := ["work"],
        boundaryLabel := "workspace" } =
      .error (.symlinkEscape "workspace" ["work"] ["work", "link"]) := by
  exact ⟨by decide, by decide, by decide, by decide, by decide⟩

def fsClaim3 : Fs := [
  (["work"], .dir 1),
  (["work", "sub"], .dir 2)
]

/-- Witness for the amended **C3** at a concrete input: resolving
`/work/sub/x/y.txt` where `/work/sub` exists and `x/y.txt` is missing. -/
theorem claim3_missing_path_determinism_witness :
    resolveBoundaryPath fsClaim3
      { absolutePath := ["work", "sub", "x", "y.txt"], rootPath := ["work"],
        boundaryLabel := "workspace", rootCanonicalPath := some ["work"] } =
      .ok { absolutePath := ["work", "sub", "x", "y.txt"],
            canonicalPath := ["work", "sub", "x", "y.txt"],
            rootPath := ["work"], rootCanonicalPath := ["work"],
            relativePath := ["sub", "x", "y.txt"],
            «exists» := false, kind := .missing } :=
  (claim3_missing_path_determinism fsClaim3 "workspace" ["work"] ["sub"] ["y.txt"] "x"
    (by decide) (by decide) (by decide) (by decide) (by decide) (by decide) (by decide)
    (by decide)).1


/-! ## Verified file opener and root-scoped helpers

The opener runs against a *trace* of filesystem snapshots (`Nat → Fs`):
every filesystem call observes the snapshot at the current logical time
and advances the clock, so mutations by other tasks between any two
observations of one call (the TOCTOU races of the spec's concurrency
model) are expressible. An event log records the side-effecting
operations. -/

inductive SafeOpenErrorCode
  | invalidPath
  | notFound
  | outsideWorkspace
  | symlink
  | notFile
  | pathMismatch
  | tooLarge
  deriving DecidableEq, Repr, BEq

/-- The `cause` option forwarded by some `SafeOpenError` constructions. -/
inductive OpenErrCause
  | fromFs (e : FsError)
  | fromSafe (code : SafeOpenErrorCode) (message : String)
  | fromBoundary (e : BoundaryError)
  deriving DecidableEq, Repr

/-- An error escaping the opener layer: a classified `SafeOpenError`
(with its message and optional cause) or a raw propagated filesystem
error. -/
inductive OpenErr
  | safe (code : SafeOpenErrorCode) (message : String) (cause : Option OpenErrCause)
  | fsRaw (e : FsError)
  deriving DecidableEq, Repr

/-- The message text a caller would see on the error. -/
def openErrMessage : OpenErr → String
  | .safe _ m _ => m
  | .fsRaw .eisdir => "EISDIR: illegal operation on a directory"
  | .fsRaw .enoent => "ENOENT: no such file or directory"
  | .fsRaw .eloop => "ELOOP: too many symbolic links encountered"
  | .fsRaw .eexist => "EEXIST: file already exists"
  | .fsRaw .einval => "EINVAL: invalid argument"

/-- Logged side-effecting operations. -/
inductive FsEvent
  | evOpen (p : FsPath)
  | evReadFile (p : FsPath)
  | evTruncate (p : FsPath)
  | evCreate (p : FsPath)
  | evRm (p : FsPath)
  | evWriteData (p : FsPath)
  deriving DecidableEq, Repr

abbrev Trace := Nat → Fs

structure ReadSt where
  t : Nat
  log : List FsEvent
  deriving DecidableEq, Repr

/-- The opener's monad: a trace-indexed clock plus an event log;
failures carry the state at the point of failure. -/
def ReadM (α : Type) : Type :=
  Trace → ReadSt → Except (OpenErr × ReadSt) (α × ReadSt)

def ReadM.pure (a : α) : ReadM α := fun _ s => .ok (a, s)

def ReadM.bind (m : ReadM α) (f : α → ReadM β) : ReadM β := fun env s =>
  match m env s with
  | .ok (a, s') => f a env s'
  | .error e => .error e

instance : Monad ReadM where
  pure := ReadM.pure
  bind := ReadM.bind

def ReadM.throw (e : OpenErr) : ReadM α := fun _ s => .error (e, s)

/-- `try/catch`: the handler resumes from the state at the failure. -/
def ReadM.catch (m : ReadM α) (h : OpenErr → ReadM α) : ReadM α := fun env s =>
  match m env s with
  | .ok r => .ok r
  | .error (e, s') => h e env s'

/-- Observe the current snapshot and advance the clock (one filesystem
call = one suspension point). -/
def ReadM.tick : ReadM Fs := fun env s => .ok (env s.t, { s with t := s.t + 1 })

def ReadM.logEvent (ev : FsEvent) : ReadM Unit := fun _ s =>
  .ok ((), { s with log := s.log ++ [ev] })

/-- A read-only filesystem call: observe the snapshot at the current
time, advance the clock. -/
def fsQuery (g : Fs → α) : ReadM α := fun env s =>
  .ok (g (env s.t), { s with t := s.t + 1 })

def fsLstatOp (p : FsPath) : ReadM (Except FsError Stats) :=
  fsQuery (fun fs => fsLstat fs p)

def fsStatOp (p : FsPath) : ReadM (Except FsError Stats) :=
  fsQuery (fun fs => fsStat fs p)

def fsRealpathOp (p : FsPath) : ReadM (Except FsError FsPath) :=
  fsQuery (fun fs => fsRealpath fs p)

/-- An open file descriptor: the stats captured at open time (immune to
later path races, as `fstat` works on the inode) and the canonical path
of the opened object. -/
structure OpenHandle where
  stat : Stats
  canonicalPath : FsPath
  deriving DecidableEq, Repr

/-- The outcome of an `open` call against one snapshot. -/
def openView (fs : Fs) (p : FsPath) : Except FsError OpenHandle :=
  match fsOpenReadNoFollow fs p with
  | .error e => .error e
  | .ok (st, cp) => .ok ⟨st, cp⟩

def fsOpenReadOp (p : FsPath) : ReadM (Except FsError OpenHandle) := fun env s =>
  match openView (env s.t) p with
  | .error e => .ok (.error e, { s with t := s.t + 1 })
  | .ok h => .ok (.ok h, { t := s.t + 1, log := s.log ++ [.evOpen p] })

def handleStatOp (h : OpenHandle) : ReadM Stats :=
  fsQuery (fun _ => h.stat)

def handleCloseOp (_h : OpenHandle) : ReadM Unit :=
  fsQuery (fun _ => ())

/-- `handle.readFile()` — returns the byte count read (content is not
modelled; only whether a read happened matters to the claims). -/
def handleReadFileOp (h : OpenHandle) : ReadM Nat := fun _ s =>
  .ok (h.stat.size, { t := s.t + 1, log := s.log ++ [.evReadFile h.canonicalPath] })

structure SafeOpenResult where
  handle : OpenHandle
  realPath : FsPath
  stat : Stats
  deriving DecidableEq, Repr

structure SafeLocalReadResult where
  buffer : Nat
  realPath : FsPath
  stat : Stats
  deriving DecidableEq, Repr

structure OpenVerifiedOptions where
  rejectHardlinks : Bool := false
  deriving DecidableEq, Repr

/-- `openVerifiedLocalFile` of the source: pre-check `lstat` (reject
directories before opening so `EISDIR` never surfaces), `O_NOFOLLOW`
open with error classification, then the verification block (paired
`fstat`/`lstat`, symlink / regular-file / hardlink / identity checks,
then `realpath` plus a third stat) with the handle closed on every
failure path. -/
def openVerifiedLocalFile (filePath : FsPath) (options : OpenVerifiedOptions) :
    ReadM SafeOpenResult := do
  -- Reject directories before opening so EISDIR never reaches callers.
  match ← fsLstatOp filePath with
  | .ok preStat =>
    if preStat.kind == .directory then
      ReadM.throw (.safe .notFile "not a file" none)
    else ReadM.pure ()
  | .error _ => ReadM.pure () -- ENOENT and other lstat errors: let open handle it
  let handle ← (do
    match ← fsOpenReadOp filePath with
    | .ok h => ReadM.pure h
    | .error e =>
      if isNotFoundPathError e then ReadM.throw (.safe .notFound "file not found" none)
      else if isSymlinkOpenError e then
        ReadM.throw (.safe .symlink "symlink open blocked" (some (.fromFs e)))
      else if hasNodeErrorCode e .eisdir then
        -- Defensive: remap a raced EISDIR so it never leaks.
        ReadM.throw (.safe .notFile "not a file" none)
      else ReadM.throw (.fsRaw e))
  ReadM.catch (do
      let stat ← handleStatOp handle
      let lstat ← (do
        match ← fsLstatOp filePath with
        | .ok l => ReadM.pure l
        | .error e => ReadM.throw (.fsRaw e))
      if lstat.kind == .symlink then
        ReadM.throw (.safe .symlink "symlink not allowed" none)
      else ReadM.pure ()
      if !(stat.kind == .file) then
        ReadM.throw (.safe .notFile "not a file" none)
      else ReadM.pure ()
      if options.rejectHardlinks && decide (stat.nlink > 1) then
        ReadM.throw (.safe .invalidPath "hardlinked path not allowed" none)
      else ReadM.pure ()
      if !(sameFileIdentity stat lstat) then
        ReadM.throw (.safe .pathMismatch "path changed during read" none)
      else ReadM.pure ()
      let realPath ← (do
        match ← fsRealpathOp filePath with
        | .ok p => ReadM.pure p
        | .error e => ReadM.throw (.fsRaw e))
      let realStat ← (do
        match ← fsStatOp realPath with
        | .ok st => ReadM.pure st
        | .error e => ReadM.throw (.fsRaw e))
      if options.rejectHardlinks && decide (realStat.nlink > 1) then
        ReadM.throw (.safe .invalidPath "hardlinked path not allowed" none)
      else ReadM.pure ()
      if !(sameFileIdentity stat realStat) then
        ReadM.throw (.safe .pathMismatch "path mismatch" none)
      else ReadM.pure ()
      ReadM.pure { handle := handle, realPath := realPath, stat := stat })
    (fun err => do
      handleCloseOp handle
      match err with
      | .safe c m cause => ReadM.throw (.safe c m cause)
      | .fsRaw e =>
        if isNotFoundPathError e then ReadM.throw (.safe .notFound "file not found" none)
        else ReadM.throw (.fsRaw e))

/-- A caller-supplied path string: absolute, or relative to a base. -/
structure RawPath where
  absolute : Bool
  segs : List String
  deriving DecidableEq, Repr

/-- `path.resolve(base, r)` for a possibly relative `r`. -/
def pathResolveFrom (base : FsPath) (r : RawPath) : FsPath :=
  if r.absolute then pathResolve r.segs else pathResolve (base ++ r.segs)

/-- Modelled from the spec: `home-dir.ts` (`expandHomePrefix`) is not
among the sources; it expands a leading `~` segment to the home
directory. -/
def expandHomePrefix (p : RawPath) (home : FsPath) : RawPath :=
  match p.segs with
  | "~" :: rest => { absolute := true, segs := home ++ rest }
  | _ => p

/-- `expandRelativePathWithHome`: canonicalize the home directory when
possible (keeping the lexical expansion behaviour when not), then
expand a leading `~`. -/
def expandRelativePathWithHome (relativePath : RawPath) (home : FsPath) : ReadM RawPath := do
  let homeReal ← (do
    match ← fsRealpathOp home with
    | .ok h => ReadM.pure h
    | .error _ => ReadM.pure home)
  ReadM.pure (expandHomePrefix relativePath homeReal)

structure WithinRootPaths where
  rootReal : FsPath
  rootWithSep : FsPath
  resolved : FsPath
  deriving DecidableEq, Repr

/-- `resolvePathWithinRoot`: realpath the root (`ENOENT` becomes the
`not-found` classification), expand and resolve the relative path
against it, and require lexical containment. In the segment model a
trailing separator is not representable, so `rootWithSep` coincides
with `rootReal`. -/
def resolvePathWithinRoot (rootDir : FsPath) (relativePath : RawPath) (home : FsPath) :
    ReadM WithinRootPaths := do
  let rootReal ← (do
    match ← fsRealpathOp rootDir with
    | .ok p => ReadM.pure p
    | .error e =>
      if isNotFoundPathError e then ReadM.throw (.safe .notFound "root dir not found" none)
      else ReadM.throw (.fsRaw e))
  let expanded ← expandRelativePathWithHome relativePath home
  let resolved := pathResolveFrom rootReal expanded
  if !(isPathInside rootReal resolved) then
    ReadM.throw (.safe .outsideWorkspace "file is outside workspace root" none)
  else ReadM.pure ()
  ReadM.pure { rootReal := rootReal, rootWithSep := rootReal, resolved := resolved }

structure OpenFileWithinRootParams where
  rootDir : FsPath
  relativePath : RawPath
  rejectHardlinks : Option Bool := none
  deriving Repr

/-- `openFileWithinRoot`: resolve within the root, then the verified
open (note: called *without* options, so the inner hardlink checks are
off); every inner failure other than `not-found` is re-wrapped as
`invalid-path` with the original error as cause; then the outer
hardlink rejection (on unless explicitly disabled) and the outer
containment check on the observed real path. -/
def openFileWithinRoot (params : OpenFileWithinRootParams) (home : FsPath) :
    ReadM SafeOpenResult := do
  let within ← resolvePathWithinRoot params.rootDir params.relativePath home
  let opened ← ReadM.catch (openVerifiedLocalFile within.resolved {})
    (fun err =>
      match err with
      | .safe .notFound m c => ReadM.throw (.safe .notFound m c)
      | .safe c m _ =>
        ReadM.throw (.safe .invalidPath "path is not a regular file under root"
          (some (.fromSafe c m)))
      | .fsRaw e => ReadM.throw (.fsRaw e))
  if params.rejectHardlinks ≠ some false ∧ opened.stat.nlink > 1 then do
    handleCloseOp opened.handle
    ReadM.throw (.safe .invalidPath "hardlinked path not allowed" none)
  else ReadM.pure ()
  if !(isPathInside within.rootWithSep opened.realPath) then do
    handleCloseOp opened.handle
    ReadM.throw (.safe .outsideWorkspace "file is outside workspace root" none)
  else ReadM.pure ()
  ReadM.pure opened

/-- `readOpenedFileSafely`: the `maxBytes` limit is enforced on the
verified stat *before* any content read. -/
def readOpenedFileSafely (opened : SafeOpenResult) (maxBytes : Option Nat) :
    ReadM SafeLocalReadResult := do
  match maxBytes with
  | some mb =>
    if opened.stat.size > mb then
      ReadM.throw (.safe .tooLarge "file exceeds limit" none)
    else ReadM.pure ()
  | none => ReadM.pure ()
  let buffer ← handleReadFileOp opened.handle
  ReadM.pure { buffer := buffer, realPath := opened.realPath, stat := opened.stat }

/-- `try … finally handle.close()`. -/
def finallyClose (m : ReadM α) (h : OpenHandle) : ReadM α := fun env s =>
  match m env s with
  | .ok (a, s') =>
    match handleCloseOp h env s' with
    | .ok (_, s'') => .ok (a, s'')
    | .error e => .error e
  | .error (e, s') =>
    match handleCloseOp h env s' with
    | .ok (_, s'') => .error (e, s'')
    | .error e2 => .error e2

structure ReadFileWithinRootParams where
  rootDir : FsPath
  relativePath : RawPath
  rejectHardlinks : Option Bool := none
  maxBytes : Option Nat := none
  deriving Repr

/-- `readFileWithinRoot`: the root-scoped read. -/
def readFileWithinRoot (params : ReadFileWithinRootParams) (home : FsPath) :
    ReadM SafeLocalReadResult := do
  let opened ← openFileWithinRoot
    { rootDir := params.rootDir, relativePath := params.relativePath,
      rejectHardlinks := params.rejectHardlinks } home
  finallyClose (readOpenedFileSafely opened params.maxBytes) opened.handle

/-! ## Error propagation analysis of the opener -/

/-- `P` holds of every error a computation can fail with. -/
def ErrPred (P : OpenErr → Prop) (m : ReadM α) : Prop :=
  ∀ env s e s', m env s = .error (e, s') → P e

theorem errPred_pure {P : OpenErr → Prop} (a : α) : ErrPred P (ReadM.pure a) := by
  intro env s e s' h
  simp [ReadM.pure] at h

theorem errPred_pure' {P : OpenErr → Prop} (a : α) : ErrPred P (Pure.pure (f := ReadM) a) :=
  errPred_pure a

theorem errPred_throw {P : OpenErr → Prop} {e : OpenErr} (he : P e) :
    ErrPred P (ReadM.throw (α := α) e) := by
  intro env s e' s' h
  simp only [ReadM.throw, Except.error.injEq, Prod.mk.injEq] at h
  obtain ⟨he', _⟩ := h
  subst he'
  exact he

theorem errPred_bind {P : OpenErr → Prop} {m : ReadM α} {f : α → ReadM β}
    (hm : ErrPred P m) (hf : ∀ a, ErrPred P (f a)) : ErrPred P (m >>= f) := by
  intro env s e s' h
  simp only [Bind.bind, ReadM.bind] at h
  cases hm' : m env s with
  | ok r => rw [hm'] at h; exact hf r.1 env r.2 e s' h
  | error es => rw [hm'] at h
                cases es with
                | mk e0 s0 =>
                  simp only [Except.error.injEq, Prod.mk.injEq] at h
                  obtain ⟨he, _⟩ := h
                  subst he
                  exact hm env s e0 s0 hm'

theorem errPred_catch {P : OpenErr → Prop} {m : ReadM α} {hnd : OpenErr → ReadM α}
    (hh : ∀ e, ErrPred P (hnd e)) : ErrPred P (ReadM.catch m hnd) := by
  intro env s e s' h
  unfold ReadM.catch at h
  cases hm : m env s with
  | ok r => rw [hm] at h; exact absurd h (by simp)
  | error es => rw [hm] at h; exact hh es.1 env es.2 e s' h

theorem errPred_bind_query {P : OpenErr → Prop} {g : Fs → α} {k : α → ReadM β}
    (hk : ∀ fs, ErrPred P (k (g fs))) : ErrPred P (fsQuery g >>= k) := by
  intro env s e s' h
  simp only [Bind.bind, ReadM.bind, fsQuery] at h
  exact hk (env s.t) env _ e s' h

theorem errPred_bind_open {P : OpenErr → Prop} {p : FsPath} {k : Except FsError OpenHandle → ReadM β}
    (hk : ∀ fs, ErrPred P (k (openView fs p))) : ErrPred P (fsOpenReadOp p >>= k) := by
  intro env s e s' h
  simp only [Bind.bind, ReadM.bind, fsOpenReadOp] at h
  cases ho : openView (env s.t) p with
  | error e0 => rw [ho] at h; have := hk (env s.t); rw [ho] at this; exact this env _ e s' h
  | ok hd => rw [ho] at h; have := hk (env s.t); rw [ho] at this; exact this env _ e s' h

theorem errPred_bind_readFile {P : OpenErr → Prop} {h : OpenHandle} {k : Nat → ReadM β}
    (hk : ErrPred P (k h.stat.size)) : ErrPred P (handleReadFileOp h >>= k) := by
  intro env s e s' hh
  simp only [Bind.bind, ReadM.bind, handleReadFileOp] at hh
  exact hk env _ e s' hh

theorem errPred_finallyClose {P : OpenErr → Prop} {m : ReadM α} {h : OpenHandle}
    (hm : ErrPred P m) : ErrPred P (finallyClose m h) := by
  intro env s e s' hh
  unfold finallyClose at hh
  cases hm' : m env s with
  | ok r =>
    rw [hm'] at hh
    simp only [handleCloseOp, fsQuery] at hh
    exact absurd hh (by simp)
  | error es =>
    rw [hm'] at hh
    simp only [handleCloseOp, fsQuery] at hh
    cases es with
    | mk e0 s0 =>
      simp only [Except.error.injEq, Prod.mk.injEq] at hh
      obtain ⟨he, _⟩ := hh
      subst he
      exact hm env s e0 s0 hm'


theorem resolveComponents_error_codes (fs : Fs) :
    ∀ (fuel : Nat) (rest : List String) (done : FsPath) {e : FsError},
      resolveComponents fs fuel done rest = .error e → e = .enoent ∨ e = .eloop := by
  intro fuel
  induction fuel with
  | zero =>
    intro rest done e h
    cases rest with
    | nil => simp [resolveComponents] at h
    | cons s r =>
      unfold resolveComponents at h
      injection h with h2
      exact Or.inr h2.symm
  | succ fuel ih =>
    intro rest done e h
    cases rest with
    | nil => simp [resolveComponents] at h
    | cons s r =>
      unfold resolveComponents at h
      cases hl : lookupFs fs (done ++ [s]) with
      | none => rw [hl] at h; simp at h; simp [h]
      | some n =>
        rw [hl] at h
        cases n with
        | symlink i t =>
          simp only at h
          cases hr : resolveComponents fs fuel [] (pathResolve t) with
          | error e2 =>
            rw [hr] at h
            simp only [Except.error.injEq] at h
            subst h
            exact ih _ _ hr
          | ok q =>
            rw [hr] at h
            exact ih _ _ h
        | file i n sz => simp only at h; exact ih _ _ h
        | dir i => simp only at h; exact ih _ _ h
        | other i => simp only at h; exact ih _ _ h

theorem fsLstat_error_codes {fs : Fs} {p : FsPath} {e : FsError}
    (h : fsLstat fs p = .error e) : e = .enoent ∨ e = .eloop := by
  unfold fsLstat at h
  cases hp : (pathResolve p).reverse with
  | nil => rw [hp] at h; simp at h
  | cons lastSeg revParent =>
    rw [hp] at h
    dsimp only at h
    cases hr : resolveComponents fs FUEL [] revParent.reverse with
    | error e2 =>
      rw [hr] at h
      simp only [Except.error.injEq] at h
      subst h
      exact resolveComponents_error_codes fs _ _ _ hr
    | ok parent =>
      rw [hr] at h
      dsimp only at h
      unfold lstatDirect at h
      rw [if_neg (by simp)] at h
      cases hl : lookupFs fs (parent ++ [lastSeg]) with
      | none =>
        rw [hl] at h
        dsimp only at h
        injection h with h2
        exact Or.inl h2.symm
      | some n =>
        rw [hl] at h
        dsimp only at h
        exact absurd h (by simp)

theorem fsRealpath_error_codes {fs : Fs} {p : FsPath} {e : FsError}
    (h : fsRealpath fs p = .error e) : e = .enoent ∨ e = .eloop := by
  unfold fsRealpath at h
  exact resolveComponents_error_codes fs _ _ _ h

theorem fsStat_error_codes {fs : Fs} {p : FsPath} {e : FsError}
    (h : fsStat fs p = .error e) : e = .enoent ∨ e = .eloop := by
  unfold fsStat at h
  cases hr : fsRealpath fs p with
  | error e2 =>
    rw [hr] at h
    simp only [Except.error.injEq] at h
    subst h
    exact fsRealpath_error_codes hr
  | ok q =>
    rw [hr] at h
    dsimp only at h
    unfold lstatDirect at h
    by_cases hq : q = []
    · rw [if_pos hq] at h
      exact absurd h (by simp)
    · rw [if_neg hq] at h
      cases hl : lookupFs fs q with
      | none =>
        rw [hl] at h
        dsimp only at h
        injection h with h2
        exact Or.inl h2.symm
      | some n =>
        rw [hl] at h
        dsimp only at h
        exact absurd h (by simp)

theorem openView_error_codes {fs : Fs} {p : FsPath} {e : FsError}
    (h : openView fs p = .error e) : e = .enoent ∨ e = .eloop ∨ e = .eisdir := by
  unfold openView fsOpenReadNoFollow at h
  cases hp : (pathResolve p).reverse with
  | nil => rw [hp] at h; simp at h; simp [h]
  | cons lastSeg revParent =>
    rw [hp] at h
    dsimp only at h
    cases hr : resolveComponents fs FUEL [] revParent.reverse with
    | error e2 =>
      rw [hr] at h
      simp only [Except.error.injEq] at h
      subst h
      rcases resolveComponents_error_codes fs _ _ _ hr with h | h
      · simp [h]
      · simp [h]
    | ok parent =>
      rw [hr] at h
      dsimp only at h
      cases hl : lookupFs fs (parent ++ [lastSeg]) with
      | none =>
        rw [hl] at h
        dsimp only at h
        injection h with h2
        subst h2
        simp
      | some n =>
        rw [hl] at h
        cases n <;> dsimp only at h <;> first
          | (injection h with h2; subst h2; simp)
          | exact absurd h (by simp)


theorem ReadM.pure_bind (a : α) (k : α → ReadM β) : (ReadM.pure a >>= k) = k a := rfl

theorem ReadM.throw_bind (e : OpenErr) (k : α → ReadM β) :
    (ReadM.throw (α := α) e >>= k) = ReadM.throw e := rfl

theorem ReadM.bind_assoc (m : ReadM α) (f : α → ReadM β) (k : β → ReadM γ) :
    ((m >>= f) >>= k) = (m >>= fun a => (f a >>= k)) := by
  funext env s
  simp only [Bind.bind, ReadM.bind]
  cases m env s with
  | ok r => rfl
  | error e => rfl

theorem errPred_catch_of (P' : OpenErr → Prop) {P : OpenErr → Prop} {m : ReadM α} {hnd : OpenErr → ReadM α}
    (hm : ErrPred P' m) (hh : ∀ e, P' e → ErrPred P (hnd e)) :
    ErrPred P (ReadM.catch m hnd) := by
  intro env s e s' h
  unfold ReadM.catch at h
  cases hm' : m env s with
  | ok r => rw [hm'] at h; exact absurd h (by simp)
  | error es =>
    rw [hm'] at h
    exact hh es.1 (hm env s es.1 es.2 hm') env es.2 e s' h

/-- The `SafeOpenError` messages `openVerifiedLocalFile` can produce. -/
def safeOpenMessages : List String :=
  ["not a file", "file not found", "symlink open blocked", "symlink not allowed",
   "hardlinked path not allowed", "path changed during read", "path mismatch"]

/-- Every error escaping `openVerifiedLocalFile` is a classified
`SafeOpenError` with one of its fixed messages, or a raw `ELOOP`. In
particular no `EISDIR` (no OS "is a directory" text) ever escapes. -/
def OpenErrShape (e : OpenErr) : Prop :=
  (∃ c m cause, e = .safe c m cause ∧ m ∈ safeOpenMessages) ∨ e = .fsRaw .eloop

/-- Errors of the inner verification block (before the catch handler
re-maps them): classified errors, or raw `ENOENT`/`ELOOP` from the
`lstat`/`realpath`/`stat` observations. -/
def InnerErrShape (e : OpenErr) : Prop :=
  (∃ c m cause, e = .safe c m cause ∧ m ∈ safeOpenMessages) ∨
    e = .fsRaw .enoent ∨ e = .fsRaw .eloop

theorem openVerifiedLocalFile_errShape (p : FsPath) (opts : OpenVerifiedOptions) :
    ErrPred OpenErrShape (openVerifiedLocalFile p opts) := by
  unfold openVerifiedLocalFile
  simp only [fsLstatOp, fsStatOp, fsRealpathOp, handleStatOp, handleCloseOp]
  apply errPred_bind_query
  intro fs
  dsimp only
  have hthrow : ∀ (m : String) (c : SafeOpenErrorCode) (cause : Option OpenErrCause),
      m ∈ safeOpenMessages → OpenErrShape (.safe c m cause) :=
    fun m c cause hm => Or.inl ⟨c, m, cause, rfl, hm⟩
  have main : ErrPred OpenErrShape (do
      let handle ← (do
        match ← fsOpenReadOp p with
        | .ok h => ReadM.pure h
        | .error e =>
          if isNotFoundPathError e then ReadM.throw (.safe .notFound "file not found" none)
          else if isSymlinkOpenError e then
            ReadM.throw (.safe .symlink "symlink open blocked" (some (.fromFs e)))
          else if hasNodeErrorCode e .eisdir then
            ReadM.throw (.safe .notFile "not a file" none)
          else ReadM.throw (.fsRaw e))
      ReadM.catch (do
          let stat ← handleStatOp handle
          let lstat ← (do
            match ← fsLstatOp p with
            | .ok l => ReadM.pure l
            | .error e => ReadM.throw (.fsRaw e))
          if lstat.kind == .symlink then
            ReadM.throw (.safe .symlink "symlink not allowed" none)
          else ReadM.pure ()
          if !(stat.kind == .file) then
            ReadM.throw (.safe .notFile "not a file" none)
          else ReadM.pure ()
          if opts.rejectHardlinks && decide (stat.nlink > 1) then
            ReadM.throw (.safe .invalidPath "hardlinked path not allowed" none)
          else ReadM.pure ()
          if !(sameFileIdentity stat lstat) then
            ReadM.throw (.safe .pathMismatch "path changed during read" none)
          else ReadM.pure ()
          let realPath ← (do
            match ← fsRealpathOp p with
            | .ok rp => ReadM.pure rp
            | .error e => ReadM.throw (.fsRaw e))
          let realStat ← (do
            match ← fsStatOp realPath with
            | .ok st => ReadM.pure st
            | .error e => ReadM.throw (.fsRaw e))
          if opts.rejectHardlinks && decide (realStat.nlink > 1) then
            ReadM.throw (.safe .invalidPath "hardlinked path not allowed" none)
          else ReadM.pure ()
          if !(sameFileIdentity stat realStat) then
            ReadM.throw (.safe .pathMismatch "path mismatch" none)
          else ReadM.pure ()
          ReadM.pure ({ handle := handle, realPath := realPath, stat := stat } : SafeOpenResult))
        (fun err => do
          handleCloseOp handle
          match err with
          | .safe c m cause => ReadM.throw (.safe c m cause)
          | .fsRaw e =>
            if isNotFoundPathError e then ReadM.throw (.safe .notFound "file not found" none)
            else ReadM.throw (.fsRaw e))) := by
    simp only [fsLstatOp, fsStatOp, fsRealpathOp, handleStatOp, handleCloseOp]
    apply errPred_bind
    · apply errPred_bind_open
      intro fs2
      cases ho : openView fs2 p with
      | ok h => exact errPred_pure h
      | error e =>
        dsimp only
        split
        · exact errPred_throw (hthrow _ _ _ (by simp [safeOpenMessages]))
        split
        · exact errPred_throw (hthrow _ _ _ (by simp [safeOpenMessages]))
        split
        · exact errPred_throw (hthrow _ _ _ (by simp [safeOpenMessages]))
        · rename_i h1 h2 h3
          exfalso
          rcases openView_error_codes ho with h | h | h
          · exact h1 (by simp [h, isNotFoundPathError])
          · exact h2 (by simp [h, isSymlinkOpenError])
          · exact h3 (by simp [h, hasNodeErrorCode])
    intro handle
    refine errPred_catch_of InnerErrShape ?_ ?_
    · apply errPred_bind_query
      intro fs3
      dsimp only
      rw [ReadM.bind_assoc]
      apply errPred_bind_query
      intro fs4
      dsimp only
      cases hl : fsLstat fs4 p with
      | error e =>
        dsimp only
        rw [ReadM.throw_bind]
        apply errPred_throw
        rcases fsLstat_error_codes hl with h | h
        · exact Or.inr (Or.inl (by rw [h]))
        · exact Or.inr (Or.inr (by rw [h]))
      | ok lst =>
        rw [ReadM.pure_bind]
        split
        · rw [ReadM.throw_bind]
          exact errPred_throw (Or.inl ⟨_, _, _, rfl, by simp [safeOpenMessages]⟩)
        rw [ReadM.pure_bind]
        split
        · rw [ReadM.throw_bind]
          exact errPred_throw (Or.inl ⟨_, _, _, rfl, by simp [safeOpenMessages]⟩)
        rw [ReadM.pure_bind]
        split
        · rw [ReadM.throw_bind]
          exact errPred_throw (Or.inl ⟨_, _, _, rfl, by simp [safeOpenMessages]⟩)
        rw [ReadM.pure_bind]
        split
        · rw [ReadM.throw_bind]
          exact errPred_throw (Or.inl ⟨_, _, _, rfl, by simp [safeOpenMessages]⟩)
        rw [ReadM.pure_bind]
        rw [ReadM.bind_assoc]
        apply errPred_bind_query
        intro fs5
        dsimp only
        cases hr : fsRealpath fs5 p with
        | error e =>
          dsimp only
          rw [ReadM.throw_bind]
          apply errPred_throw
          rcases fsRealpath_error_codes hr with h | h
          · exact Or.inr (Or.inl (by rw [h]))
          · exact Or.inr (Or.inr (by rw [h]))
        | ok realPath =>
          rw [ReadM.pure_bind]
          rw [ReadM.bind_assoc]
          apply errPred_bind_query
          intro fs6
          dsimp only
          cases hs : fsStat fs6 realPath with
          | error e =>
            dsimp only
            rw [ReadM.throw_bind]
            apply errPred_throw
            rcases fsStat_error_codes hs with h | h
            · exact Or.inr (Or.inl (by rw [h]))
            · exact Or.inr (Or.inr (by rw [h]))
          | ok realStat =>
            rw [ReadM.pure_bind]
            split
            · rw [ReadM.throw_bind]
              exact errPred_throw (Or.inl ⟨_, _, _, rfl, by simp [safeOpenMessages]⟩)
            rw [ReadM.pure_bind]
            split
            · rw [ReadM.throw_bind]
              exact errPred_throw (Or.inl ⟨_, _, _, rfl, by simp [safeOpenMessages]⟩)
            rw [ReadM.pure_bind]
            exact errPred_pure _
    · intro e he
      apply errPred_bind_query
      intro fs7
      cases e with
      | safe c m cause =>
        dsimp only
        apply errPred_throw
        rcases he with ⟨c', m', cause', heq, hm⟩ | h | h
        · cases heq
          exact Or.inl ⟨_, _, _, rfl, hm⟩
        · exact absurd h (by simp)
        · exact absurd h (by simp)
      | fsRaw e0 =>
        dsimp only
        split
        · exact errPred_throw (Or.inl ⟨_, _, _, rfl, by simp [safeOpenMessages]⟩)
        · rename_i hnf
          apply errPred_throw
          rcases he with ⟨c', m', cause', heq, hm⟩ | h | h
          · exact absurd heq (by simp)
          · exfalso
            apply hnf
            simp only [OpenErr.fsRaw.injEq] at h
            simp [h, isNotFoundPathError]
          · simp only [OpenErr.fsRaw.injEq] at h
            rw [h]
            exact Or.inr rfl
  cases fsLstat fs p with
  | ok preStat =>
    dsimp only
    by_cases hd : (preStat.kind == FileKind.directory) = true
    · rw [if_pos hd, ReadM.throw_bind]
      exact errPred_throw (hthrow _ _ _ (by simp [safeOpenMessages]))
    · rw [if_neg hd, ReadM.pure_bind]
      exact main
  | error e =>
    dsimp only
    rw [ReadM.pure_bind]
    exact main


theorem errPred_mono {Q : OpenErr → Prop} (P : OpenErr → Prop) {m : ReadM α}
    (hpq : ∀ e, P e → Q e) (hm : ErrPred P m) : ErrPred Q m :=
  fun env s e s' h => hpq e (hm env s e s' h)

/-- Every classified (`SafeOpenError`-like) failure of the computation
carries one of the given codes; raw filesystem errors are unrestricted. -/
def SafeCodeIn (codes : List SafeOpenErrorCode) (e : OpenErr) : Prop :=
  ∀ c m cause, e = .safe c m cause → c ∈ codes

theorem resolvePathWithinRoot_errCodes (rootDir : FsPath) (relativePath : RawPath)
    (home : FsPath) (codes : List SafeOpenErrorCode)
    (h1 : SafeOpenErrorCode.notFound ∈ codes) (h2 : SafeOpenErrorCode.outsideWorkspace ∈ codes) :
    ErrPred (SafeCodeIn codes) (resolvePathWithinRoot rootDir relativePath home) := by
  unfold resolvePathWithinRoot expandRelativePathWithHome
  simp only [fsRealpathOp]
  rw [ReadM.bind_assoc]
  apply errPred_bind_query
  intro fs
  dsimp only
  cases fsRealpath fs rootDir with
  | ok rootReal =>
    rw [ReadM.pure_bind]
    rw [ReadM.bind_assoc, ReadM.bind_assoc]
    apply errPred_bind_query
    intro fs2
    dsimp only
    cases fsRealpath fs2 home with
    | ok hr =>
      rw [ReadM.pure_bind, ReadM.pure_bind]
      split
      · rw [ReadM.throw_bind]
        exact errPred_throw (fun c m cause heq => by cases heq; exact h2)
      · rw [ReadM.pure_bind]
        exact errPred_pure _
    | error e =>
      rw [ReadM.pure_bind, ReadM.pure_bind]
      split
      · rw [ReadM.throw_bind]
        exact errPred_throw (fun c m cause heq => by cases heq; exact h2)
      · rw [ReadM.pure_bind]
        exact errPred_pure _
  | error e =>
    dsimp only
    split
    · rw [ReadM.throw_bind]
      exact errPred_throw (fun c m cause heq => by cases heq; exact h1)
    · rw [ReadM.throw_bind]
      exact errPred_throw (fun c m cause heq => by cases heq)

/-- **C9 core**: every classified failure of `openFileWithinRoot` is
`not-found`, `invalid-path` or `outside-workspace` — the inner opener's
`symlink` / `not-file` / `path-mismatch` (and its hardlink
`invalid-path`) classifications are collapsed by the re-wrap into
`invalid-path`, with the original error kept as the cause. -/
theorem openFileWithinRoot_errCodes (params : OpenFileWithinRootParams) (home : FsPath) :
    ErrPred (SafeCodeIn [.notFound, .invalidPath, .outsideWorkspace])
      (openFileWithinRoot params home) := by
  unfold openFileWithinRoot
  apply errPred_bind
  · exact resolvePathWithinRoot_errCodes _ _ _ _ (by simp) (by simp)
  intro within
  apply errPred_bind
  · apply errPred_catch
    intro e
    cases e with
    | safe c m cause =>
      cases c <;>
        exact errPred_throw (fun c' m' cause' heq => by cases heq; simp)
    | fsRaw e0 =>
      exact errPred_throw (fun c' m' cause' heq => by cases heq)
  intro opened
  dsimp only
  split
  · simp only [handleCloseOp]
    apply errPred_bind_query
    intro fs
    rw [ReadM.throw_bind]
    exact errPred_throw (fun c' m' cause' heq => by cases heq; simp)
  · rw [ReadM.pure_bind]
    split
    · simp only [handleCloseOp]
      apply errPred_bind_query
      intro fs
      rw [ReadM.throw_bind]
      exact errPred_throw (fun c' m' cause' heq => by cases heq; simp)
    · rw [ReadM.pure_bind]
      exact errPred_pure _

theorem readOpenedFileSafely_errCodes (opened : SafeOpenResult) (maxBytes : Option Nat) :
    ErrPred (SafeCodeIn [.tooLarge]) (readOpenedFileSafely opened maxBytes) := by
  unfold readOpenedFileSafely
  cases maxBytes with
  | none =>
    dsimp only
    rw [ReadM.pure_bind]
    apply errPred_bind_readFile
    exact errPred_pure _
  | some mb =>
    dsimp only
    split
    · rw [ReadM.throw_bind]
      exact errPred_throw (fun c' m' cause' heq => by cases heq; simp)
    · rw [ReadM.pure_bind]
      apply errPred_bind_readFile
      exact errPred_pure _

/-- **C9 corollary for the root-scoped read**: `readFileWithinRoot`
additionally surfaces `too-large` from the size limit; no other
classifications leak. -/
theorem readFileWithinRoot_errCodes (params : ReadFileWithinRootParams) (home : FsPath) :
    ErrPred (SafeCodeIn [.notFound, .invalidPath, .outsideWorkspace, .tooLarge])
      (readFileWithinRoot params home) := by
  unfold readFileWithinRoot
  apply errPred_bind
  · refine errPred_mono (SafeCodeIn [.notFound, .invalidPath, .outsideWorkspace]) ?_
      (openFileWithinRoot_errCodes _ home)
    intro e he c m cause heq
    have := he c m cause heq
    simp only [List.mem_cons] at this ⊢
    tauto
  intro opened
  apply errPred_finallyClose
  refine errPred_mono (SafeCodeIn [.tooLarge]) ?_ (readOpenedFileSafely_errCodes _ _)
  intro e he c m cause heq
  have := he c m cause heq
  simp only [List.mem_cons] at this ⊢
  tauto

/-! ## Directory rejection (claim C5) -/

/-- A directory is rejected by the pre-check `lstat`, before any open
is attempted: the failure state shows exactly one clock tick (the
`lstat`) and an unchanged event log (no `evOpen`). -/
theorem openVerified_precheck_dir (env : Trace) (s : ReadSt) (p : FsPath)
    (opts : OpenVerifiedOptions) (st : Stats)
    (hl : fsLstat (env s.t) p = .ok st) (hdir : st.kind = .directory) :
    openVerifiedLocalFile p opts env s =
      .error (.safe .notFile "not a file" none, ⟨s.t + 1, s.log⟩) := by
  unfold openVerifiedLocalFile
  simp only [bind, ReadM.bind, fsLstatOp, fsQuery, ReadM.pure, pure, ReadM.throw,
    ReadM.catch, hl, hdir]
  cases s
  rfl

/-- If a directory nevertheless reaches the OS open (a race after the
pre-check), the resulting `EISDIR` is remapped to the `not-file`
classification and never surfaces. -/
theorem openVerified_open_eisdir (env : Trace) (s : ReadSt) (p : FsPath)
    (opts : OpenVerifiedOptions) (st : Stats)
    (hl : fsLstat (env s.t) p = .ok st) (hnd : (st.kind == FileKind.directory) = false)
    (ho : fsOpenReadNoFollow (env (s.t + 1)) p = .error .eisdir) :
    openVerifiedLocalFile p opts env s =
      .error (.safe .notFile "not a file" none, ⟨s.t + 2, s.log⟩) := by
  unfold openVerifiedLocalFile
  simp only [bind, ReadM.bind, fsLstatOp, fsOpenReadOp, fsQuery, openView, ReadM.pure, pure,
    ReadM.throw, ReadM.catch, hl, hnd, ho, isNotFoundPathError, isSymlinkOpenError,
    hasNodeErrorCode, Bool.false_eq_true, if_false, decide_eq_true_eq, reduceCtorEq]
  cases s
  rfl

/-- **C5** (directory rejection): opening a directory through the
verified opener fails with the `not-file` classification — rejected by
the pre-check `lstat` before the OS open is attempted (first conjunct:
one tick, no `evOpen` logged), with the defensive `EISDIR` remap when a
race lets a directory reach the open (second conjunct) — and every
error the opener can surface is a classified error carrying one of its
fixed messages or a raw `ELOOP`: an OS-level `EISDIR` ("is a
directory") error never reaches the caller (third conjunct). -/
theorem claim5_directory_rejection (env : Trace) (s : ReadSt) (p : FsPath)
    (opts : OpenVerifiedOptions) (st : Stats) (e : OpenErr) (s' : ReadSt) :
    (fsLstat (env s.t) p = .ok st → st.kind = .directory →
      openVerifiedLocalFile p opts env s =
        .error (.safe .notFile "not a file" none, ⟨s.t + 1, s.log⟩)) ∧
    (fsLstat (env s.t) p = .ok st → (st.kind == FileKind.directory) = false →
      fsOpenReadNoFollow (env (s.t + 1)) p = .error .eisdir →
      openVerifiedLocalFile p opts env s =
        .error (.safe .notFile "not a file" none, ⟨s.t + 2, s.log⟩)) ∧
    (openVerifiedLocalFile p opts env s = .error (e, s') → OpenErrShape e) :=
  ⟨fun hl hdir => openVerified_precheck_dir env s p opts st hl hdir,
   fun hl hnd ho => openVerified_open_eisdir env s p opts st hl hnd ho,
   fun h => openVerifiedLocalFile_errShape p opts env s e s' h⟩

def fsClaim5 : Fs := [
  (["work"], .dir 1),
  (["work", "dir"], .dir 5)
]

/-- Witness for **C5**: opening the directory `/work/dir` fails with
`not-file` before any open event is logged. -/
theorem claim5_directory_rejection_witness :
    openVerifiedLocalFile ["work", "dir"] {} (fun _ => fsClaim5) ⟨0, []⟩ =
      .error (.safe .notFile "not a file" none, ⟨1, []⟩) :=
  (claim5_directory_rejection (fun _ => fsClaim5) ⟨0, []⟩ ["work", "dir"] {}
    ⟨.directory, 5, 1, 0⟩ (.fsRaw .enoent) ⟨0, []⟩).1 (by decide) (by decide)


/-! ## Size-limit enforcement (claim C7) -/

/-- With `maxBytes` set and the verified size over the limit, the read
helper fails immediately: the failure state is the input state — no
clock tick, no logged event, in particular no `evReadFile`. -/
theorem readOpenedFileSafely_too_large (env : Trace) (s : ReadSt)
    (opened : SafeOpenResult) (mb : Nat) (h : opened.stat.size > mb) :
    readOpenedFileSafely opened (some mb) env s =
      .error (.safe .tooLarge "file exceeds limit" none, s) := by
  unfold readOpenedFileSafely
  simp only [bind, ReadM.bind, ReadM.pure, pure, ReadM.throw, handleReadFileOp]
  simp only [h, if_pos]
  rfl

/-- A successful limited read implies the size was within the limit
(content is only ever read under the limit). -/
theorem readOpenedFileSafely_ok_size (env : Trace) (s : ReadSt)
    (opened : SafeOpenResult) (mb : Nat) (r : SafeLocalReadResult) (s' : ReadSt)
    (h : readOpenedFileSafely opened (some mb) env s = .ok (r, s')) :
    opened.stat.size ≤ mb := by
  by_cases hsz : opened.stat.size > mb
  · rw [readOpenedFileSafely_too_large env s opened mb hsz] at h
    exact absurd h (by simp)
  · omega

/-- **C7** (size-limit enforcement): for a root-scoped read with
`maxBytes` set, if the verified file's size observed at
open-verification time exceeds the limit, the read fails with the
`too-large` classification and no content is ever read: the size check
runs strictly before the read, so the failing run performs no
`evReadFile` (its final log is the log as of open time — only the close
of the `finally` block ticks the clock). The last conjunct records that
a *successful* limited read implies the size was within the limit. -/
theorem claim7_size_limit (env : Trace) (s : ReadSt) (params : ReadFileWithinRootParams)
    (home : FsPath) (mb : Nat) (opened : SafeOpenResult) (s1 : ReadSt)
    (r : SafeLocalReadResult) (s' : ReadSt) :
    (params.maxBytes = some mb →
      openFileWithinRoot ⟨params.rootDir, params.relativePath, params.rejectHardlinks⟩
        home env s = .ok (opened, s1) →
      opened.stat.size > mb →
      readFileWithinRoot params home env s =
        .error (.safe .tooLarge "file exceeds limit" none, ⟨s1.t + 1, s1.log⟩)) ∧
    (readOpenedFileSafely opened (some mb) env s = .ok (r, s') →
      opened.stat.size ≤ mb) := by
  constructor
  · intro hmb hopen hsz
    unfold readFileWithinRoot
    simp only [bind, ReadM.bind, hopen, hmb]
    unfold finallyClose
    rw [readOpenedFileSafely_too_large env s1 opened mb hsz]
    simp only [handleCloseOp, fsQuery]
  · exact readOpenedFileSafely_ok_size env s opened mb r s'

def fsClaim7 : Fs := [
  (["work"], .dir 1),
  (["work", "big.txt"], .file 3 1 20)
]

/-- Witness for **C7**: reading `/work/big.txt` (20 bytes) with
`maxBytes = 10` fails with `too-large`; the log shows the open but no
read event. -/
theorem claim7_size_limit_witness :
    readFileWithinRoot
      { rootDir := ["work"], relativePath := ⟨false, ["big.txt"]⟩, maxBytes := some 10 }
      [] (fun _ => fsClaim7) ⟨0, []⟩ =
      .error (.safe .tooLarge "file exceeds limit" none,
        ⟨9, [.evOpen ["work", "big.txt"]]⟩) :=
  (claim7_size_limit (fun _ => fsClaim7) ⟨0, []⟩
    { rootDir := ["work"], relativePath := ⟨false, ["big.txt"]⟩, maxBytes := some 10 }
    [] 10
    ⟨⟨⟨.file, 3, 1, 20⟩, ["work", "big.txt"]⟩, ["work", "big.txt"], ⟨.file, 3, 1, 20⟩⟩
    ⟨8, [.evOpen ["work", "big.txt"]]⟩
    ⟨0, ["work", "big.txt"], ⟨.file, 3, 1, 20⟩⟩ ⟨0, []⟩).1
    (by decide) (by decide) (by decide)


/-! ## Hardlink rejection (claim C6) -/

/-- Modelled from the spec: the unlink-intent consumer of the
`unlinkTarget` alias policy preset is not among the sources (only the
presets themselves, in `boundary-path.ts`, are); spec P5 says an open
"succeeds when an alias policy explicitly permits hardlink aliasing for
unlink-style intent". Modelled as the verified open with hardlink
rejection disabled exactly when the policy's
`allowFinalHardlinkForUnlink` is set. -/
def openVerifiedForUnlink (filePath : FsPath) (policy : BoundaryPathAliasPolicy) :
    ReadM SafeOpenResult :=
  openVerifiedLocalFile filePath { rejectHardlinks := !policy.allowFinalHardlinkForUnlink }

/-- With `rejectHardlinks := true`, a regular file with `nlink > 1`
fails with `invalid-path` at the hardlink check (before the identity
and realpath steps). -/
theorem openVerified_hardlink_rejects (fs : Fs) (s : ReadSt) (p : FsPath)
    (st : Stats) (cp : FsPath)
    (hl : fsLstat fs p = .ok st) (hkind : st.kind = .file) (hn : st.nlink > 1)
    (ho : fsOpenReadNoFollow fs p = .ok (st, cp)) :
    openVerifiedLocalFile p { rejectHardlinks := true } (fun _ => fs) s =
      .error (.safe .invalidPath "hardlinked path not allowed" none,
        ⟨s.t + 5, s.log ++ [.evOpen p]⟩) := by
  have h1 : (st.kind == FileKind.symlink) = false := by rw [hkind]; rfl
  have h2 : (!(st.kind == FileKind.file)) = false := by rw [hkind]; rfl
  have h3 : decide (st.nlink > 1) = true := by simpa using hn
  have h4 : (st.kind == FileKind.directory) = false := by rw [hkind]; rfl
  unfold openVerifiedLocalFile
  simp only [bind, ReadM.bind, fsLstatOp, fsOpenReadOp, fsQuery, openView, ReadM.pure, pure,
    ReadM.throw, ReadM.catch, handleStatOp, handleCloseOp, hl, ho, h1, h2, h3, h4,
    Bool.true_and, Bool.false_eq_true, if_false, if_true]

/-- The same file succeeds when the policy permits hardlink aliasing
for unlink intent (`unlinkTarget`): identity checks still run and pass,
the hardlink checks are skipped. -/
theorem openVerifiedForUnlink_hardlink_ok (fs : Fs) (s : ReadSt) (p : FsPath)
    (st : Stats) (cp rp : FsPath)
    (hl : fsLstat fs p = .ok st) (hkind : st.kind = .file)
    (ho : fsOpenReadNoFollow fs p = .ok (st, cp))
    (hrp : fsRealpath fs p = .ok rp) (hsp : fsStat fs rp = .ok st) :
    openVerifiedForUnlink p BOUNDARY_PATH_ALIAS_POLICIES_unlinkTarget (fun _ => fs) s =
      .ok (⟨⟨st, cp⟩, rp, st⟩, ⟨s.t + 6, s.log ++ [.evOpen p]⟩) := by
  have h1 : (st.kind == FileKind.symlink) = false := by rw [hkind]; rfl
  have h2 : (!(st.kind == FileKind.file)) = false := by rw [hkind]; rfl
  have h4 : (st.kind == FileKind.directory) = false := by rw [hkind]; rfl
  have h5 : sameFileIdentity st st = true := by simp [sameFileIdentity]
  unfold openVerifiedForUnlink openVerifiedLocalFile BOUNDARY_PATH_ALIAS_POLICIES_unlinkTarget
  simp only [bind, ReadM.bind, fsLstatOp, fsOpenReadOp, fsRealpathOp, fsStatOp, fsQuery,
    openView, ReadM.pure, pure, ReadM.throw, ReadM.catch, handleStatOp, handleCloseOp,
    hl, ho, hrp, hsp, h1, h2, h4, h5, Bool.not_true, Bool.false_and, Bool.not_false,
    Bool.false_eq_true, if_false, if_true]

/-- **C6** (hardlink rejection): opening a regular file whose link
count is greater than one with `rejectHardlinks := true` fails with the
`invalid-path` classification, while the very same file opens
successfully when the alias policy explicitly permits hardlink aliasing
for unlink-style intent (the `unlinkTarget` preset, whose
`allowFinalHardlinkForUnlink` is `true`). -/
theorem claim6_hardlink_rejection (fs : Fs) (s : ReadSt) (p : FsPath)
    (st : Stats) (cp rp : FsPath)
    (hl : fsLstat fs p = .ok st) (hkind : st.kind = .file) (hn : st.nlink > 1)
    (ho : fsOpenReadNoFollow fs p = .ok (st, cp))
    (hrp : fsRealpath fs p = .ok rp) (hsp : fsStat fs rp = .ok st) :
    openVerifiedLocalFile p { rejectHardlinks := true } (fun _ => fs) s =
      .error (.safe .invalidPath "hardlinked path not allowed" none,
        ⟨s.t + 5, s.log ++ [.evOpen p]⟩) ∧
    BOUNDARY_PATH_ALIAS_POLICIES_unlinkTarget.allowFinalHardlinkForUnlink = true ∧
    openVerifiedForUnlink p BOUNDARY_PATH_ALIAS_POLICIES_unlinkTarget (fun _ => fs) s =
      .ok (⟨⟨st, cp⟩, rp, st⟩, ⟨s.t + 6, s.log ++ [.evOpen p]⟩) :=
  ⟨openVerified_hardlink_rejects fs s p st cp hl hkind hn ho, rfl,
   openVerifiedForUnlink_hardlink_ok fs s p st cp rp hl hkind ho hrp hsp⟩

def fsClaim6 : Fs := [
  (["work"], .dir 1),
  (["work", "hard.txt"], .file 4 2 5)
]

/-- Witness for **C6** on `/work/hard.txt` with `nlink = 2`. -/
theorem claim6_hardlink_rejection_witness :
    openVerifiedLocalFile ["work", "hard.txt"] { rejectHardlinks := true }
        (fun _ => fsClaim6) ⟨0, []⟩ =
      .error (.safe .invalidPath "hardlinked path not allowed" none,
        ⟨5, [.evOpen ["work", "hard.txt"]]⟩) ∧
    openVerifiedForUnlink ["work", "hard.txt"] BOUNDARY_PATH_ALIAS_POLICIES_unlinkTarget
        (fun _ => fsClaim6) ⟨0, []⟩ =
      .ok (⟨⟨⟨.file, 4, 2, 5⟩, ["work", "hard.txt"]⟩, ["work", "hard.txt"],
        ⟨.file, 4, 2, 5⟩⟩, ⟨6, [.evOpen ["work", "hard.txt"]]⟩) := by
  have h := claim6_hardlink_rejection fsClaim6 ⟨0, []⟩ ["work", "hard.txt"]
    ⟨.file, 4, 2, 5⟩ ["work", "hard.txt"] ["work", "hard.txt"]
    (by decide) (by decide) (by decide) (by decide) (by decide) (by decide)
  exact ⟨h.1, h.2.2⟩



/-! ## Race detection at open time (claim C4) -/

theorem openView_ok_elim {fs : Fs} {p : FsPath} {h : OpenHandle}
    (ho : openView fs p = .ok h) :
    fsOpenReadNoFollow fs p = .ok (h.stat, h.canonicalPath) := by
  unfold openView at ho
  cases hf : fsOpenReadNoFollow fs p with
  | error e => rw [hf] at ho; exact absurd ho (by simp)
  | ok r =>
    rw [hf] at ho
    cases r with
    | mk st cp =>
      simp only [Except.ok.injEq] at ho
      subst ho
      rfl

/-- A path whose final component is a symbolic link at open time is
refused by the `O_NOFOLLOW` open (`ELOOP`) and classified `symlink`. -/
theorem openVerified_symlink_at_open (env : Trace) (s : ReadSt) (p : FsPath)
    (opts : OpenVerifiedOptions)
    (hpre : ∀ st, fsLstat (env s.t) p = .ok st → (st.kind == FileKind.directory) = false)
    (ho : fsOpenReadNoFollow (env (s.t + 1)) p = .error .eloop) :
    openVerifiedLocalFile p opts env s =
      .error (.safe .symlink "symlink open blocked" (some (.fromFs .eloop)),
        ⟨s.t + 2, s.log⟩) := by
  unfold openVerifiedLocalFile
  cases hx : fsLstat (env s.t) p with
  | ok st =>
    have hd := hpre st hx
    simp only [bind, ReadM.bind, fsLstatOp, fsOpenReadOp, fsQuery, openView, ReadM.pure, pure,
      ReadM.throw, ReadM.catch, hx, hd, ho, isNotFoundPathError, isSymlinkOpenError,
      Bool.false_eq_true, if_false, decide_eq_true_eq, reduceCtorEq, if_true]
  | error e =>
    simp only [bind, ReadM.bind, fsLstatOp, fsOpenReadOp, fsQuery, openView, ReadM.pure, pure,
      ReadM.throw, ReadM.catch, hx, ho, isNotFoundPathError, isSymlinkOpenError,
      Bool.false_eq_true, if_false, decide_eq_true_eq, reduceCtorEq, if_true]

/-- A path that turns into a symbolic link between the open and the
paired `lstat` verification is caught by the `lstat` and classified
`symlink`. -/
theorem openVerified_symlink_at_verify (env : Trace) (s : ReadSt) (p : FsPath)
    (opts : OpenVerifiedOptions) (h0 : OpenHandle) (lst : Stats)
    (hpre : ∀ st, fsLstat (env s.t) p = .ok st → (st.kind == FileKind.directory) = false)
    (ho : openView (env (s.t + 1)) p = .ok h0)
    (hl3 : fsLstat (env (s.t + 3)) p = .ok lst) (hsym : lst.kind = .symlink) :
    openVerifiedLocalFile p opts env s =
      .error (.safe .symlink "symlink not allowed" none,
        ⟨s.t + 5, s.log ++ [.evOpen p]⟩) := by
  have hsymb : (lst.kind == FileKind.symlink) = true := by rw [hsym]; rfl
  unfold openVerifiedLocalFile
  cases hx : fsLstat (env s.t) p with
  | ok st =>
    have hd := hpre st hx
    simp only [bind, ReadM.bind, fsLstatOp, fsOpenReadOp, fsQuery, ReadM.pure, pure,
      ReadM.throw, ReadM.catch, handleStatOp, handleCloseOp, hx, hd, ho, hl3, hsymb,
      Bool.false_eq_true, if_false, if_true]
  | error e =>
    simp only [bind, ReadM.bind, fsLstatOp, fsOpenReadOp, fsQuery, ReadM.pure, pure,
      ReadM.throw, ReadM.catch, handleStatOp, handleCloseOp, hx, ho, hl3, hsymb,
      Bool.false_eq_true, if_false, if_true]

/-- When the file-descriptor stat and the path `lstat` disagree on the
underlying identity (the path was swapped after the open), the call
fails with `path-mismatch`. Stated for the opener's default options (as
used by the root-scoped helpers). -/
theorem openVerified_identity_mismatch (env : Trace) (s : ReadSt) (p : FsPath)
    (h0 : OpenHandle) (lst : Stats)
    (hpre : ∀ st, fsLstat (env s.t) p = .ok st → (st.kind == FileKind.directory) = false)
    (ho : openView (env (s.t + 1)) p = .ok h0)
    (hl3 : fsLstat (env (s.t + 3)) p = .ok lst)
    (hnsym : (lst.kind == FileKind.symlink) = false)
    (hfile : h0.stat.kind = .file)
    (hid : sameFileIdentity h0.stat lst = false) :
    openVerifiedLocalFile p {} env s =
      .error (.safe .pathMismatch "path changed during read" none,
        ⟨s.t + 5, s.log ++ [.evOpen p]⟩) := by
  have hfb : (!(h0.stat.kind == FileKind.file)) = false := by rw [hfile]; rfl
  unfold openVerifiedLocalFile
  cases hx : fsLstat (env s.t) p with
  | ok st =>
    have hd := hpre st hx
    simp only [bind, ReadM.bind, fsLstatOp, fsOpenReadOp, fsQuery, ReadM.pure, pure,
      ReadM.throw, ReadM.catch, handleStatOp, handleCloseOp, hx, hd, ho, hl3, hnsym, hfb,
      hid, Bool.false_and, Bool.false_eq_true, Bool.not_false, if_false, if_true]
  | error e =>
    simp only [bind, ReadM.bind, fsLstatOp, fsOpenReadOp, fsQuery, ReadM.pure, pure,
      ReadM.throw, ReadM.catch, handleStatOp, handleCloseOp, hx, ho, hl3, hnsym, hfb,
      hid, Bool.false_and, Bool.false_eq_true, Bool.not_false, if_false, if_true]

/-- The tail of `openVerifiedLocalFile` after the directory pre-check:
the `O_NOFOLLOW` open with error classification, then the paired
verification block with close-on-failure. Split out so that runs can be
analysed past the pre-check without duplicating the case analysis. -/
def openVerifiedRest (filePath : FsPath) (options : OpenVerifiedOptions) :
    ReadM SafeOpenResult := do
  let handle ← (do
    match ← fsOpenReadOp filePath with
    | .ok h => ReadM.pure h
    | .error e =>
      if isNotFoundPathError e then ReadM.throw (.safe .notFound "file not found" none)
      else if isSymlinkOpenError e then
        ReadM.throw (.safe .symlink "symlink open blocked" (some (.fromFs e)))
      else if hasNodeErrorCode e .eisdir then
        ReadM.throw (.safe .notFile "not a file" none)
      else ReadM.throw (.fsRaw e))
  ReadM.catch (do
      let stat ← handleStatOp handle
      let lstat ← (do
        match ← fsLstatOp filePath with
        | .ok l => ReadM.pure l
        | .error e => ReadM.throw (.fsRaw e))
      if lstat.kind == .symlink then
        ReadM.throw (.safe .symlink "symlink not allowed" none)
      else ReadM.pure ()
      if !(stat.kind == .file) then
        ReadM.throw (.safe .notFile "not a file" none)
      else ReadM.pure ()
      if options.rejectHardlinks && decide (stat.nlink > 1) then
        ReadM.throw (.safe .invalidPath "hardlinked path not allowed" none)
      else ReadM.pure ()
      if !(sameFileIdentity stat lstat) then
        ReadM.throw (.safe .pathMismatch "path changed during read" none)
      else ReadM.pure ()
      let realPath ← (do
        match ← fsRealpathOp filePath with
        | .ok p => ReadM.pure p
        | .error e => ReadM.throw (.fsRaw e))
      let realStat ← (do
        match ← fsStatOp realPath with
        | .ok st => ReadM.pure st
        | .error e => ReadM.throw (.fsRaw e))
      if options.rejectHardlinks && decide (realStat.nlink > 1) then
        ReadM.throw (.safe .invalidPath "hardlinked path not allowed" none)
      else ReadM.pure ()
      if !(sameFileIdentity stat realStat) then
        ReadM.throw (.safe .pathMismatch "path mismatch" none)
      else ReadM.pure ()
      ReadM.pure { handle := handle, realPath := realPath, stat := stat })
    (fun err => do
      handleCloseOp handle
      match err with
      | .safe c m cause => ReadM.throw (.safe c m cause)
      | .fsRaw e =>
        if isNotFoundPathError e then ReadM.throw (.safe .notFound "file not found" none)
        else ReadM.throw (.fsRaw e))

/-- Any run of `openVerifiedLocalFile` is the pre-check followed by the
tail from the post-pre-check state. -/
theorem openVerified_run_split (p : FsPath) (opts : OpenVerifiedOptions)
    (env : Trace) (s : ReadSt) :
    openVerifiedLocalFile p opts env s =
      match fsLstat (env s.t) p with
      | .ok preStat =>
        if preStat.kind == FileKind.directory then
          .error (.safe .notFile "not a file" none, ⟨s.t + 1, s.log⟩)
        else openVerifiedRest p opts env ⟨s.t + 1, s.log⟩
      | .error _ => openVerifiedRest p opts env ⟨s.t + 1, s.log⟩ := by
  unfold openVerifiedLocalFile openVerifiedRest
  cases hx : fsLstat (env s.t) p with
  | error e =>
    simp only [bind, ReadM.bind, fsLstatOp, fsQuery, ReadM.pure, pure, ReadM.throw, hx]
  | ok preStat =>
    by_cases hd : (preStat.kind == FileKind.directory) = true
    · simp only [bind, ReadM.bind, fsLstatOp, fsQuery, ReadM.pure, pure, ReadM.throw, hx,
        hd, if_true]
    · rw [Bool.not_eq_true] at hd
      simp only [bind, ReadM.bind, fsLstatOp, fsQuery, ReadM.pure, pure, ReadM.throw, hx,
        hd, Bool.false_eq_true, if_false]

/-- A successful run of the tail implies: the `O_NOFOLLOW` open at its
snapshot found the object whose stats the result reports, and the paired
path `lstat` two ticks later found a non-symlink whose identity matches
the descriptor's stat. -/
theorem openVerifiedRest_ok_implies (env : Trace) (s1 : ReadSt) (p : FsPath)
    (opts : OpenVerifiedOptions) (res : SafeOpenResult) (s' : ReadSt)
    (h : openVerifiedRest p opts env s1 = .ok (res, s')) :
    fsOpenReadNoFollow (env s1.t) p = .ok (res.stat, res.handle.canonicalPath) ∧
    (∃ lst, fsLstat (env (s1.t + 2)) p = .ok lst ∧ (lst.kind == FileKind.symlink) = false ∧
      sameFileIdentity res.stat lst = true) := by
  unfold openVerifiedRest at h
  simp only [bind, ReadM.bind, ReadM.pure, pure, ReadM.throw, ReadM.catch, fsQuery, fsLstatOp, fsOpenReadOp, fsRealpathOp, fsStatOp, handleStatOp, handleCloseOp, Bool.false_eq_true, if_false, if_true, reduceCtorEq] at h
  cases ho : openView (env s1.t) p with
  | error e2 =>
    simp only [bind, ReadM.bind, ReadM.pure, pure, ReadM.throw, ReadM.catch, fsQuery, fsLstatOp, fsOpenReadOp, fsRealpathOp, fsStatOp, handleStatOp, handleCloseOp, Bool.false_eq_true, if_false, if_true, reduceCtorEq, ho] at h
    by_cases hc1 : isNotFoundPathError e2 = true
    · simp only [bind, ReadM.bind, ReadM.pure, pure, ReadM.throw, ReadM.catch, fsQuery, fsLstatOp, fsOpenReadOp, fsRealpathOp, fsStatOp, handleStatOp, handleCloseOp, Bool.false_eq_true, if_false, if_true, reduceCtorEq, hc1] at h
    · rw [Bool.not_eq_true] at hc1
      by_cases hc2 : isSymlinkOpenError e2 = true
      · simp only [bind, ReadM.bind, ReadM.pure, pure, ReadM.throw, ReadM.catch, fsQuery, fsLstatOp, fsOpenReadOp, fsRealpathOp, fsStatOp, handleStatOp, handleCloseOp, Bool.false_eq_true, if_false, if_true, reduceCtorEq, hc1, hc2] at h
      · rw [Bool.not_eq_true] at hc2
        by_cases hc3 : hasNodeErrorCode e2 FsError.eisdir = true
        · simp only [bind, ReadM.bind, ReadM.pure, pure, ReadM.throw, ReadM.catch, fsQuery, fsLstatOp, fsOpenReadOp, fsRealpathOp, fsStatOp, handleStatOp, handleCloseOp, Bool.false_eq_true, if_false, if_true, reduceCtorEq, hc1, hc2, hc3] at h
        · rw [Bool.not_eq_true] at hc3
          simp only [bind, ReadM.bind, ReadM.pure, pure, ReadM.throw, ReadM.catch, fsQuery, fsLstatOp, fsOpenReadOp, fsRealpathOp, fsStatOp, handleStatOp, handleCloseOp, Bool.false_eq_true, if_false, if_true, reduceCtorEq, hc1, hc2, hc3] at h
  | ok h0 =>
    simp only [bind, ReadM.bind, ReadM.pure, pure, ReadM.throw, ReadM.catch, fsQuery, fsLstatOp, fsOpenReadOp, fsRealpathOp, fsStatOp, handleStatOp, handleCloseOp, Bool.false_eq_true, if_false, if_true, reduceCtorEq, ho] at h
    cases hl : fsLstat (env (s1.t + 2)) p with
    | error e3 =>
      simp only [bind, ReadM.bind, ReadM.pure, pure, ReadM.throw, ReadM.catch, fsQuery, fsLstatOp, fsOpenReadOp, fsRealpathOp, fsStatOp, handleStatOp, handleCloseOp, Bool.false_eq_true, if_false, if_true, reduceCtorEq, hl] at h
      by_cases hc : isNotFoundPathError e3 = true
      · simp only [bind, ReadM.bind, ReadM.pure, pure, ReadM.throw, ReadM.catch, fsQuery, fsLstatOp, fsOpenReadOp, fsRealpathOp, fsStatOp, handleStatOp, handleCloseOp, Bool.false_eq_true, if_false, if_true, reduceCtorEq, hc] at h
      · rw [Bool.not_eq_true] at hc
        simp only [bind, ReadM.bind, ReadM.pure, pure, ReadM.throw, ReadM.catch, fsQuery, fsLstatOp, fsOpenReadOp, fsRealpathOp, fsStatOp, handleStatOp, handleCloseOp, Bool.false_eq_true, if_false, if_true, reduceCtorEq, hc] at h
    | ok lst =>
      simp only [bind, ReadM.bind, ReadM.pure, pure, ReadM.throw, ReadM.catch, fsQuery, fsLstatOp, fsOpenReadOp, fsRealpathOp, fsStatOp, handleStatOp, handleCloseOp, Bool.false_eq_true, if_false, if_true, reduceCtorEq, hl] at h
      by_cases hsym : (lst.kind == FileKind.symlink) = true
      · simp only [bind, ReadM.bind, ReadM.pure, pure, ReadM.throw, ReadM.catch, fsQuery, fsLstatOp, fsOpenReadOp, fsRealpathOp, fsStatOp, handleStatOp, handleCloseOp, Bool.false_eq_true, if_false, if_true, reduceCtorEq, hsym] at h
      · rw [Bool.not_eq_true] at hsym
        simp only [bind, ReadM.bind, ReadM.pure, pure, ReadM.throw, ReadM.catch, fsQuery, fsLstatOp, fsOpenReadOp, fsRealpathOp, fsStatOp, handleStatOp, handleCloseOp, Bool.false_eq_true, if_false, if_true, reduceCtorEq, hsym] at h
        by_cases hfk : (!(h0.stat.kind == FileKind.file)) = true
        · simp only [bind, ReadM.bind, ReadM.pure, pure, ReadM.throw, ReadM.catch, fsQuery, fsLstatOp, fsOpenReadOp, fsRealpathOp, fsStatOp, handleStatOp, handleCloseOp, Bool.false_eq_true, if_false, if_true, reduceCtorEq, hfk] at h
        · rw [Bool.not_eq_true] at hfk
          simp only [bind, ReadM.bind, ReadM.pure, pure, ReadM.throw, ReadM.catch, fsQuery, fsLstatOp, fsOpenReadOp, fsRealpathOp, fsStatOp, handleStatOp, handleCloseOp, Bool.false_eq_true, if_false, if_true, reduceCtorEq, hfk] at h
          by_cases hhl : (opts.rejectHardlinks && decide (h0.stat.nlink > 1)) = true
          · simp only [bind, ReadM.bind, ReadM.pure, pure, ReadM.throw, ReadM.catch, fsQuery, fsLstatOp, fsOpenReadOp, fsRealpathOp, fsStatOp, handleStatOp, handleCloseOp, Bool.false_eq_true, if_false, if_true, reduceCtorEq, hhl] at h
          · rw [Bool.not_eq_true] at hhl
            simp only [bind, ReadM.bind, ReadM.pure, pure, ReadM.throw, ReadM.catch, fsQuery, fsLstatOp, fsOpenReadOp, fsRealpathOp, fsStatOp, handleStatOp, handleCloseOp, Bool.false_eq_true, if_false, if_true, reduceCtorEq, hhl] at h
            by_cases hid : (!sameFileIdentity h0.stat lst) = true
            · simp only [bind, ReadM.bind, ReadM.pure, pure, ReadM.throw, ReadM.catch, fsQuery, fsLstatOp, fsOpenReadOp, fsRealpathOp, fsStatOp, handleStatOp, handleCloseOp, Bool.false_eq_true, if_false, if_true, reduceCtorEq, hid] at h
            · rw [Bool.not_eq_true] at hid
              have hid2 : sameFileIdentity h0.stat lst = true := by
                rw [Bool.not_eq_false'] at hid
                exact hid
              simp only [bind, ReadM.bind, ReadM.pure, pure, ReadM.throw, ReadM.catch, fsQuery, fsLstatOp, fsOpenReadOp, fsRealpathOp, fsStatOp, handleStatOp, handleCloseOp, Bool.false_eq_true, if_false, if_true, reduceCtorEq, hid] at h
              cases hrp : fsRealpath (env (s1.t + 3)) p with
              | error e4 =>
                simp only [bind, ReadM.bind, ReadM.pure, pure, ReadM.throw, ReadM.catch, fsQuery, fsLstatOp, fsOpenReadOp, fsRealpathOp, fsStatOp, handleStatOp, handleCloseOp, Bool.false_eq_true, if_false, if_true, reduceCtorEq, hrp] at h
                by_cases hc : isNotFoundPathError e4 = true
                · simp only [bind, ReadM.bind, ReadM.pure, pure, ReadM.throw, ReadM.catch, fsQuery, fsLstatOp, fsOpenReadOp, fsRealpathOp, fsStatOp, handleStatOp, handleCloseOp, Bool.false_eq_true, if_false, if_true, reduceCtorEq, hc] at h
                · rw [Bool.not_eq_true] at hc
                  simp only [bind, ReadM.bind, ReadM.pure, pure, ReadM.throw, ReadM.catch, fsQuery, fsLstatOp, fsOpenReadOp, fsRealpathOp, fsStatOp, handleStatOp, handleCloseOp, Bool.false_eq_true, if_false, if_true, reduceCtorEq, hc] at h
              | ok rp =>
                simp only [bind, ReadM.bind, ReadM.pure, pure, ReadM.throw, ReadM.catch, fsQuery, fsLstatOp, fsOpenReadOp, fsRealpathOp, fsStatOp, handleStatOp, handleCloseOp, Bool.false_eq_true, if_false, if_true, reduceCtorEq, hrp] at h
                cases hst : fsStat (env (s1.t + 4)) rp with
                | error e5 =>
                  simp only [bind, ReadM.bind, ReadM.pure, pure, ReadM.throw, ReadM.catch, fsQuery, fsLstatOp, fsOpenReadOp, fsRealpathOp, fsStatOp, handleStatOp, handleCloseOp, Bool.false_eq_true, if_false, if_true, reduceCtorEq, hst] at h
                  by_cases hc : isNotFoundPathError e5 = true
                  · simp only [bind, ReadM.bind, ReadM.pure, pure, ReadM.throw, ReadM.catch, fsQuery, fsLstatOp, fsOpenReadOp, fsRealpathOp, fsStatOp, handleStatOp, handleCloseOp, Bool.false_eq_true, if_false, if_true, reduceCtorEq, hc] at h
                  · rw [Bool.not_eq_true] at hc
                    simp only [bind, ReadM.bind, ReadM.pure, pure, ReadM.throw, ReadM.catch, fsQuery, fsLstatOp, fsOpenReadOp, fsRealpathOp, fsStatOp, handleStatOp, handleCloseOp, Bool.false_eq_true, if_false, if_true, reduceCtorEq, hc] at h
                | ok rst =>
                  simp only [bind, ReadM.bind, ReadM.pure, pure, ReadM.throw, ReadM.catch, fsQuery, fsLstatOp, fsOpenReadOp, fsRealpathOp, fsStatOp, handleStatOp, handleCloseOp, Bool.false_eq_true, if_false, if_true, reduceCtorEq, hst] at h
                  by_cases hhl2 : (opts.rejectHardlinks && decide (rst.nlink > 1)) = true
                  · simp only [bind, ReadM.bind, ReadM.pure, pure, ReadM.throw, ReadM.catch, fsQuery, fsLstatOp, fsOpenReadOp, fsRealpathOp, fsStatOp, handleStatOp, handleCloseOp, Bool.false_eq_true, if_false, if_true, reduceCtorEq, hhl2] at h
                  · rw [Bool.not_eq_true] at hhl2
                    simp only [bind, ReadM.bind, ReadM.pure, pure, ReadM.throw, ReadM.catch, fsQuery, fsLstatOp, fsOpenReadOp, fsRealpathOp, fsStatOp, handleStatOp, handleCloseOp, Bool.false_eq_true, if_false, if_true, reduceCtorEq, hhl2] at h
                    by_cases hid3 : (!sameFileIdentity h0.stat rst) = true
                    · simp only [bind, ReadM.bind, ReadM.pure, pure, ReadM.throw, ReadM.catch, fsQuery, fsLstatOp, fsOpenReadOp, fsRealpathOp, fsStatOp, handleStatOp, handleCloseOp, Bool.false_eq_true, if_false, if_true, reduceCtorEq, hid3] at h
                    · rw [Bool.not_eq_true] at hid3
                      simp only [bind, ReadM.bind, ReadM.pure, pure, ReadM.throw, ReadM.catch, fsQuery, fsLstatOp, fsOpenReadOp, fsRealpathOp, fsStatOp, handleStatOp, handleCloseOp, Bool.false_eq_true, if_false, if_true, reduceCtorEq, hid3, Except.ok.injEq, Prod.mk.injEq] at h
                      obtain ⟨h1, h2⟩ := h
                      subst h1
                      exact ⟨openView_ok_elim ho, lst, rfl, hsym, hid2⟩

/-- A successful verified open implies: the `O_NOFOLLOW` open at its
snapshot found the object whose stats the result reports, and the paired
path `lstat` at verification time found a non-symlink whose identity
matches the descriptor's stat. -/
theorem openVerified_ok_implies (env : Trace) (s : ReadSt) (p : FsPath)
    (opts : OpenVerifiedOptions) (res : SafeOpenResult) (s' : ReadSt)
    (h : openVerifiedLocalFile p opts env s = .ok (res, s')) :
    fsOpenReadNoFollow (env (s.t + 1)) p = .ok (res.stat, res.handle.canonicalPath) ∧
    (∃ lst, fsLstat (env (s.t + 3)) p = .ok lst ∧ (lst.kind == FileKind.symlink) = false ∧
      sameFileIdentity res.stat lst = true) := by
  rw [openVerified_run_split] at h
  cases hx : fsLstat (env s.t) p with
  | error e =>
    simp only [hx] at h
    exact openVerifiedRest_ok_implies env ⟨s.t + 1, s.log⟩ p opts res s' h
  | ok preStat =>
    simp only [hx] at h
    by_cases hd : (preStat.kind == FileKind.directory) = true
    · rw [if_pos hd] at h
      exact absurd h (by simp)
    · rw [if_neg hd] at h
      exact openVerifiedRest_ok_implies env ⟨s.t + 1, s.log⟩ p opts res s' h

/-- **C4** — race detection at open time: (1) a successful verified open
implies the `O_NOFOLLOW` open found the object whose stats the result
reports and the paired path `lstat` found a non-symlink with the same
underlying identity; (2) a path that is a symlink at open time is
refused by `O_NOFOLLOW` (`ELOOP`) with the `symlink` classification;
(3) a path that becomes a symlink between open and the paired `lstat`
fails with the `symlink` classification; (4) differing identities
between the handle stat and the path `lstat` fail with the
`path-mismatch` classification. In particular a file replaced with a
symlink between resolve and open never yields a silent success. -/
theorem claim4_race_detection :
    (∀ (env : Trace) (s : ReadSt) (p : FsPath) (opts : OpenVerifiedOptions)
        (res : SafeOpenResult) (s' : ReadSt),
      openVerifiedLocalFile p opts env s = .ok (res, s') →
      fsOpenReadNoFollow (env (s.t + 1)) p = .ok (res.stat, res.handle.canonicalPath) ∧
      (∃ lst, fsLstat (env (s.t + 3)) p = .ok lst ∧
        (lst.kind == FileKind.symlink) = false ∧ sameFileIdentity res.stat lst = true)) ∧
    (∀ (env : Trace) (s : ReadSt) (p : FsPath) (opts : OpenVerifiedOptions),
      (∀ st, fsLstat (env s.t) p = .ok st → (st.kind == FileKind.directory) = false) →
      fsOpenReadNoFollow (env (s.t + 1)) p = .error .eloop →
      openVerifiedLocalFile p opts env s =
        .error (.safe .symlink "symlink open blocked" (some (.fromFs .eloop)),
          ⟨s.t + 2, s.log⟩)) ∧
    (∀ (env : Trace) (s : ReadSt) (p : FsPath) (opts : OpenVerifiedOptions)
        (h0 : OpenHandle) (lst : Stats),
      (∀ st, fsLstat (env s.t) p = .ok st → (st.kind == FileKind.directory) = false) →
      openView (env (s.t + 1)) p = .ok h0 →
      fsLstat (env (s.t + 3)) p = .ok lst → lst.kind = .symlink →
      openVerifiedLocalFile p opts env s =
        .error (.safe .symlink "symlink not allowed" none,
          ⟨s.t + 5, s.log ++ [.evOpen p]⟩)) ∧
    (∀ (env : Trace) (s : ReadSt) (p : FsPath) (h0 : OpenHandle) (lst : Stats),
      (∀ st, fsLstat (env s.t) p = .ok st → (st.kind == FileKind.directory) = false) →
      openView (env (s.t + 1)) p = .ok h0 →
      fsLstat (env (s.t + 3)) p = .ok lst →
      (lst.kind == FileKind.symlink) = false →
      h0.stat.kind = .file → sameFileIdentity h0.stat lst = false →
      openVerifiedLocalFile p {} env s =
        .error (.safe .pathMismatch "path changed during read" none,
          ⟨s.t + 5, s.log ++ [.evOpen p]⟩)) := by
  refine ⟨?_, ?_, ?_, ?_⟩
  · intro env s p opts res s' h
    exact openVerified_ok_implies env s p opts res s' h
  · intro env s p opts hpre ho
    exact openVerified_symlink_at_open env s p opts hpre ho
  · intro env s p opts h0 lst hpre ho hl3 hsym
    exact openVerified_symlink_at_verify env s p opts h0 lst hpre ho hl3 hsym
  · intro env s p h0 lst hpre ho hl3 hnsym hfile hid
    exact openVerified_identity_mismatch env s p h0 lst hpre ho hl3 hnsym hfile hid

def pC4 : FsPath := ["work", "a.txt"]

def fsC4a : Fs := [([], .dir 1), (["work"], .dir 2), (["work", "a.txt"], .file 3 1 5)]

def fsC4b : Fs :=
  [([], .dir 1), (["work"], .dir 2), (["work", "a.txt"], .symlink 9 ["etc", "passwd"])]

/-- Race before the open: the file is swapped for a symlink after the
pre-check (tick 0) and before the `O_NOFOLLOW` open (tick 1). -/
def envC4a : Trace := fun t => if t = 0 then fsC4a else fsC4b

/-- Race before the verification: the file is swapped for a symlink
after the open (tick 1) and before the paired `lstat` (tick 3). -/
def envC4b : Trace := fun t => if t ≤ 2 then fsC4a else fsC4b

theorem claim4_race_detection_witness :
    openVerifiedLocalFile pC4 {} envC4a ⟨0, []⟩ =
      .error (.safe .symlink "symlink open blocked" (some (.fromFs .eloop)), ⟨2, []⟩) ∧
    openVerifiedLocalFile pC4 {} envC4b ⟨0, []⟩ =
      .error (.safe .symlink "symlink not allowed" none, ⟨5, [.evOpen pC4]⟩) := by
  constructor
  · refine claim4_race_detection.2.1 envC4a ⟨0, []⟩ pC4 {} ?_ (by decide)
    intro st hst
    have h2 : (Except.ok (⟨.file, 3, 1, 5⟩ : Stats) : Except FsError Stats) = Except.ok st :=
      (by decide : fsLstat (envC4a 0) pC4 = Except.ok ⟨.file, 3, 1, 5⟩).symm.trans hst
    injection h2 with h3
    rw [← h3]
    decide
  · refine claim4_race_detection.2.2.1 envC4b ⟨0, []⟩ pC4 {}
      ⟨⟨.file, 3, 1, 5⟩, ["work", "a.txt"]⟩ ⟨.symlink, 9, 1, 0⟩ ?_ (by decide) (by decide) rfl
    intro st hst
    have h2 : (Except.ok (⟨.file, 3, 1, 5⟩ : Stats) : Except FsError Stats) = Except.ok st :=
      (by decide : fsLstat (envC4b 0) pC4 = Except.ok ⟨.file, 3, 1, 5⟩).symm.trans hst
    injection h2 with h3
    rw [← h3]
    decide


/-! ## Write-side model (claim C8)

The write path mutates the filesystem itself (directory creation, file
creation, truncation, data writes, compensating removal), so it is
modelled over a state monad whose state is the filesystem plus the
mutation event log. Reads observe the current state; only the write
primitives mutate it and log events. -/

structure WriteSt where
  fs : Fs
  log : List FsEvent
  deriving DecidableEq, Repr

def WriteM (α : Type) : Type :=
  WriteSt → Except (OpenErr × WriteSt) (α × WriteSt)

def WriteM.pure (a : α) : WriteM α := fun s => .ok (a, s)

def WriteM.bind (m : WriteM α) (f : α → WriteM β) : WriteM β := fun s =>
  match m s with
  | .ok (a, s') => f a s'
  | .error e => .error e

instance : Monad WriteM where
  pure := WriteM.pure
  bind := WriteM.bind

def WriteM.throw (e : OpenErr) : WriteM α := fun s => .error (e, s)

/-- `try/catch`: the handler resumes from the state at the failure. -/
def WriteM.catch (m : WriteM α) (h : OpenErr → WriteM α) : WriteM α := fun s =>
  match m s with
  | .ok r => .ok r
  | .error (e, s') => h e s'

/-- A read-only filesystem call against the current state. -/
def wQuery (g : Fs → α) : WriteM α := fun s => .ok (g s.fs, s)

def wLstatOp (p : FsPath) : WriteM (Except FsError Stats) :=
  wQuery (fun fs => fsLstat fs p)

def wStatOp (p : FsPath) : WriteM (Except FsError Stats) :=
  wQuery (fun fs => fsStat fs p)

def wRealpathOp (p : FsPath) : WriteM (Except FsError FsPath) :=
  wQuery (fun fs => fsRealpath fs p)

def fsNodeIno : FsNode → Nat
  | .file i _ _ => i
  | .dir i => i
  | .symlink i _ => i
  | .other i => i

/-- An inode number unused by any current node. -/
def freshIno (fs : Fs) : Nat :=
  (fs.map (fun e => fsNodeIno e.2)).foldr (fun a b => max a b) 0 + 1

/-- `fs.open` with `O_WRONLY | O_NOFOLLOW` (no `O_CREAT`): same refusal
behaviour as the read-side open (`ENOENT`, final symlink `ELOOP`,
directory `EISDIR`), and no truncation (the source truncates explicitly
later). Pure: it mutates nothing. -/
def wOpenWriteExistingOp (p : FsPath) : WriteM (Except FsError OpenHandle) :=
  wQuery (fun fs => openView fs p)

/-- `fs.open` with `O_WRONLY | O_CREAT | O_EXCL | O_NOFOLLOW`: fails
with `EEXIST` on any existing final node (symlink included), otherwise
creates an empty regular file and logs the creation event. -/
def wOpenWriteCreateOp (p : FsPath) : WriteM (Except FsError OpenHandle) := fun s =>
  match (pathResolve p).reverse with
  | [] => .ok (.error .eisdir, s)
  | lastSeg :: revParent =>
    match resolveComponents s.fs FUEL [] revParent.reverse with
    | .error e => .ok (.error e, s)
    | .ok parent =>
      match lookupFs s.fs (parent ++ [lastSeg]) with
      | some _ => .ok (.error .eexist, s)
      | none =>
        let ino := freshIno s.fs
        .ok (.ok ⟨⟨.file, ino, 1, 0⟩, parent ++ [lastSeg]⟩,
          ⟨(parent ++ [lastSeg], .file ino 1 0) :: s.fs,
            s.log ++ [.evCreate (parent ++ [lastSeg])]⟩)

def wHandleStatOp (h : OpenHandle) : WriteM Stats :=
  wQuery (fun _ => h.stat)

/-- `handle.close().catch(() => {})`: never fails, mutates nothing. -/
def wHandleCloseOp (_h : OpenHandle) : WriteM Unit :=
  WriteM.pure ()

/-- Truncate the open file to zero length (by descriptor); logs the
truncation event against the handle's canonical path. -/
def wTruncateOp (h : OpenHandle) : WriteM Unit := fun s =>
  .ok ((), ⟨s.fs.map (fun e =>
      if e.1 == h.canonicalPath then
        match e.2 with
        | .file i n _ => (e.1, .file i n 0)
        | n => (e.1, n)
      else e),
    s.log ++ [.evTruncate h.canonicalPath]⟩)

/-- `handle.writeFile(data)`: set the file's size, log the write. -/
def wWriteDataOp (h : OpenHandle) (data : Nat) : WriteM Unit := fun s =>
  .ok ((), ⟨s.fs.map (fun e =>
      if e.1 == h.canonicalPath then
        match e.2 with
        | .file i n _ => (e.1, .file i n data)
        | n => (e.1, n)
      else e),
    s.log ++ [.evWriteData h.canonicalPath]⟩)

/-- `fs.rm(q, { force: true }).catch(() => {})`: drop the binding, log
the removal; never fails. -/
def wRmForceOp (q : FsPath) : WriteM Unit := fun s =>
  .ok ((), ⟨s.fs.filter (fun e => !(e.1 == q)), s.log ++ [.evRm q]⟩)

/-- `fs.mkdir(dir, { recursive: true })` on the already-resolved parent
path: create a directory node at each missing prefix (existing nodes,
of whatever kind, are left alone; the later open fails on them). Logs
nothing: directory creation is not one of the destructive events the
write-ordering claim constrains. -/
def mkdirRecGo (fs : Fs) (done : FsPath) : List String → Fs
  | [] => fs
  | seg :: rest =>
    match lookupFs fs (done ++ [seg]) with
    | some _ => mkdirRecGo fs (done ++ [seg]) rest
    | none =>
      mkdirRecGo ((done ++ [seg], FsNode.dir (freshIno fs)) :: fs) (done ++ [seg]) rest

def wMkdirRecOp (dir : FsPath) : WriteM Unit := fun s =>
  .ok ((), ⟨mkdirRecGo s.fs [] dir, s.log⟩)

/-- `path.dirname` on an already-resolved segment path. -/
def dirnameOf (p : FsPath) : FsPath := p.dropLast

/-- Modelled from the spec: `path-alias-guards.ts`
(`assertNoPathAliasEscape`) is not among the sources; per the spec the
write path "applies the same alias-escape check to the write target
before creating or truncating it", i.e. it runs the boundary resolver
with the strict (default) alias policy and surfaces its failure. -/
def assertNoPathAliasEscape (fs : Fs) (absolutePath rootPath : FsPath)
    (boundaryLabel : String) : Except BoundaryError Unit :=
  match resolveBoundaryPathSync fs
      { absolutePath := absolutePath, rootPath := rootPath,
        boundaryLabel := boundaryLabel } with
  | .ok _ => .ok ()
  | .error e => .error e

/-- `try … finally handle.close()` on the write monad. -/
def wFinallyClose (m : WriteM α) (h : OpenHandle) : WriteM α := fun s =>
  match m s with
  | .ok (a, s2) =>
    match wHandleCloseOp h s2 with
    | .ok (_, s3) => .ok (a, s3)
    | .error e => .error e
  | .error (e, s2) =>
    match wHandleCloseOp h s2 with
    | .ok (_, s3) => .error (e, s3)
    | .error e2 => .error e2

/-- Write-side `expandRelativePathWithHome` (same source function, over
the write monad). -/
def expandRelativePathWithHomeW (relativePath : RawPath) (home : FsPath) :
    WriteM RawPath := do
  let homeReal ← (do
    match ← wRealpathOp home with
    | .ok h => WriteM.pure h
    | .error _ => WriteM.pure home)
  WriteM.pure (expandHomePrefix relativePath homeReal)

/-- Write-side `resolvePathWithinRoot` (same source function, over the
write monad). -/
def resolvePathWithinRootW (rootDir : FsPath) (relativePath : RawPath) (home : FsPath) :
    WriteM WithinRootPaths := do
  let rootReal ← (do
    match ← wRealpathOp rootDir with
    | .ok p => WriteM.pure p
    | .error e =>
      if isNotFoundPathError e then WriteM.throw (.safe .notFound "root dir not found" none)
      else WriteM.throw (.fsRaw e))
  let expanded ← expandRelativePathWithHomeW relativePath home
  let resolved := pathResolveFrom rootReal expanded
  if !(isPathInside rootReal resolved) then
    WriteM.throw (.safe .outsideWorkspace "file is outside workspace root" none)
  else WriteM.pure ()
  WriteM.pure { rootReal := rootReal, rootWithSep := rootReal, resolved := resolved }

/-- The body of `writeFileWithinRoot`'s verification `try` block (with
its compensating-removal `catch` and the closing `finally`): paired
`fstat`/`lstat`, regular-file / hardlink / identity checks, `realpath`
plus a third stat with its own identity / hardlink / containment
checks, and only then the truncation (existing files only) and the data
write. On failure after `openedRealPath` was observed, a file created
by this call is removed again. -/
def writeVerifyPhase (rootWithSep ioPath : FsPath) (handle : OpenHandle)
    (createdForWrite : Bool) (data : Nat) : WriteM Unit :=
  wFinallyClose (do
      let stat ← wHandleStatOp handle
      let lstat ← (do
        match ← wLstatOp ioPath with
        | .ok l => WriteM.pure l
        | .error e => WriteM.throw (.fsRaw e))
      if lstat.kind == .symlink || !(stat.kind == .file) then
        WriteM.throw (.safe .invalidPath "path is not a regular file under root" none)
      else WriteM.pure ()
      if stat.nlink > 1 then
        WriteM.throw (.safe .invalidPath "hardlinked path not allowed" none)
      else WriteM.pure ()
      if !(sameFileIdentity stat lstat) then
        WriteM.throw (.safe .pathMismatch "path changed during write" none)
      else WriteM.pure ()
      let realPath ← (do
        match ← wRealpathOp ioPath with
        | .ok p => WriteM.pure p
        | .error e => WriteM.throw (.fsRaw e))
      -- `openedRealPath` is set from here on: failures below compensate.
      WriteM.catch (do
          let realStat ← (do
            match ← wStatOp realPath with
            | .ok st => WriteM.pure st
            | .error e => WriteM.throw (.fsRaw e))
          if !(sameFileIdentity stat realStat) then
            WriteM.throw (.safe .pathMismatch "path mismatch" none)
          else WriteM.pure ()
          if realStat.nlink > 1 then
            WriteM.throw (.safe .invalidPath "hardlinked path not allowed" none)
          else WriteM.pure ()
          if !(isPathInside rootWithSep realPath) then
            WriteM.throw (.safe .outsideWorkspace "file is outside workspace root" none)
          else WriteM.pure ()
          if !createdForWrite then wTruncateOp handle
          else WriteM.pure ()
          wWriteDataOp handle data)
        (fun err =>
          match createdForWrite, err with
          | true, .safe c m cause =>
            WriteM.bind (wRmForceOp realPath)
              (fun _ => WriteM.throw (.safe c m cause))
          | _, e2 => WriteM.throw e2))
    handle

structure WriteFileWithinRootParams where
  rootDir : FsPath
  relativePath : RawPath
  data : Nat
  mkdir : Option Bool := none
  deriving Repr

/-- The open step of `writeFileWithinRoot` (open-existing falling back
to exclusive create, with the source's error classification) followed
by the verification phase. -/
def writeOpenAndVerify (rootWithSep ioPath : FsPath) (data : Nat) : WriteM Unit := do
  let hc ← WriteM.catch (do
      match ← wOpenWriteExistingOp ioPath with
      | .ok h => WriteM.pure (h, false)
      | .error e =>
        if !(isNotFoundPathError e) then WriteM.throw (.fsRaw e)
        else
          match ← wOpenWriteCreateOp ioPath with
          | .ok h => WriteM.pure (h, true)
          | .error e2 => WriteM.throw (.fsRaw e2))
    (fun err =>
      match err with
      | .fsRaw e =>
        if isNotFoundPathError e then
          WriteM.throw (.safe .notFound "file not found" none)
        else if isSymlinkOpenError e then
          WriteM.throw (.safe .invalidPath "symlink open blocked" (some (.fromFs e)))
        else WriteM.throw (.fsRaw e)
      | e2 => WriteM.throw e2)
  writeVerifyPhase rootWithSep ioPath hc.1 hc.2 data

/-- The I/O-path refinement of `writeFileWithinRoot` (`realpath` with
containment check, `ENOENT` keeping the lexical path) followed by the
open and verification steps. -/
def writeFileTail (rootWithSep resolved : FsPath) (data : Nat) : WriteM Unit := do
  let ioPath ← (do
    match ← wRealpathOp resolved with
    | .ok rp =>
      if !(isPathInside rootWithSep rp) then
        WriteM.throw (.safe .outsideWorkspace "file is outside workspace root" none)
      else WriteM.pure rp
    | .error e =>
      if isNotFoundPathError e then WriteM.pure resolved
      else WriteM.throw (.fsRaw e))
  writeOpenAndVerify rootWithSep ioPath data

/-- `writeFileWithinRoot` of the source: resolve within the root, the
alias-escape assertion (failures re-wrapped as `invalid-path`),
optional recursive parent-directory creation, then the I/O-path
refinement, the open and the verification phase. -/
def writeFileWithinRoot (params : WriteFileWithinRootParams) (home : FsPath) :
    WriteM Unit := do
  let within ← resolvePathWithinRootW params.rootDir params.relativePath home
  (match ← wQuery (fun fs =>
      assertNoPathAliasEscape fs within.resolved within.rootReal "root") with
   | .ok _ => WriteM.pure ()
   | .error e =>
     WriteM.throw (.safe .invalidPath "path alias escape blocked" (some (.fromBoundary e))))
  if params.mkdir ≠ some false then wMkdirRecOp (dirnameOf within.resolved)
  else WriteM.pure ()
  writeFileTail within.rootWithSep within.resolved params.data

/-- A failing run of the verification phase leaves the event log
unchanged, except that after `openedRealPath` was observed a file
created by this call is removed again (and that removal is the only
appended event). In particular a failing verification phase never logs
a truncation or a data write. -/
theorem writeVerifyPhase_error_log (R io : FsPath) (h0 : OpenHandle) (created : Bool)
    (data : Nat) (s : WriteSt) (e : OpenErr) (s' : WriteSt)
    (h : writeVerifyPhase R io h0 created data s = .error (e, s')) :
    s'.log = s.log ∨
      (created = true ∧
        ∃ rp, fsRealpath s.fs io = .ok rp ∧ s'.log = s.log ++ [FsEvent.evRm rp]) := by
  cases created
  all_goals (
    unfold writeVerifyPhase at h
    simp only [bind, WriteM.bind, WriteM.pure, pure, WriteM.throw, WriteM.catch, wQuery, wLstatOp, wStatOp, wRealpathOp, wHandleStatOp, wHandleCloseOp, wTruncateOp, wWriteDataOp, wRmForceOp, wFinallyClose, Bool.false_eq_true, Bool.not_false, Bool.not_true, if_false, if_true, reduceCtorEq, Except.error.injEq, Prod.mk.injEq] at h
    cases hl : fsLstat s.fs io with
    | error e3 =>
      simp only [bind, WriteM.bind, WriteM.pure, pure, WriteM.throw, WriteM.catch, wQuery, wLstatOp, wStatOp, wRealpathOp, wHandleStatOp, wHandleCloseOp, wTruncateOp, wWriteDataOp, wRmForceOp, wFinallyClose, Bool.false_eq_true, Bool.not_false, Bool.not_true, if_false, if_true, reduceCtorEq, Except.error.injEq, Prod.mk.injEq, hl] at h
      obtain ⟨he, hs⟩ := h
      rw [← hs]
      exact Or.inl rfl
    | ok lst =>
      simp only [bind, WriteM.bind, WriteM.pure, pure, WriteM.throw, WriteM.catch, wQuery, wLstatOp, wStatOp, wRealpathOp, wHandleStatOp, wHandleCloseOp, wTruncateOp, wWriteDataOp, wRmForceOp, wFinallyClose, Bool.false_eq_true, Bool.not_false, Bool.not_true, if_false, if_true, reduceCtorEq, Except.error.injEq, Prod.mk.injEq, hl] at h
      by_cases c1 : (lst.kind == FileKind.symlink || !(h0.stat.kind == FileKind.file)) = true
      · simp only [bind, WriteM.bind, WriteM.pure, pure, WriteM.throw, WriteM.catch, wQuery, wLstatOp, wStatOp, wRealpathOp, wHandleStatOp, wHandleCloseOp, wTruncateOp, wWriteDataOp, wRmForceOp, wFinallyClose, Bool.false_eq_true, Bool.not_false, Bool.not_true, if_false, if_true, reduceCtorEq, Except.error.injEq, Prod.mk.injEq, c1] at h
        obtain ⟨he, hs⟩ := h
        rw [← hs]
        exact Or.inl rfl
      · rw [Bool.not_eq_true] at c1
        simp only [bind, WriteM.bind, WriteM.pure, pure, WriteM.throw, WriteM.catch, wQuery, wLstatOp, wStatOp, wRealpathOp, wHandleStatOp, wHandleCloseOp, wTruncateOp, wWriteDataOp, wRmForceOp, wFinallyClose, Bool.false_eq_true, Bool.not_false, Bool.not_true, if_false, if_true, reduceCtorEq, Except.error.injEq, Prod.mk.injEq, c1] at h
        by_cases c2 : h0.stat.nlink > 1
        · simp only [bind, WriteM.bind, WriteM.pure, pure, WriteM.throw, WriteM.catch, wQuery, wLstatOp, wStatOp, wRealpathOp, wHandleStatOp, wHandleCloseOp, wTruncateOp, wWriteDataOp, wRmForceOp, wFinallyClose, Bool.false_eq_true, Bool.not_false, Bool.not_true, if_false, if_true, reduceCtorEq, Except.error.injEq, Prod.mk.injEq, c2] at h
          obtain ⟨he, hs⟩ := h
          rw [← hs]
          exact Or.inl rfl
        · simp only [bind, WriteM.bind, WriteM.pure, pure, WriteM.throw, WriteM.catch, wQuery, wLstatOp, wStatOp, wRealpathOp, wHandleStatOp, wHandleCloseOp, wTruncateOp, wWriteDataOp, wRmForceOp, wFinallyClose, Bool.false_eq_true, Bool.not_false, Bool.not_true, if_false, if_true, reduceCtorEq, Except.error.injEq, Prod.mk.injEq, c2] at h
          by_cases c3 : (!sameFileIdentity h0.stat lst) = true
          · simp only [bind, WriteM.bind, WriteM.pure, pure, WriteM.throw, WriteM.catch, wQuery, wLstatOp, wStatOp, wRealpathOp, wHandleStatOp, wHandleCloseOp, wTruncateOp, wWriteDataOp, wRmForceOp, wFinallyClose, Bool.false_eq_true, Bool.not_false, Bool.not_true, if_false, if_true, reduceCtorEq, Except.error.injEq, Prod.mk.injEq, c3] at h
            obtain ⟨he, hs⟩ := h
            rw [← hs]
            exact Or.inl rfl
          · rw [Bool.not_eq_true] at c3
            simp only [bind, WriteM.bind, WriteM.pure, pure, WriteM.throw, WriteM.catch, wQuery, wLstatOp, wStatOp, wRealpathOp, wHandleStatOp, wHandleCloseOp, wTruncateOp, wWriteDataOp, wRmForceOp, wFinallyClose, Bool.false_eq_true, Bool.not_false, Bool.not_true, if_false, if_true, reduceCtorEq, Except.error.injEq, Prod.mk.injEq, c3] at h
            cases hrp : fsRealpath s.fs io with
            | error e4 =>
              simp only [bind, WriteM.bind, WriteM.pure, pure, WriteM.throw, WriteM.catch, wQuery, wLstatOp, wStatOp, wRealpathOp, wHandleStatOp, wHandleCloseOp, wTruncateOp, wWriteDataOp, wRmForceOp, wFinallyClose, Bool.false_eq_true, Bool.not_false, Bool.not_true, if_false, if_true, reduceCtorEq, Except.error.injEq, Prod.mk.injEq, hrp] at h
              obtain ⟨he, hs⟩ := h
              rw [← hs]
              exact Or.inl rfl
            | ok rp =>
              simp only [bind, WriteM.bind, WriteM.pure, pure, WriteM.throw, WriteM.catch, wQuery, wLstatOp, wStatOp, wRealpathOp, wHandleStatOp, wHandleCloseOp, wTruncateOp, wWriteDataOp, wRmForceOp, wFinallyClose, Bool.false_eq_true, Bool.not_false, Bool.not_true, if_false, if_true, reduceCtorEq, Except.error.injEq, Prod.mk.injEq, hrp] at h
              cases hst : fsStat s.fs rp with
              | error e5 =>
                simp only [bind, WriteM.bind, WriteM.pure, pure, WriteM.throw, WriteM.catch, wQuery, wLstatOp, wStatOp, wRealpathOp, wHandleStatOp, wHandleCloseOp, wTruncateOp, wWriteDataOp, wRmForceOp, wFinallyClose, Bool.false_eq_true, Bool.not_false, Bool.not_true, if_false, if_true, reduceCtorEq, Except.error.injEq, Prod.mk.injEq, hst] at h
                obtain ⟨he, hs⟩ := h
                rw [← hs]
                exact Or.inl rfl
              | ok rst =>
                simp only [bind, WriteM.bind, WriteM.pure, pure, WriteM.throw, WriteM.catch, wQuery, wLstatOp, wStatOp, wRealpathOp, wHandleStatOp, wHandleCloseOp, wTruncateOp, wWriteDataOp, wRmForceOp, wFinallyClose, Bool.false_eq_true, Bool.not_false, Bool.not_true, if_false, if_true, reduceCtorEq, Except.error.injEq, Prod.mk.injEq, hst] at h
                by_cases c4 : (!sameFileIdentity h0.stat rst) = true
                · simp only [bind, WriteM.bind, WriteM.pure, pure, WriteM.throw, WriteM.catch, wQuery, wLstatOp, wStatOp, wRealpathOp, wHandleStatOp, wHandleCloseOp, wTruncateOp, wWriteDataOp, wRmForceOp, wFinallyClose, Bool.false_eq_true, Bool.not_false, Bool.not_true, if_false, if_true, reduceCtorEq, Except.error.injEq, Prod.mk.injEq, c4] at h
                  obtain ⟨he, hs⟩ := h
                  rw [← hs]
                  first
                  | exact Or.inl rfl
                  | exact Or.inr ⟨rfl, rp, rfl, rfl⟩
                · rw [Bool.not_eq_true] at c4
                  simp only [bind, WriteM.bind, WriteM.pure, pure, WriteM.throw, WriteM.catch, wQuery, wLstatOp, wStatOp, wRealpathOp, wHandleStatOp, wHandleCloseOp, wTruncateOp, wWriteDataOp, wRmForceOp, wFinallyClose, Bool.false_eq_true, Bool.not_false, Bool.not_true, if_false, if_true, reduceCtorEq, Except.error.injEq, Prod.mk.injEq, c4] at h
                  by_cases c5 : rst.nlink > 1
                  · simp only [bind, WriteM.bind, WriteM.pure, pure, WriteM.throw, WriteM.catch, wQuery, wLstatOp, wStatOp, wRealpathOp, wHandleStatOp, wHandleCloseOp, wTruncateOp, wWriteDataOp, wRmForceOp, wFinallyClose, Bool.false_eq_true, Bool.not_false, Bool.not_true, if_false, if_true, reduceCtorEq, Except.error.injEq, Prod.mk.injEq, c5] at h
                    obtain ⟨he, hs⟩ := h
                    rw [← hs]
                    first
                    | exact Or.inl rfl
                    | exact Or.inr ⟨rfl, rp, rfl, rfl⟩
                  · simp only [bind, WriteM.bind, WriteM.pure, pure, WriteM.throw, WriteM.catch, wQuery, wLstatOp, wStatOp, wRealpathOp, wHandleStatOp, wHandleCloseOp, wTruncateOp, wWriteDataOp, wRmForceOp, wFinallyClose, Bool.false_eq_true, Bool.not_false, Bool.not_true, if_false, if_true, reduceCtorEq, Except.error.injEq, Prod.mk.injEq, c5] at h
                    by_cases c6 : (!isPathInside R rp) = true
                    · simp only [bind, WriteM.bind, WriteM.pure, pure, WriteM.throw, WriteM.catch, wQuery, wLstatOp, wStatOp, wRealpathOp, wHandleStatOp, wHandleCloseOp, wTruncateOp, wWriteDataOp, wRmForceOp, wFinallyClose, Bool.false_eq_true, Bool.not_false, Bool.not_true, if_false, if_true, reduceCtorEq, Except.error.injEq, Prod.mk.injEq, c6] at h
                      obtain ⟨he, hs⟩ := h
                      rw [← hs]
                      first
                      | exact Or.inl rfl
                      | exact Or.inr ⟨rfl, rp, rfl, rfl⟩
                    · rw [Bool.not_eq_true] at c6
                      simp only [bind, WriteM.bind, WriteM.pure, pure, WriteM.throw, WriteM.catch, wQuery, wLstatOp, wStatOp, wRealpathOp, wHandleStatOp, wHandleCloseOp, wTruncateOp, wWriteDataOp, wRmForceOp, wFinallyClose, Bool.false_eq_true, Bool.not_false, Bool.not_true, if_false, if_true, reduceCtorEq, Except.error.injEq, Prod.mk.injEq, c6] at h)

theorem lookupFs_cons_self (q : FsPath) (n : FsNode) (fs : Fs) :
    lookupFs ((q, n) :: fs) q = some n := by
  simp [lookupFs, List.find?_cons_of_pos]

theorem lookupFs_cons_ne (q p : FsPath) (n : FsNode) (fs : Fs) (hne : p ≠ q) :
    lookupFs ((q, n) :: fs) p = lookupFs fs p := by
  have : ((q, n).1 == p) = false := by
    simp only [beq_eq_false_iff_ne, ne_eq]
    exact fun hEq => hne hEq.symm
  simp [lookupFs, List.find?_cons_of_neg, this]

/-- A successful walk consumes one unit of fuel per top-level
component, so its component count is bounded by the fuel. -/
theorem resolveComponents_length_le (fs : Fs) :
    ∀ (rest : List String) (fuel : Nat) (done r : FsPath),
      resolveComponents fs fuel done rest = .ok r → rest.length ≤ fuel := by
  intro rest
  induction rest with
  | nil =>
    intro fuel done r _
    simp
  | cons sHead rest' ih =>
    intro fuel done r h
    cases fuel with
    | zero => simp [resolveComponents] at h
    | succ f =>
      simp only [resolveComponents] at h
      cases hlk : lookupFs fs (done ++ [sHead]) with
      | none => simp only [hlk] at h; exact absurd h (by simp)
      | some node =>
        simp only [hlk] at h
        simp only [List.length_cons, Nat.succ_le_succ_iff]
        cases node with
        | symlink i tgt =>
          cases hin : resolveComponents fs f [] (pathResolve tgt) with
          | error e2 => simp only [hin] at h; exact absurd h (by simp)
          | ok resolved =>
            simp only [hin] at h
            exact ih f resolved r h
        | file i nl sz => exact ih f (done ++ [sHead]) r h
        | dir i => exact ih f (done ++ [sHead]) r h
        | other i => exact ih f (done ++ [sHead]) r h

/-- Adding a binding for a path that was absent cannot disturb a walk
that succeeded without it. -/
theorem resolveComponents_insert_fresh (fs : Fs) (q : FsPath) (n : FsNode)
    (hq : lookupFs fs q = none) :
    ∀ (fuel : Nat) (done : FsPath) (rest : List String) (r : FsPath),
      resolveComponents fs fuel done rest = .ok r →
      resolveComponents ((q, n) :: fs) fuel done rest = .ok r := by
  intro fuel
  induction fuel with
  | zero =>
    intro done rest r h
    cases rest with
    | nil => simpa [resolveComponents] using h
    | cons a b => simp [resolveComponents] at h
  | succ f ih =>
    intro done rest r h
    cases rest with
    | nil => simpa [resolveComponents] using h
    | cons sHead rest' =>
      simp only [resolveComponents] at h ⊢
      cases hlk : lookupFs fs (done ++ [sHead]) with
      | none => simp only [hlk] at h; exact absurd h (by simp)
      | some node =>
        have hne : done ++ [sHead] ≠ q := by
          intro hEq
          rw [hEq, hq] at hlk
          exact Option.noConfusion hlk
        simp only [hlk] at h
        simp only [lookupFs_cons_ne q (done ++ [sHead]) n fs hne, hlk]
        cases node with
        | symlink i tgt =>
          cases hin : resolveComponents fs f [] (pathResolve tgt) with
          | error e2 => simp only [hin] at h; exact absurd h (by simp)
          | ok resolved =>
            simp only [hin] at h
            simp only [ih [] (pathResolve tgt) resolved hin]
            exact ih resolved rest' r h
        | file i nl sz => exact ih (done ++ [sHead]) rest' r h
        | dir i => exact ih (done ++ [sHead]) rest' r h
        | other i => exact ih (done ++ [sHead]) rest' r h

/-- Walking `xs ++ ys` is walking `xs` (one fuel unit per component)
and then walking `ys` from where it ended. -/
theorem resolveComponents_append (fs : Fs) :
    ∀ (xs : List String) (fuel : Nat) (done : FsPath) (ys : List String) (r : FsPath),
      resolveComponents fs (fuel + xs.length) done xs = .ok r →
      resolveComponents fs (fuel + xs.length) done (xs ++ ys) =
        resolveComponents fs fuel r ys := by
  intro xs
  induction xs with
  | nil =>
    intro fuel done ys r h
    have hdr : done = r := by
      cases fuel <;> simpa [resolveComponents] using h
    subst hdr
    simp
  | cons sHead xs' ih =>
    intro fuel done ys r h
    have hfe : fuel + (sHead :: xs').length = (fuel + xs'.length) + 1 := by
      simp [List.length_cons]
      omega
    rw [hfe] at h
    rw [hfe, List.cons_append]
    simp only [resolveComponents] at h ⊢
    cases hlk : lookupFs fs (done ++ [sHead]) with
    | none => simp only [hlk] at h; exact absurd h (by simp)
    | some node =>
      simp only [hlk] at h
      cases node with
      | symlink i tgt =>
        cases hin : resolveComponents fs (fuel + xs'.length) [] (pathResolve tgt) with
        | error e2 => simp only [hin] at h; exact absurd h (by simp)
        | ok resolved =>
          simp only [hin] at h
          simp only [hin]
          exact ih fuel resolved ys r h
      | file i nl sz => exact ih fuel (done ++ [sHead]) ys r h
      | dir i => exact ih fuel (done ++ [sHead]) ys r h
      | other i => exact ih fuel (done ++ [sHead]) ys r h

/-- The within-root resolution step never mutates the write state. -/
theorem resolvePathWithinRootW_state (rootDir : FsPath) (rel : RawPath)
    (home : FsPath) (s : WriteSt) :
    (∃ e, resolvePathWithinRootW rootDir rel home s = .error (e, s)) ∨
    (∃ w, resolvePathWithinRootW rootDir rel home s = .ok (w, s)) := by
  unfold resolvePathWithinRootW expandRelativePathWithHomeW
  cases hroot : fsRealpath s.fs rootDir with
  | error er =>
    by_cases hnf : isNotFoundPathError er = true
    · simp only [bind, WriteM.bind, WriteM.pure, pure, WriteM.throw, WriteM.catch, wQuery, wRealpathOp, Bool.false_eq_true, Bool.not_false, Bool.not_true, if_false, if_true, reduceCtorEq, hroot, hnf]
      exact Or.inl ⟨_, rfl⟩
    · rw [Bool.not_eq_true] at hnf
      simp only [bind, WriteM.bind, WriteM.pure, pure, WriteM.throw, WriteM.catch, wQuery, wRealpathOp, Bool.false_eq_true, Bool.not_false, Bool.not_true, if_false, if_true, reduceCtorEq, hroot, hnf]
      exact Or.inl ⟨_, rfl⟩
  | ok p =>
    cases hhome : fsRealpath s.fs home with
    | error eh =>
      by_cases hc : (!(isPathInside p (pathResolveFrom p (expandHomePrefix rel home)))) = true
      · simp only [bind, WriteM.bind, WriteM.pure, pure, WriteM.throw, WriteM.catch, wQuery, wRealpathOp, Bool.false_eq_true, Bool.not_false, Bool.not_true, if_false, if_true, reduceCtorEq, hroot, hhome, hc]
        exact Or.inl ⟨_, rfl⟩
      · rw [Bool.not_eq_true] at hc
        simp only [bind, WriteM.bind, WriteM.pure, pure, WriteM.throw, WriteM.catch, wQuery, wRealpathOp, Bool.false_eq_true, Bool.not_false, Bool.not_true, if_false, if_true, reduceCtorEq, hroot, hhome, hc]
        exact Or.inr ⟨_, rfl⟩
    | ok hr =>
      by_cases hc : (!(isPathInside p (pathResolveFrom p (expandHomePrefix rel hr)))) = true
      · simp only [bind, WriteM.bind, WriteM.pure, pure, WriteM.throw, WriteM.catch, wQuery, wRealpathOp, Bool.false_eq_true, Bool.not_false, Bool.not_true, if_false, if_true, reduceCtorEq, hroot, hhome, hc]
        exact Or.inl ⟨_, rfl⟩
      · rw [Bool.not_eq_true] at hc
        simp only [bind, WriteM.bind, WriteM.pure, pure, WriteM.throw, WriteM.catch, wQuery, wRealpathOp, Bool.false_eq_true, Bool.not_false, Bool.not_true, if_false, if_true, reduceCtorEq, hroot, hhome, hc]
        exact Or.inr ⟨_, rfl⟩

/-- After creating the (previously absent) final component as a regular
file, `realpath` of the written path can only report that very
component. -/
theorem fsRealpath_after_create (fs : Fs) (io : FsPath) (lastSeg : String)
    (revParent : List String) (parent : FsPath) (ino nl sz : Nat)
    (hsplit : (pathResolve io).reverse = lastSeg :: revParent)
    (hpar : resolveComponents fs FUEL [] revParent.reverse = .ok parent)
    (hlook : lookupFs fs (parent ++ [lastSeg]) = none) :
    ∀ rp, fsRealpath ((parent ++ [lastSeg], FsNode.file ino nl sz) :: fs) io = .ok rp →
      rp = parent ++ [lastSeg] := by
  intro rp hrp
  have hpar' : resolveComponents ((parent ++ [lastSeg], FsNode.file ino nl sz) :: fs)
      FUEL [] revParent.reverse = .ok parent :=
    resolveComponents_insert_fresh fs (parent ++ [lastSeg]) (FsNode.file ino nl sz)
      hlook FUEL [] revParent.reverse parent hpar
  have hlen : revParent.reverse.length ≤ FUEL :=
    resolveComponents_length_le _ revParent.reverse FUEL [] parent hpar'
  have hio : pathResolve io = revParent.reverse ++ [lastSeg] := by
    have h2 := congrArg List.reverse hsplit
    simpa [List.reverse_cons] using h2
  rw [fsRealpath, hio] at hrp
  have hF : FUEL = (FUEL - revParent.reverse.length) + revParent.reverse.length := by
    omega
  rw [hF] at hrp hpar'
  rw [resolveComponents_append _ revParent.reverse (FUEL - revParent.reverse.length)
    [] [lastSeg] parent hpar'] at hrp
  cases hk : FUEL - revParent.reverse.length with
  | zero =>
    rw [hk] at hrp
    exact absurd hrp (by simp [resolveComponents])
  | succ k =>
    rw [hk] at hrp
    simp only [resolveComponents, lookupFs_cons_self] at hrp
    simp only [Except.ok.injEq] at hrp
    exact hrp.symm

/-- The log-safety property the write-ordering claim asserts of failing
runs: relative to the starting log, a failing run appended no
truncation and no data write, and any removal it appended targets a
path whose creation this very run also logged. -/
def LogSafeExtension (base fin : List FsEvent) : Prop :=
  (∀ q, FsEvent.evTruncate q ∈ fin → FsEvent.evTruncate q ∈ base) ∧
  (∀ q, FsEvent.evWriteData q ∈ fin → FsEvent.evWriteData q ∈ base) ∧
  (∀ q, FsEvent.evRm q ∈ fin → FsEvent.evRm q ∈ base ∨ FsEvent.evCreate q ∈ fin)

theorem logSafeExtension_refl (l : List FsEvent) : LogSafeExtension l l :=
  ⟨fun _ hq => hq, fun _ hq => hq, fun _ hq => Or.inl hq⟩

theorem logSafeExtension_create (l : List FsEvent) (q : FsPath) :
    LogSafeExtension l (l ++ [FsEvent.evCreate q]) := by
  refine ⟨?_, ?_, ?_⟩ <;> intro q' hq'
  · rcases List.mem_append.1 hq' with h1 | h1
    · exact h1
    · simp at h1
  · rcases List.mem_append.1 hq' with h1 | h1
    · exact h1
    · simp at h1
  · rcases List.mem_append.1 hq' with h1 | h1
    · exact Or.inl h1
    · simp at h1

theorem logSafeExtension_createRm (l : List FsEvent) (q : FsPath) :
    LogSafeExtension l ((l ++ [FsEvent.evCreate q]) ++ [FsEvent.evRm q]) := by
  refine ⟨?_, ?_, ?_⟩ <;> intro q' hq'
  · rcases List.mem_append.1 hq' with h1 | h1
    · rcases List.mem_append.1 h1 with h2 | h2
      · exact h2
      · simp at h2
    · simp at h1
  · rcases List.mem_append.1 hq' with h1 | h1
    · rcases List.mem_append.1 h1 with h2 | h2
      · exact h2
      · simp at h2
    · simp at h1
  · rcases List.mem_append.1 hq' with h1 | h1
    · rcases List.mem_append.1 h1 with h2 | h2
      · exact Or.inl h2
      · simp at h2
    · simp at h1
      subst h1
      exact Or.inr (by simp)

/-- A failing open-and-verify step appends at most a creation plus the
compensating removal of that same created path. -/
theorem writeOpenAndVerify_error_log (R io : FsPath) (data : Nat) (s : WriteSt)
    (e : OpenErr) (s' : WriteSt)
    (h : writeOpenAndVerify R io data s = .error (e, s')) :
    LogSafeExtension s.log s'.log := by
  unfold writeOpenAndVerify at h
  simp only [bind, WriteM.bind, WriteM.pure, pure, WriteM.throw, WriteM.catch, wQuery, wRealpathOp, wOpenWriteExistingOp, wOpenWriteCreateOp, wMkdirRecOp, Bool.false_eq_true, Bool.not_false, Bool.not_true, if_false, if_true, reduceCtorEq, Except.error.injEq, Prod.mk.injEq] at h
  cases hoe : openView s.fs io with
  | ok h0 =>
    simp only [bind, WriteM.bind, WriteM.pure, pure, WriteM.throw, WriteM.catch, wQuery, wRealpathOp, wOpenWriteExistingOp, wOpenWriteCreateOp, wMkdirRecOp, Bool.false_eq_true, Bool.not_false, Bool.not_true, if_false, if_true, reduceCtorEq, Except.error.injEq, Prod.mk.injEq, hoe] at h
    have hv := writeVerifyPhase_error_log R io h0 false data s e s' h
    rcases hv with hlog | ⟨hcr, _⟩
    · rw [hlog]
      exact logSafeExtension_refl _
    · exact absurd hcr (by simp)
  | error eo =>
    simp only [bind, WriteM.bind, WriteM.pure, pure, WriteM.throw, WriteM.catch, wQuery, wRealpathOp, wOpenWriteExistingOp, wOpenWriteCreateOp, wMkdirRecOp, Bool.false_eq_true, Bool.not_false, Bool.not_true, if_false, if_true, reduceCtorEq, Except.error.injEq, Prod.mk.injEq, hoe] at h
    by_cases hnf : isNotFoundPathError eo = true
    · simp only [bind, WriteM.bind, WriteM.pure, pure, WriteM.throw, WriteM.catch, wQuery, wRealpathOp, wOpenWriteExistingOp, wOpenWriteCreateOp, wMkdirRecOp, Bool.false_eq_true, Bool.not_false, Bool.not_true, if_false, if_true, reduceCtorEq, Except.error.injEq, Prod.mk.injEq, hnf] at h
      cases hsplit : (pathResolve io).reverse with
      | nil =>
        simp only [bind, WriteM.bind, WriteM.pure, pure, WriteM.throw, WriteM.catch, wQuery, wRealpathOp, wOpenWriteExistingOp, wOpenWriteCreateOp, wMkdirRecOp, Bool.false_eq_true, Bool.not_false, Bool.not_true, if_false, if_true, reduceCtorEq, Except.error.injEq, Prod.mk.injEq, hsplit,
          show isNotFoundPathError FsError.eisdir = false from rfl,
          show isSymlinkOpenError FsError.eisdir = false from rfl] at h
        obtain ⟨he, hs⟩ := h
        rw [← hs]
        exact logSafeExtension_refl _
      | cons lastSeg revParent =>
        simp only [bind, WriteM.bind, WriteM.pure, pure, WriteM.throw, WriteM.catch, wQuery, wRealpathOp, wOpenWriteExistingOp, wOpenWriteCreateOp, wMkdirRecOp, Bool.false_eq_true, Bool.not_false, Bool.not_true, if_false, if_true, reduceCtorEq, Except.error.injEq, Prod.mk.injEq, hsplit] at h
        cases hpar : resolveComponents s.fs FUEL [] revParent.reverse with
        | error ep =>
          simp only [bind, WriteM.bind, WriteM.pure, pure, WriteM.throw, WriteM.catch, wQuery, wRealpathOp, wOpenWriteExistingOp, wOpenWriteCreateOp, wMkdirRecOp, Bool.false_eq_true, Bool.not_false, Bool.not_true, if_false, if_true, reduceCtorEq, Except.error.injEq, Prod.mk.injEq, hpar] at h
          by_cases hnf2 : isNotFoundPathError ep = true
          · simp only [bind, WriteM.bind, WriteM.pure, pure, WriteM.throw, WriteM.catch, wQuery, wRealpathOp, wOpenWriteExistingOp, wOpenWriteCreateOp, wMkdirRecOp, Bool.false_eq_true, Bool.not_false, Bool.not_true, if_false, if_true, reduceCtorEq, Except.error.injEq, Prod.mk.injEq, hnf2] at h
            obtain ⟨he, hs⟩ := h
            rw [← hs]
            exact logSafeExtension_refl _
          · rw [Bool.not_eq_true] at hnf2
            by_cases hsl2 : isSymlinkOpenError ep = true
            · simp only [bind, WriteM.bind, WriteM.pure, pure, WriteM.throw, WriteM.catch, wQuery, wRealpathOp, wOpenWriteExistingOp, wOpenWriteCreateOp, wMkdirRecOp, Bool.false_eq_true, Bool.not_false, Bool.not_true, if_false, if_true, reduceCtorEq, Except.error.injEq, Prod.mk.injEq, hnf2, hsl2] at h
              obtain ⟨he, hs⟩ := h
              rw [← hs]
              exact logSafeExtension_refl _
            · rw [Bool.not_eq_true] at hsl2
              simp only [bind, WriteM.bind, WriteM.pure, pure, WriteM.throw, WriteM.catch, wQuery, wRealpathOp, wOpenWriteExistingOp, wOpenWriteCreateOp, wMkdirRecOp, Bool.false_eq_true, Bool.not_false, Bool.not_true, if_false, if_true, reduceCtorEq, Except.error.injEq, Prod.mk.injEq, hnf2, hsl2] at h
              obtain ⟨he, hs⟩ := h
              rw [← hs]
              exact logSafeExtension_refl _
        | ok parent =>
          simp only [bind, WriteM.bind, WriteM.pure, pure, WriteM.throw, WriteM.catch, wQuery, wRealpathOp, wOpenWriteExistingOp, wOpenWriteCreateOp, wMkdirRecOp, Bool.false_eq_true, Bool.not_false, Bool.not_true, if_false, if_true, reduceCtorEq, Except.error.injEq, Prod.mk.injEq, hpar] at h
          cases hlook : lookupFs s.fs (parent ++ [lastSeg]) with
          | some nd =>
            simp only [bind, WriteM.bind, WriteM.pure, pure, WriteM.throw, WriteM.catch, wQuery, wRealpathOp, wOpenWriteExistingOp, wOpenWriteCreateOp, wMkdirRecOp, Bool.false_eq_true, Bool.not_false, Bool.not_true, if_false, if_true, reduceCtorEq, Except.error.injEq, Prod.mk.injEq, hlook,
              show isNotFoundPathError FsError.eexist = false from rfl,
              show isSymlinkOpenError FsError.eexist = false from rfl] at h
            obtain ⟨he, hs⟩ := h
            rw [← hs]
            exact logSafeExtension_refl _
          | none =>
            simp only [bind, WriteM.bind, WriteM.pure, pure, WriteM.throw, WriteM.catch, wQuery, wRealpathOp, wOpenWriteExistingOp, wOpenWriteCreateOp, wMkdirRecOp, Bool.false_eq_true, Bool.not_false, Bool.not_true, if_false, if_true, reduceCtorEq, Except.error.injEq, Prod.mk.injEq, hlook] at h
            have hv := writeVerifyPhase_error_log R io
              ⟨⟨.file, freshIno s.fs, 1, 0⟩, parent ++ [lastSeg]⟩ true data
              ⟨(parent ++ [lastSeg], .file (freshIno s.fs) 1 0) :: s.fs,
                s.log ++ [.evCreate (parent ++ [lastSeg])]⟩ e s' h
            rcases hv with hlog | ⟨_, rp, hrp, hlog⟩
            · rw [hlog]
              exact logSafeExtension_create s.log (parent ++ [lastSeg])
            · have hrp2 : rp = parent ++ [lastSeg] :=
                fsRealpath_after_create s.fs io lastSeg revParent parent
                  (freshIno s.fs) 1 0 hsplit hpar hlook rp hrp
              subst hrp2
              rw [hlog]
              exact logSafeExtension_createRm s.log (parent ++ [lastSeg])
    · rw [Bool.not_eq_true] at hnf
      simp only [bind, WriteM.bind, WriteM.pure, pure, WriteM.throw, WriteM.catch, wQuery, wRealpathOp, wOpenWriteExistingOp, wOpenWriteCreateOp, wMkdirRecOp, Bool.false_eq_true, Bool.not_false, Bool.not_true, if_false, if_true, reduceCtorEq, Except.error.injEq, Prod.mk.injEq, hnf] at h
      by_cases hsl : isSymlinkOpenError eo = true
      · simp only [bind, WriteM.bind, WriteM.pure, pure, WriteM.throw, WriteM.catch, wQuery, wRealpathOp, wOpenWriteExistingOp, wOpenWriteCreateOp, wMkdirRecOp, Bool.false_eq_true, Bool.not_false, Bool.not_true, if_false, if_true, reduceCtorEq, Except.error.injEq, Prod.mk.injEq, hsl] at h
        obtain ⟨he, hs⟩ := h
        rw [← hs]
        exact logSafeExtension_refl _
      · rw [Bool.not_eq_true] at hsl
        simp only [bind, WriteM.bind, WriteM.pure, pure, WriteM.throw, WriteM.catch, wQuery, wRealpathOp, wOpenWriteExistingOp, wOpenWriteCreateOp, wMkdirRecOp, Bool.false_eq_true, Bool.not_false, Bool.not_true, if_false, if_true, reduceCtorEq, Except.error.injEq, Prod.mk.injEq, hsl] at h
        obtain ⟨he, hs⟩ := h
        rw [← hs]
        exact logSafeExtension_refl _

/-- A failing tail (path refinement, open, verify) appends at most a
creation plus the compensating removal of that created path. -/
theorem writeFileTail_error_log (R P : FsPath) (data : Nat) (s : WriteSt)
    (e : OpenErr) (s' : WriteSt)
    (h : writeFileTail R P data s = .error (e, s')) :
    LogSafeExtension s.log s'.log := by
  unfold writeFileTail at h
  simp only [bind, WriteM.bind, WriteM.pure, pure, WriteM.throw, WriteM.catch, wQuery, wRealpathOp, wOpenWriteExistingOp, wOpenWriteCreateOp, wMkdirRecOp, Bool.false_eq_true, Bool.not_false, Bool.not_true, if_false, if_true, reduceCtorEq, Except.error.injEq, Prod.mk.injEq] at h
  cases hrio : fsRealpath s.fs P with
  | ok rp =>
    simp only [bind, WriteM.bind, WriteM.pure, pure, WriteM.throw, WriteM.catch, wQuery, wRealpathOp, wOpenWriteExistingOp, wOpenWriteCreateOp, wMkdirRecOp, Bool.false_eq_true, Bool.not_false, Bool.not_true, if_false, if_true, reduceCtorEq, Except.error.injEq, Prod.mk.injEq, hrio] at h
    by_cases hc : (!isPathInside R rp) = true
    · simp only [bind, WriteM.bind, WriteM.pure, pure, WriteM.throw, WriteM.catch, wQuery, wRealpathOp, wOpenWriteExistingOp, wOpenWriteCreateOp, wMkdirRecOp, Bool.false_eq_true, Bool.not_false, Bool.not_true, if_false, if_true, reduceCtorEq, Except.error.injEq, Prod.mk.injEq, hc] at h
      obtain ⟨he, hs⟩ := h
      rw [← hs]
      exact logSafeExtension_refl _
    · rw [Bool.not_eq_true] at hc
      simp only [bind, WriteM.bind, WriteM.pure, pure, WriteM.throw, WriteM.catch, wQuery, wRealpathOp, wOpenWriteExistingOp, wOpenWriteCreateOp, wMkdirRecOp, Bool.false_eq_true, Bool.not_false, Bool.not_true, if_false, if_true, reduceCtorEq, Except.error.injEq, Prod.mk.injEq, hc] at h
      exact writeOpenAndVerify_error_log R rp data s e s' h
  | error er =>
    simp only [bind, WriteM.bind, WriteM.pure, pure, WriteM.throw, WriteM.catch, wQuery, wRealpathOp, wOpenWriteExistingOp, wOpenWriteCreateOp, wMkdirRecOp, Bool.false_eq_true, Bool.not_false, Bool.not_true, if_false, if_true, reduceCtorEq, Except.error.injEq, Prod.mk.injEq, hrio] at h
    by_cases hnf : isNotFoundPathError er = true
    · simp only [bind, WriteM.bind, WriteM.pure, pure, WriteM.throw, WriteM.catch, wQuery, wRealpathOp, wOpenWriteExistingOp, wOpenWriteCreateOp, wMkdirRecOp, Bool.false_eq_true, Bool.not_false, Bool.not_true, if_false, if_true, reduceCtorEq, Except.error.injEq, Prod.mk.injEq, hnf] at h
      exact writeOpenAndVerify_error_log R P data s e s' h
    · rw [Bool.not_eq_true] at hnf
      simp only [bind, WriteM.bind, WriteM.pure, pure, WriteM.throw, WriteM.catch, wQuery, wRealpathOp, wOpenWriteExistingOp, wOpenWriteCreateOp, wMkdirRecOp, Bool.false_eq_true, Bool.not_false, Bool.not_true, if_false, if_true, reduceCtorEq, Except.error.injEq, Prod.mk.injEq, hnf] at h
      obtain ⟨he, hs⟩ := h
      rw [← hs]
      exact logSafeExtension_refl _

/-- **C8** — write never destroys data before validation: a failing
root-scoped write appends no truncation event and no data-write event
to the mutation log (truncation happens only after every identity,
hardlink and containment check has passed, and nothing after it can
fail), and any removal event a failing write appended targets exactly
the path whose creation the same call logged — the compensating removal
of a file this call itself created. A rejected write therefore never
truncates or removes pre-existing data. -/
theorem claim8_write_no_destruction_before_checks
    (params : WriteFileWithinRootParams) (home : FsPath) (s : WriteSt)
    (e : OpenErr) (s' : WriteSt)
    (h : writeFileWithinRoot params home s = .error (e, s')) :
    LogSafeExtension s.log s'.log := by
  unfold writeFileWithinRoot at h
  simp only [bind, WriteM.bind, WriteM.pure, pure, WriteM.throw, WriteM.catch, wQuery, wRealpathOp, wOpenWriteExistingOp, wOpenWriteCreateOp, wMkdirRecOp, Bool.false_eq_true, Bool.not_false, Bool.not_true, if_false, if_true, reduceCtorEq, Except.error.injEq, Prod.mk.injEq] at h
  rcases resolvePathWithinRootW_state params.rootDir params.relativePath home s with
    ⟨e1, hres⟩ | ⟨w, hres⟩
  · simp only [hres, Except.error.injEq, Prod.mk.injEq] at h
    obtain ⟨he, hs⟩ := h
    rw [← hs]
    exact logSafeExtension_refl _
  · simp only [bind, WriteM.bind, WriteM.pure, pure, WriteM.throw, WriteM.catch, wQuery, wRealpathOp, wOpenWriteExistingOp, wOpenWriteCreateOp, wMkdirRecOp, Bool.false_eq_true, Bool.not_false, Bool.not_true, if_false, if_true, reduceCtorEq, Except.error.injEq, Prod.mk.injEq, hres] at h
    cases hal : assertNoPathAliasEscape s.fs w.resolved w.rootReal "root" with
    | error be =>
      simp only [bind, WriteM.bind, WriteM.pure, pure, WriteM.throw, WriteM.catch, wQuery, wRealpathOp, wOpenWriteExistingOp, wOpenWriteCreateOp, wMkdirRecOp, Bool.false_eq_true, Bool.not_false, Bool.not_true, if_false, if_true, reduceCtorEq, Except.error.injEq, Prod.mk.injEq, hal] at h
      obtain ⟨he, hs⟩ := h
      rw [← hs]
      exact logSafeExtension_refl _
    | ok u =>
      simp only [bind, WriteM.bind, WriteM.pure, pure, WriteM.throw, WriteM.catch, wQuery, wRealpathOp, wOpenWriteExistingOp, wOpenWriteCreateOp, wMkdirRecOp, Bool.false_eq_true, Bool.not_false, Bool.not_true, if_false, if_true, reduceCtorEq, Except.error.injEq, Prod.mk.injEq, hal] at h
      by_cases hmk : params.mkdir ≠ some false
      · rw [if_pos hmk] at h
        simp only [bind, WriteM.bind, WriteM.pure, pure, WriteM.throw, WriteM.catch, wQuery, wRealpathOp, wOpenWriteExistingOp, wOpenWriteCreateOp, wMkdirRecOp, Bool.false_eq_true, Bool.not_false, Bool.not_true, if_false, if_true, reduceCtorEq, Except.error.injEq, Prod.mk.injEq] at h
        exact writeFileTail_error_log w.rootWithSep w.resolved params.data
          ⟨mkdirRecGo s.fs [] (dirnameOf w.resolved), s.log⟩ e s' h
      · rw [if_neg hmk] at h
        simp only [bind, WriteM.bind, WriteM.pure, pure, WriteM.throw, WriteM.catch, wQuery, wRealpathOp, wOpenWriteExistingOp, wOpenWriteCreateOp, wMkdirRecOp, Bool.false_eq_true, Bool.not_false, Bool.not_true, if_false, if_true, reduceCtorEq, Except.error.injEq, Prod.mk.injEq] at h
        exact writeFileTail_error_log w.rootWithSep w.resolved params.data s e s' h

def fsC8 : Fs := [([], .dir 1), (["work"], .dir 2), (["work", "a.txt"], .file 3 2 5)]

def paramsC8 : WriteFileWithinRootParams :=
  { rootDir := ["work"], relativePath := ⟨false, ["a.txt"]⟩, data := 7, mkdir := some false }

theorem claim8_write_no_destruction_before_checks_witness :
    writeFileWithinRoot paramsC8 ["home", "u"] ⟨fsC8, []⟩ =
      .error (.safe .invalidPath "hardlinked path not allowed" none, ⟨fsC8, []⟩) ∧
    LogSafeExtension [] [] :=
  ⟨by decide,
    claim8_write_no_destruction_before_checks paramsC8 ["home", "u"] ⟨fsC8, []⟩
      (.safe .invalidPath "hardlinked path not allowed" none) ⟨fsC8, []⟩ (by decide)⟩


/-! ## Boundary file facade (`src/infra/boundary-file-read.ts`, claim C10) -/

/-- `BoundaryFileOpenFailureReason = SafeOpenSyncFailureReason |
"validation"`; `safe-open-sync.ts` is not among the sources, so its
failure reasons are modelled from the spec's error taxonomy
(`SafeOpenErrorCode`). -/
inductive BoundaryFileOpenFailureReason
  | fromSafe (c : SafeOpenErrorCode)
  | validation
  deriving DecidableEq, Repr

/-- The facade's result value: success and failure are discriminated by
the constructor (the `ok` field of the source), never by a thrown
exception. -/
inductive BoundaryFileOpenResult
  | ok (path : FsPath) (fd : Nat) (stat : Stats) (rootRealPath : FsPath)
  | failure (reason : BoundaryFileOpenFailureReason) (error : Option BoundaryError)
  deriving DecidableEq, Repr

/-- The result of `openVerifiedFileSync` (before the facade re-attaches
the root real path). -/
inductive SafeOpenSyncResult
  | ok (path : FsPath) (fd : Nat) (stat : Stats)
  | failure (reason : SafeOpenErrorCode)
  deriving DecidableEq, Repr

/-- The open-and-check step of the modelled `openVerifiedFileSync`. -/
def openVerifiedFileSyncOpen (fs : Fs) (filePath : FsPath)
    (rejectHardlinks : Bool) (maxBytes : Option Nat) : SafeOpenSyncResult :=
  match fsOpenReadNoFollow fs filePath with
  | .error .enoent => .failure .notFound
  | .error .eloop => .failure .symlink
  | .error _ => .failure .invalidPath
  | .ok (stat, cp) =>
    if !(stat.kind == .file) then .failure .notFile
    else if rejectHardlinks && decide (stat.nlink > 1) then .failure .invalidPath
    else
      match maxBytes with
      | some mb => if stat.size > mb then .failure .tooLarge else .ok cp 0 stat
      | none => .ok cp 0 stat

/-- Modelled from the spec: `safe-open-sync.ts` (`openVerifiedFileSync`)
is not among the sources; per the spec's verified-open procedure it
pre-checks the target with `lstat` (directories fail `not-file`), opens
with `O_NOFOLLOW` (classifying `ENOENT` as `not-found` and `ELOOP` as
`symlink`), rejects hardlinks when asked, and enforces `maxBytes`. One
snapshot: the blocking variant runs against a single filesystem
state. -/
def openVerifiedFileSync (fs : Fs) (filePath : FsPath)
    (rejectHardlinks : Bool) (maxBytes : Option Nat) : SafeOpenSyncResult :=
  match fsLstat fs filePath with
  | .ok st =>
    if st.kind == .directory then .failure .notFile
    else openVerifiedFileSyncOpen fs filePath rejectHardlinks maxBytes
  | .error _ => openVerifiedFileSyncOpen fs filePath rejectHardlinks maxBytes

structure OpenBoundaryFileSyncParams where
  absolutePath : FsPath
  rootPath : FsPath
  boundaryLabel : String
  rootRealPath : Option FsPath := none
  maxBytes : Option Nat := none
  rejectHardlinks : Option Bool := none
  skipLexicalRootCheck : Bool := false
  deriving Repr

structure OpenBoundaryFileParams extends OpenBoundaryFileSyncParams where
  aliasPolicy : Option BoundaryPathAliasPolicy := none

structure ResolvedBoundaryFilePath where
  absolutePath : FsPath
  resolvedPath : FsPath
  rootRealPath : FsPath
  deriving DecidableEq, Repr

def toBoundaryValidationError (e : BoundaryError) : BoundaryFileOpenResult :=
  .failure .validation (some e)

def mapResolvedBoundaryPath (absolutePath : FsPath) (resolved : ResolvedBoundaryPath) :
    ResolvedBoundaryFilePath :=
  ⟨absolutePath, resolved.canonicalPath, resolved.rootCanonicalPath⟩

/-- `resolveBoundaryFilePathGeneric`: `path.resolve` the input, run the
supplied resolver, and catch any resolver error as a `validation`
failure value. -/
def resolveBoundaryFilePathGeneric (absolutePath : FsPath)
    (resolve : FsPath → Except BoundaryError ResolvedBoundaryPath) :
    Sum ResolvedBoundaryFilePath BoundaryFileOpenResult :=
  let abs := pathResolve absolutePath
  match resolve abs with
  | .ok r => .inl (mapResolvedBoundaryPath abs r)
  | .error e => .inr (toBoundaryValidationError e)

def openBoundaryFileResolved (fs : Fs) (resolved : ResolvedBoundaryFilePath)
    (maxBytes : Option Nat) (rejectHardlinks : Option Bool) : BoundaryFileOpenResult :=
  match openVerifiedFileSync fs resolved.absolutePath
      (rejectHardlinks.getD true) maxBytes with
  | .failure reason => .failure (.fromSafe reason) none
  | .ok p fd st => .ok p fd st resolved.rootRealPath

/-- The resolver parameter record `openBoundaryFileSync` builds. -/
def boundarySyncResolveParams (p : OpenBoundaryFileSyncParams) (abs : FsPath) :
    ResolveBoundaryPathParams :=
  { absolutePath := abs, rootPath := p.rootPath, boundaryLabel := p.boundaryLabel,
    rootCanonicalPath := p.rootRealPath, skipLexicalRootCheck := p.skipLexicalRootCheck }

/-- The resolver parameter record `openBoundaryFile` builds (it
additionally forwards the alias policy). -/
def boundaryAsyncResolveParams (p : OpenBoundaryFileParams) (abs : FsPath) :
    ResolveBoundaryPathParams :=
  { absolutePath := abs, rootPath := p.rootPath, boundaryLabel := p.boundaryLabel,
    rootCanonicalPath := p.rootRealPath, policy := p.aliasPolicy,
    skipLexicalRootCheck := p.skipLexicalRootCheck }

def openBoundaryFileSync (fs : Fs) (p : OpenBoundaryFileSyncParams) :
    BoundaryFileOpenResult :=
  match resolveBoundaryFilePathGeneric p.absolutePath
      (fun abs => resolveBoundaryPathSync fs (boundarySyncResolveParams p abs)) with
  | .inr res => res
  | .inl resolved => openBoundaryFileResolved fs resolved p.maxBytes p.rejectHardlinks

def openBoundaryFile (fs : Fs) (p : OpenBoundaryFileParams) :
    BoundaryFileOpenResult :=
  match resolveBoundaryFilePathGeneric p.absolutePath
      (fun abs => resolveBoundaryPath fs (boundaryAsyncResolveParams p abs)) with
  | .inr res => res
  | .inl resolved => openBoundaryFileResolved fs resolved p.maxBytes p.rejectHardlinks

/-- **C10** — the boundary file facade is non-throwing on validation
failure: for both the blocking and the suspension-capable variants, an
error produced during boundary path resolution is returned as the value
`{ ok := false, reason := validation, error }` carrying that very
error; success and failure are discriminated by the result constructor,
not by exception propagation. -/
theorem claim10_facade_non_throwing (fs : Fs) (p : OpenBoundaryFileParams)
    (e e2 : BoundaryError) :
    (resolveBoundaryPathSync fs
        (boundarySyncResolveParams p.toOpenBoundaryFileSyncParams
          (pathResolve p.absolutePath)) = .error e →
      openBoundaryFileSync fs p.toOpenBoundaryFileSyncParams =
        .failure .validation (some e)) ∧
    (resolveBoundaryPath fs
        (boundaryAsyncResolveParams p (pathResolve p.absolutePath)) = .error e2 →
      openBoundaryFile fs p = .failure .validation (some e2)) := by
  constructor
  · intro h
    unfold openBoundaryFileSync resolveBoundaryFilePathGeneric
    simp only [h, toBoundaryValidationError]
  · intro h
    unfold openBoundaryFile resolveBoundaryFilePathGeneric
    simp only [h, toBoundaryValidationError]

def paramsC10 : OpenBoundaryFileParams :=
  { absolutePath := ["etc", "passwd"], rootPath := ["work"], boundaryLabel := "workspace" }

def fsC10 : Fs := [([], .dir 1), (["work"], .dir 2), (["etc"], .dir 3),
  (["etc", "passwd"], .file 4 1 9)]

theorem claim10_facade_non_throwing_witness :
    resolveBoundaryPathSync fsC10
      (boundarySyncResolveParams paramsC10.toOpenBoundaryFileSyncParams
        (pathResolve paramsC10.absolutePath)) =
      .error (.pathEscape "workspace" ["work"] ["etc", "passwd"]) ∧
    openBoundaryFileSync fsC10 paramsC10.toOpenBoundaryFileSyncParams =
      .failure .validation (some (.pathEscape "workspace" ["work"] ["etc", "passwd"])) ∧
    openBoundaryFile fsC10 paramsC10 =
      .failure .validation (some (.pathEscape "workspace" ["work"] ["etc", "passwd"])) :=
  ⟨by decide,
    (claim10_facade_non_throwing fsC10 paramsC10
      (.pathEscape "workspace" ["work"] ["etc", "passwd"])
      (.pathEscape "workspace" ["work"] ["etc", "passwd"])).1 (by decide),
    (claim10_facade_non_throwing fsC10 paramsC10
      (.pathEscape "workspace" ["work"] ["etc", "passwd"])
      (.pathEscape "workspace" ["work"] ["etc", "passwd"])).2 (by decide)⟩


/-- **C9** — error-code collapsing in the root-scoped helpers: every
classified failure `openFileWithinRoot` surfaces carries the code
`not-found`, `invalid-path` or `outside-workspace` (the inner verified
open's `symlink` / `not-file` / `path-mismatch` classifications are
re-wrapped into `invalid-path`, keeping the original classification as
the cause), and `readFileWithinRoot` adds only `too-large` from the
size limit. -/
theorem claim9_error_code_collapsing (paramsO : OpenFileWithinRootParams)
    (paramsR : ReadFileWithinRootParams) (home : FsPath) (env : Trace) (s : ReadSt) :
    (∀ e s', openFileWithinRoot paramsO home env s = .error (e, s') →
      ∀ c m cause, e = .safe c m cause →
        c ∈ [SafeOpenErrorCode.notFound, .invalidPath, .outsideWorkspace]) ∧
    (∀ e s', readFileWithinRoot paramsR home env s = .error (e, s') →
      ∀ c m cause, e = .safe c m cause →
        c ∈ [SafeOpenErrorCode.notFound, .invalidPath, .outsideWorkspace, .tooLarge]) :=
  ⟨fun e s' h => openFileWithinRoot_errCodes paramsO home env s e s' h,
    fun e s' h => readFileWithinRoot_errCodes paramsR home env s e s' h⟩

def fsC9 : Fs := [([], .dir 1), (["work"], .dir 2), (["work", "real.txt"], .file 3 1 4),
  (["work", "link"], .symlink 9 ["work", "real.txt"])]

def envC9 : Trace := fun _ => fsC9

def paramsC9 : OpenFileWithinRootParams :=
  { rootDir := ["work"], relativePath := ⟨false, ["link"]⟩ }

theorem claim9_error_code_collapsing_witness :
    openFileWithinRoot paramsC9 ["home", "u"] envC9 ⟨0, []⟩ =
      .error (.safe .invalidPath "path is not a regular file under root"
        (some (.fromSafe .symlink "symlink open blocked")), ⟨4, []⟩) ∧
    SafeOpenErrorCode.invalidPath ∈
      [SafeOpenErrorCode.notFound, .invalidPath, .outsideWorkspace] :=
  ⟨by decide,
    (claim9_error_code_collapsing paramsC9
        { rootDir := ["work"], relativePath := ⟨false, ["link"]⟩ } ["home", "u"]
        envC9 ⟨0, []⟩).1
      (.safe .invalidPath "path is not a regular file under root"
        (some (.fromSafe .symlink "symlink open blocked"))) ⟨4, []⟩ (by decide)
      .invalidPath "path is not a regular file under root"
      (some (.fromSafe .symlink "symlink open blocked")) rfl⟩

end OpenClaw
